import Mathlib

/-!
# The CyberTipline client of `Boostport/ncmec-go`

A shallow embedding of `cybertipline/client.go` and of `date.go`.  Go values
are modelled as follows.

* `string` is a Lean `String`; `[]byte` and the content of an `io.Reader` are
  lists of byte values (`Bytes`), a string being turned into bytes by its
  UTF-8 encoding (`utf8`).
* `int`, `int64` are `Int`; where the two's-complement width matters
  (`strconv.FormatInt`) the reduction modulo `2^64` is written out.
* A pointer field `*T` is an `Option T`; dereferencing `nil` is a run-time
  panic, which the embedding keeps as the outcome `Outcome.panicked`.
* An `error` is a `GoError`, the nil error is `none`.
* The collaborators outside the package (the XML codec working on the
  generated document types, URL parsing, the HTTP client, the random source of
  multi-part boundaries) are explicit parameters.
-/

namespace Cybertipline

/-! ## Errors and outcomes -/

/-- Go `error` values: `errors.New(s)` and `fmt.Errorf` without `%w` build an
`errorString`; `fmt.Errorf` with one `%w` builds a `wrapError` that keeps the
formatted message and the wrapped error. -/
inductive GoError where
  | errorString (s : String)
  | wrapError (msg : String) (err : GoError)
deriving DecidableEq, Repr

/-- The method `Error()` of an error value. -/
def GoError.Error : GoError → String
  | .errorString s => s
  | .wrapError msg _ => msg

/-- The method `Unwrap()`: the wrapped error of a `wrapError`, nothing for
an `errorString`. -/
def GoError.Unwrap : GoError → Option GoError
  | .errorString _ => none
  | .wrapError _ err => some err

/-- Go `errors.New`. -/
def errorsNew (text : String) : GoError := .errorString text

/-- Go `fmt.Errorf(pre + "%w", err)`: the message is `pre` followed by
`err.Error()`, and `err` is kept for `Unwrap`. -/
def ErrorfW (pre : String) (err : GoError) : GoError :=
  .wrapError (pre ++ err.Error) err

/-- Go `fmt.Errorf(pre + "%s", s)` for a string argument `s`. -/
def ErrorfS (pre : String) (s : String) : GoError :=
  .errorString (pre ++ s)

/-- How a Go call ends: it returns its results, or it panics. -/
inductive Outcome (α : Type) where
  | returned (value : α)
  | panicked (reason : String)
deriving DecidableEq, Repr

/-- The run-time error of dereferencing a nil pointer. -/
def nilDereference : String :=
  "runtime error: invalid memory address or nil pointer dereference"

/-! ## Bytes -/

/-- Byte sequences (`[]byte`, the content of readers and buffers). -/
abbrev Bytes := List Nat

/-- The UTF-8 encoding of one character. -/
def utf8EncodeChar (c : Char) : Bytes :=
  let v := c.toNat
  if v ≤ 0x7f then [v]
  else if v ≤ 0x7ff then [0xc0 + v / 64, 0x80 + v % 64]
  else if v ≤ 0xffff then [0xe0 + v / 4096, 0x80 + v / 64 % 64, 0x80 + v % 64]
  else [0xf0 + v / 262144, 0x80 + v / 4096 % 64, 0x80 + v / 64 % 64, 0x80 + v % 64]

/-- The bytes of a Go string (`[]byte(s)`). -/
def utf8 (s : String) : Bytes :=
  s.data.flatMap utf8EncodeChar

/-! ## `strconv.FormatInt` in base 10 -/

/-- The character of one decimal digit `d < 10`. -/
def digitChar (d : Nat) : Char := Char.ofNat (48 + d)

/-- The digit loop of `strconv.formatBits` in base 10: the digits of `u` are
written from the least significant one in front of `acc`.  The argument
`room` is the number of places left in the fixed buffer. -/
def formatBitsLoop : Nat → Nat → List Char → List Char
  | 0, _, acc => acc
  | room + 1, u, acc =>
    if u < 10 then digitChar u :: acc
    else formatBitsLoop room (u / 10) (digitChar (u % 10) :: acc)

/-- Go `strconv.formatBits(nil, u, 10, neg, false)`: `u` is the 64-bit pattern
of the value; when `neg` it is negated modulo `2^64`, its digits are written
into a 65-byte buffer and a minus sign is put in front. -/
def formatBits (u : Nat) (neg : Bool) : String :=
  let u := if neg then (2 ^ 64 - u) % 2 ^ 64 else u
  let digits := formatBitsLoop 64 u []
  String.mk (if neg then '-' :: digits else digits)

/-- Go `strconv.FormatInt(i, 10)` on an `int64`: the conversion
`uint64(i)` is the residue of `i` modulo `2^64`. -/
def FormatInt (i : Int) : String :=
  formatBits (i % 2 ^ 64).toNat (decide (i < 0))

/-! ## `net/url`: query escaping and form values -/

/-- The table `upperhex` of `net/url`. -/
def upperhex (n : Nat) : Char :=
  if n < 10 then Char.ofNat (48 + n) else Char.ofNat (55 + n)

/-- Go `url.shouldEscape(c, encodeQueryComponent)`: letters, digits and
`-`, `_`, `.`, `~` are kept, every other byte is escaped. -/
def shouldEscape (c : Nat) : Bool :=
  !((97 ≤ c && c ≤ 122) || (65 ≤ c && c ≤ 90) || (48 ≤ c && c ≤ 57)
    || c = 45 || c = 95 || c = 46 || c = 126)

/-- One byte of `url.QueryEscape`: a space becomes `+`, an escaped byte
becomes `%XX`, any other byte is copied. -/
def escapeByte (c : Nat) : List Char :=
  if shouldEscape c then
    if c = 32 then ['+'] else ['%', upperhex (c / 16), upperhex (c % 16)]
  else [Char.ofNat c]

/-- Go `url.QueryEscape`. -/
def QueryEscape (s : String) : String :=
  String.mk ((utf8 s).flatMap escapeByte)

/-- Go `url.Values`: a map from keys to lists of values, kept as an
association list with one entry per key. -/
abbrev Values := List (String × List String)

/-- Go `Values.Set`: the key is given the single value `value`. -/
def Values.Set (v : Values) (key value : String) : Values :=
  (key, [value]) :: v.filter (fun kv => kv.1 ≠ key)

/-- Go `Values.Encode`: the keys in sorted order, each value as
`key=value`, both escaped, joined with `&`. -/
def Values.Encode (v : Values) : String :=
  let sorted := v.insertionSort (fun a b => a.1 ≤ b.1)
  let pairs := sorted.flatMap (fun kv => kv.2.map (fun x => QueryEscape kv.1 ++ "=" ++ QueryEscape x))
  "&".intercalate pairs

/-! ## `net/http` -/

/-- Go `http.StatusText`: the text of the registered status codes, the empty
string for every other code. -/
def StatusText (code : Int) : String :=
  if code = 100 then "Continue"
  else if code = 101 then "Switching Protocols"
  else if code = 102 then "Processing"
  else if code = 103 then "Early Hints"
  else if code = 200 then "OK"
  else if code = 201 then "Created"
  else if code = 202 then "Accepted"
  else if code = 203 then "Non-Authoritative Information"
  else if code = 204 then "No Content"
  else if code = 205 then "Reset Content"
  else if code = 206 then "Partial Content"
  else if code = 207 then "Multi-Status"
  else if code = 208 then "Already Reported"
  else if code = 226 then "IM Used"
  else if code = 300 then "Multiple Choices"
  else if code = 301 then "Moved Permanently"
  else if code = 302 then "Found"
  else if code = 303 then "See Other"
  else if code = 304 then "Not Modified"
  else if code = 305 then "Use Proxy"
  else if code = 307 then "Temporary Redirect"
  else if code = 308 then "Permanent Redirect"
  else if code = 400 then "Bad Request"
  else if code = 401 then "Unauthorized"
  else if code = 402 then "Payment Required"
  else if code = 403 then "Forbidden"
  else if code = 404 then "Not Found"
  else if code = 405 then "Method Not Allowed"
  else if code = 406 then "Not Acceptable"
  else if code = 407 then "Proxy Authentication Required"
  else if code = 408 then "Request Timeout"
  else if code = 409 then "Conflict"
  else if code = 410 then "Gone"
  else if code = 411 then "Length Required"
  else if code = 412 then "Precondition Failed"
  else if code = 413 then "Request Entity Too Large"
  else if code = 414 then "Request URI Too Long"
  else if code = 415 then "Unsupported Media Type"
  else if code = 416 then "Requested Range Not Satisfiable"
  else if code = 417 then "Expectation Failed"
  else if code = 418 then "I'm a teapot"
  else if code = 421 then "Misdirected Request"
  else if code = 422 then "Unprocessable Entity"
  else if code = 423 then "Locked"
  else if code = 424 then "Failed Dependency"
  else if code = 425 then "Too Early"
  else if code = 426 then "Upgrade Required"
  else if code = 428 then "Precondition Required"
  else if code = 429 then "Too Many Requests"
  else if code = 431 then "Request Header Fields Too Large"
  else if code = 451 then "Unavailable For Legal Reasons"
  else if code = 500 then "Internal Server Error"
  else if code = 501 then "Not Implemented"
  else if code = 502 then "Bad Gateway"
  else if code = 503 then "Service Unavailable"
  else if code = 504 then "Gateway Timeout"
  else if code = 505 then "HTTP Version Not Supported"
  else if code = 506 then "Variant Also Negotiates"
  else if code = 507 then "Insufficient Storage"
  else if code = 508 then "Loop Detected"
  else if code = 510 then "Not Extended"
  else if code = 511 then "Network Authentication Required"
  else ""

/-- Go `http.StatusOK`. -/
def StatusOK : Int := 200

/-- A non-nil `context.Context`; a nil context is `none` in
`Option Context`. -/
structure Context where
  id : Nat
deriving DecidableEq, Repr

/-- The part of a `*http.Request` that the client sets: the context, the
method, the URL, the credentials given to `SetBasicAuth`, the `Content-Type`
header and the body. -/
structure Request where
  ctx : Context
  Method : String
  URL : String
  BasicAuth : Option (String × String)
  ContentType : Option String
  Body : Bytes
deriving DecidableEq, Repr

/-- The part of a `*http.Response` that the client reads: the status code
and the bytes its body yields. -/
structure Response where
  StatusCode : Int
  Body : Bytes
deriving DecidableEq, Repr

/-- A non-nil `*http.Client`: what its method `Do` answers to a request,
a response or the transport's error. -/
structure HttpClient where
  Do : Request → Except GoError Response

/-- An `io.Reader`: the bytes it yields, and the error other than `io.EOF`
that ends the stream, if there is one. -/
structure Reader where
  bytes : Bytes
  err : Option GoError
deriving DecidableEq, Repr

/-! ## `mime/multipart` -/

/-- Go `multipart.escapeQuotes`: a backslash and a double quote get a
backslash in front. -/
def escapeQuotes (s : String) : String :=
  String.mk (s.data.flatMap (fun c =>
    if c = '\\' then ['\\', '\\'] else if c = '"' then ['\\', '"'] else [c]))

/-- A `*multipart.Writer` over a `bytes.Buffer`: the buffer written so far,
the boundary, and whether a part has been started. -/
structure Writer where
  w : Bytes
  boundary : String
  lastpart : Bool
deriving DecidableEq, Repr

/-- Go `multipart.NewWriter(bytes.NewBuffer(nil))`; `boundary` is the value
that `randomBoundary` draws from the system's random source. -/
def NewWriter (boundary : String) : Writer :=
  { w := [], boundary := boundary, lastpart := false }

/-- Go `Writer.CreatePart` with a header given as its lines in key order:
the boundary line (after a line break unless it is the first part), the header
lines and an empty line.  Writing to a `bytes.Buffer` returns no error. -/
def Writer.CreatePart (w : Writer) (header : List (String × String)) : Except GoError Writer :=
  let first := if w.lastpart then "\r\n--" ++ w.boundary ++ "\r\n" else "--" ++ w.boundary ++ "\r\n"
  let lines := String.join (header.map (fun kv => kv.1 ++ ": " ++ kv.2 ++ "\r\n"))
  .ok { w with w := w.w ++ utf8 (first ++ lines ++ "\r\n"), lastpart := true }

/-- Writing `p` to the part that is open. -/
def Writer.Write (w : Writer) (p : Bytes) : Except GoError Writer :=
  .ok { w with w := w.w ++ p }

/-- Go `Writer.WriteField`. -/
def Writer.WriteField (w : Writer) (fieldname value : String) : Except GoError Writer :=
  match w.CreatePart
      [("Content-Disposition", "form-data; name=\"" ++ escapeQuotes fieldname ++ "\"")] with
  | .error err => .error err
  | .ok p => p.Write (utf8 value)

/-- Go `Writer.CreateFormFile`. -/
def Writer.CreateFormFile (w : Writer) (fieldname filename : String) : Except GoError Writer :=
  w.CreatePart
    [("Content-Disposition", "form-data; name=\"" ++ escapeQuotes fieldname
        ++ "\"; filename=\"" ++ escapeQuotes filename ++ "\""),
     ("Content-Type", "application/octet-stream")]

/-- Go `io.Copy(fileWriter, data)`: the bytes read are written to the part;
the reader's error, if any, is returned. -/
def ioCopy (w : Writer) (data : Reader) : Except GoError Writer :=
  match w.Write data.bytes with
  | .error err => .error err
  | .ok w1 =>
    match data.err with
    | some err => .error err
    | none => .ok w1

/-- Go `Writer.Close`: the closing boundary line. -/
def Writer.Close (w : Writer) : Except GoError Writer :=
  .ok { w with w := w.w ++ utf8 ("\r\n--" ++ w.boundary ++ "--\r\n") }

/-- Go `Writer.FormDataContentType`: the boundary is quoted when it
contains one of the characters `()<>@,;:\"/[]?= `. -/
def Writer.FormDataContentType (w : Writer) : String :=
  let b := if w.boundary.data.any (fun c => "()<>@,;:\\\"/[]?= ".data.contains c)
    then "\"" ++ w.boundary ++ "\"" else w.boundary
  "multipart/form-data; boundary=" ++ b

/-! ## The documents

The document types of the package are generated code that is not among the
source files; the client only hands them to the XML codec, and reads four
fields of a decoded response. -/

/-- Modelled from the spec: the generated type `ReportResponse` (its
declaration is not among the source files).  The response of the service
carries a status code, an optional description and the identifiers; every
field is a pointer in Go, `nil` when the element is absent. -/
structure ReportResponse where
  ResponseCode : Option Int := none
  ResponseDescription : Option String := none
  ReportId : Option Int := none
  FileId : Option String := none
deriving DecidableEq, Repr

/-- Modelled from the spec: the generated type `ReportDoneResponse` (its
declaration is not among the source files), the response to `Finish`, of
which the client reads the status code. -/
structure ReportDoneResponse where
  ResponseCode : Option Int := none
deriving DecidableEq, Repr

/-- Modelled from the spec: the generated type `Person`, with the fields
that the minimal report of `client_test.go` sets. -/
structure Person where
  FirstName : Option String := none
  LastName : Option String := none
deriving DecidableEq, Repr

/-- Modelled from the spec: the generated type `Reporter`. -/
structure Reporter where
  ReportingPerson : Option Person := none
deriving DecidableEq, Repr

/-- Modelled from the spec: the generated type `IncidentSummary`, incident
type and timestamp being kept as their wire tokens. -/
structure IncidentSummary where
  IncidentType : String
  IncidentDateTime : Option String := none
deriving DecidableEq, Repr

/-- Modelled from the spec: the generated type `BatchedReport`. -/
structure BatchedReport where
  Reason : String
deriving DecidableEq, Repr

/-- Modelled from the spec: the generated type `Report` (its declaration is
not among the source files).  `client.go` hands a report to `xml.Marshal` and
reads none of its fields, so only the blocks that `TestClientMinimalReport`
and `TestClientBatchedReport` set are kept; the other blocks of the generated
type (law enforcement, internet details, the person reported, recipients,
victims) are left out, and no statement depends on what a report holds. -/
structure Report where
  BatchedReport : Option BatchedReport := none
  IncidentSummary : Option IncidentSummary := none
  Reporter : Option Reporter := none
deriving DecidableEq, Repr

/-- Modelled from the spec: the generated type `FileDetails` (its
declaration is not among the source files).  `client.go` hands the details to
`xml.Marshal` and reads none of their fields; `testClient` assigns `ReportId`
and `FileId`.  Next to these two only some scalar fields are kept; the other
fields of the generated type (hashes, capture events, device identifiers,
annotations) are left out, and no statement depends on them. -/
structure FileDetails where
  ReportId : Option Int := none
  FileId : Option String := none
  FileName : Option String := none
  OriginalFileName : Option String := none
  LocationOfFile : Option String := none
  FileViewedByEsp : Option Bool := none
  ExifViewedByEsp : Option Bool := none
  PubliclyAvailable : Option Bool := none
  AdditionalInfo : List String := []
deriving DecidableEq, Repr

/-- The library code that the client calls and that is outside the
package: `xml.Marshal` on the two request documents, `xml.Decoder.Decode`
into the two response documents, and the URL check made by
`http.NewRequestWithContext` (the error of `url.Parse`, if any). -/
structure Lib where
  xmlMarshalReport : Report → Except GoError Bytes
  xmlMarshalFileDetails : FileDetails → Except GoError Bytes
  xmlDecodeReportResponse : Bytes → Except GoError ReportResponse
  xmlDecodeReportDoneResponse : Bytes → Except GoError ReportDoneResponse
  urlParse : String → Option GoError

/-- Go `http.NewRequestWithContext(ctx, method, url, body)` for a valid
method: a nil context and an unparsable URL are errors. -/
def NewRequestWithContext (lib : Lib) (ctx : Option Context) (method url : String)
    (body : Bytes) : Except GoError Request :=
  match ctx with
  | none => .error (errorsNew "net/http: nil Context")
  | some cx =>
    match lib.urlParse url with
    | some err => .error err
    | none => .ok { ctx := cx, Method := method, URL := url, BasicAuth := none,
                    ContentType := none, Body := body }

/-! ## The client -/

/-- The type `Environment`, a string. -/
abbrev Environment := String

/-- The constant `Production`. -/
def Production : Environment := "https://report.cybertip.org/ispws"

/-- The constant `Testing`. -/
def Testing : Environment := "https://exttest.cybertip.org/ispws"

/-- The struct `Client`; `httpClient` is a pointer, `none` when nil. -/
structure Client where
  username : String
  password : String
  environment : Environment
  httpClient : Option HttpClient

/-- The option `WithHTTPClient`. -/
def WithHTTPClient (httpClient : Option HttpClient) : Client → Client :=
  fun c => { c with httpClient := httpClient }

/-- The constructor `NewClient`; `defaultHttpClient` stands for the
`http.Client` literal installed when no client was supplied. -/
def NewClient (defaultHttpClient : HttpClient) (username password : String)
    (environment : Environment) (options : List (Client → Client)) : Client :=
  let client : Client :=
    { username := username, password := password, environment := environment,
      httpClient := none }
  let client := options.foldl (fun c option => option c) client
  match client.httpClient with
  | none => { client with httpClient := some defaultHttpClient }
  | some _ => client

/-- A run of an operation: the requests handed to the HTTP client, in
order, and how the call ended. -/
structure Run (α : Type) where
  calls : List Request
  outcome : Outcome α

/-- The method `Client.post`. -/
def Client.post (lib : Lib) (c : Client) (ctx : Option Context) (path contentType : String)
    (body : Bytes) : Run (Except GoError Response) :=
  match NewRequestWithContext lib ctx "POST" (c.environment ++ path) body with
  | .error err => ⟨[], .returned (.error (ErrorfW "error creating request: " err))⟩
  | .ok req =>
    let req := { req with BasicAuth := some (c.username, c.password) }
    let req := { req with ContentType := some contentType }
    match c.httpClient with
    | none => ⟨[], .panicked nilDereference⟩
    | some httpClient =>
      match httpClient.Do req with
      | .error err => ⟨[req], .returned (.error (ErrorfW "error making request: " err))⟩
      | .ok resp => ⟨[req], .returned (.ok resp)⟩

/-- The method `Client.Submit`: the report identifier and the error. -/
def Client.Submit (lib : Lib) (c : Client) (ctx : Option Context) (report : Report) :
    Run (Int × Option GoError) :=
  match lib.xmlMarshalReport report with
  | .error err => ⟨[], .returned (0, some (ErrorfW "error mashaling report to XML: " err))⟩
  | .ok reportXML =>
    let r := c.post lib ctx "/submit" "text/xml; charset=utf-8" reportXML
    ⟨r.calls,
      match r.outcome with
      | .panicked reason => .panicked reason
      | .returned (.error err) => .returned (0, some (ErrorfW "error submitting report: " err))
      | .returned (.ok resp) =>
        match lib.xmlDecodeReportResponse resp.Body with
        | .error err => .returned (0, some (ErrorfW "error decoding report response: " err))
        | .ok reportResponse =>
          match reportResponse.ResponseCode with
          | none => .panicked nilDereference
          | some code =>
            if code ≠ 0 then
              match reportResponse.ResponseDescription with
              | none => .panicked nilDereference
              | some description => .returned (0, some (ErrorfS "error from server: " description))
            else if resp.StatusCode ≠ StatusOK then
              .returned (0, some (errorsNew (StatusText resp.StatusCode)))
            else
              match reportResponse.ReportId with
              | none => .panicked nilDereference
              | some reportId => .returned (reportId, none)⟩

/-- The multi-part body and content type that `Client.Upload` builds, or
the error it returns before posting. -/
def uploadForm (reportId : Int) (filename : String) (data : Reader) (boundary : String) :
    Except GoError (String × Bytes) :=
  let w := NewWriter boundary
  match w.WriteField "id" (FormatInt reportId) with
  | .error err => .error (ErrorfW "error writing report ID field: " err)
  | .ok w =>
    match w.CreateFormFile "file" filename with
    | .error err => .error (ErrorfW "error creating form file: " err)
    | .ok fileWriter =>
      match ioCopy fileWriter data with
      | .error err => .error (ErrorfW "error copying file data: " err)
      | .ok w =>
        match w.Close with
        | .error err => .error (ErrorfW "error closing multipart writer: " err)
        | .ok w => .ok (w.FormDataContentType, w.w)

/-- The method `Client.Upload`: the file identifier and the error.
`boundary` is the multi-part boundary drawn by `multipart.NewWriter`. -/
def Client.Upload (lib : Lib) (c : Client) (ctx : Option Context) (reportId : Int)
    (filename : String) (data : Reader) (boundary : String) : Run (String × Option GoError) :=
  match uploadForm reportId filename data boundary with
  | .error err => ⟨[], .returned ("", some err)⟩
  | .ok (contentType, buf) =>
    let r := c.post lib ctx "/upload" contentType buf
    ⟨r.calls,
      match r.outcome with
      | .panicked reason => .panicked reason
      | .returned (.error err) => .returned ("", some (ErrorfW "error uploading file: " err))
      | .returned (.ok resp) =>
        match lib.xmlDecodeReportResponse resp.Body with
        | .error err => .returned ("", some (ErrorfW "error decoding upload response: " err))
        | .ok reportResponse =>
          match reportResponse.ResponseCode with
          | none => .panicked nilDereference
          | some code =>
            if code ≠ 0 then
              match reportResponse.ResponseDescription with
              | none => .panicked nilDereference
              | some description => .returned ("", some (ErrorfS "error from server: " description))
            else if resp.StatusCode ≠ StatusOK then
              .returned ("", some (errorsNew (StatusText resp.StatusCode)))
            else
              match reportResponse.FileId with
              | none => .panicked nilDereference
              | some fileId => .returned (fileId, none)⟩

/-- The method `Client.FileInfo`. -/
def Client.FileInfo (lib : Lib) (c : Client) (ctx : Option Context) (details : FileDetails) :
    Run (Option GoError) :=
  match lib.xmlMarshalFileDetails details with
  | .error err => ⟨[], .returned (some (ErrorfW "error marshaling file details to XML: " err))⟩
  | .ok fileInfoXML =>
    let r := c.post lib ctx "/fileinfo" "text/xml; charset=utf-8" fileInfoXML
    ⟨r.calls,
      match r.outcome with
      | .panicked reason => .panicked reason
      | .returned (.error err) => .returned (some (ErrorfW "error sending file info: " err))
      | .returned (.ok resp) =>
        match lib.xmlDecodeReportResponse resp.Body with
        | .error err => .returned (some (ErrorfW "error decoding file info response: " err))
        | .ok reportResponse =>
          match reportResponse.ResponseCode with
          | none => .panicked nilDereference
          | some code =>
            if code ≠ 0 then
              match reportResponse.ResponseDescription with
              | none => .panicked nilDereference
              | some description => .returned (some (ErrorfS "error from server: " description))
            else if resp.StatusCode ≠ StatusOK then
              .returned (some (errorsNew (StatusText resp.StatusCode)))
            else .returned none⟩

/-- The method `Client.Finish`. -/
def Client.Finish (lib : Lib) (c : Client) (ctx : Option Context) (reportId : Int) :
    Run (Option GoError) :=
  let form : Values := []
  let form := Values.Set form "id" (FormatInt reportId)
  let r := c.post lib ctx "/finish" "application/x-www-form-urlencoded" (utf8 (Values.Encode form))
  ⟨r.calls,
    match r.outcome with
    | .panicked reason => .panicked reason
    | .returned (.error err) => .returned (some (ErrorfW "error finishing report: " err))
    | .returned (.ok resp) =>
      match lib.xmlDecodeReportDoneResponse resp.Body with
      | .error err => .returned (some (ErrorfW "error decoding finish response: " err))
      | .ok reportDoneResponse =>
        match reportDoneResponse.ResponseCode with
        | none => .panicked nilDereference
        | some code =>
          if code ≠ 0 then .returned (some (errorsNew "error finishing report"))
          else if resp.StatusCode ≠ StatusOK then
            .returned (some (errorsNew (StatusText resp.StatusCode)))
          else .returned none⟩

/-- The method `Client.Retract`. -/
def Client.Retract (lib : Lib) (c : Client) (ctx : Option Context) (reportId : Int) :
    Run (Option GoError) :=
  let form : Values := []
  let form := Values.Set form "id" (FormatInt reportId)
  let r := c.post lib ctx "/retract" "application/x-www-form-urlencoded" (utf8 (Values.Encode form))
  ⟨r.calls,
    match r.outcome with
    | .panicked reason => .panicked reason
    | .returned (.error err) => .returned (some (ErrorfW "error retracting report: " err))
    | .returned (.ok resp) =>
      match lib.xmlDecodeReportResponse resp.Body with
      | .error err => .returned (some (ErrorfW "error decoding finish response: " err))
      | .ok reportResponse =>
        match reportResponse.ResponseCode with
        | none => .panicked nilDereference
        | some code =>
          if code ≠ 0 then .returned (some (errorsNew "error retracting report"))
          else .returned none⟩

/-! ## Vocabulary of the statements -/

/-- The request that `post` hands to the HTTP client under context `cx`. -/
def Client.request (c : Client) (cx : Context) (path contentType : String) (body : Bytes) :
    Request :=
  { ctx := cx, Method := "POST", URL := c.environment ++ path,
    BasicAuth := some (c.username, c.password), ContentType := some contentType, Body := body }

/-- The transport answered the request of `Submit` with `resp`, and the body
of `resp` decodes to the document `rr`. -/
def Client.SubmitAnswered (lib : Lib) (c : Client) (ctx : Option Context) (report : Report)
    (resp : Response) (rr : ReportResponse) : Prop :=
  ∃ reportXML, lib.xmlMarshalReport report = .ok reportXML ∧
    (c.post lib ctx "/submit" "text/xml; charset=utf-8" reportXML).outcome = .returned (.ok resp) ∧
    lib.xmlDecodeReportResponse resp.Body = .ok rr

/-- The transport answered the request of `Upload` with `resp`, and the body
of `resp` decodes to the document `rr`. -/
def Client.UploadAnswered (lib : Lib) (c : Client) (ctx : Option Context) (reportId : Int)
    (filename : String) (data : Reader) (boundary : String)
    (resp : Response) (rr : ReportResponse) : Prop :=
  ∃ contentType buf, uploadForm reportId filename data boundary = .ok (contentType, buf) ∧
    (c.post lib ctx "/upload" contentType buf).outcome = .returned (.ok resp) ∧
    lib.xmlDecodeReportResponse resp.Body = .ok rr

/-- The transport answered the request of `FileInfo` with `resp`, and the
body of `resp` decodes to the document `rr`. -/
def Client.FileInfoAnswered (lib : Lib) (c : Client) (ctx : Option Context)
    (details : FileDetails) (resp : Response) (rr : ReportResponse) : Prop :=
  ∃ fileInfoXML, lib.xmlMarshalFileDetails details = .ok fileInfoXML ∧
    (c.post lib ctx "/fileinfo" "text/xml; charset=utf-8" fileInfoXML).outcome
      = .returned (.ok resp) ∧
    lib.xmlDecodeReportResponse resp.Body = .ok rr

/-- The transport answered the request of `Finish` with `resp`, and the body
of `resp` decodes to the document `rd`. -/
def Client.FinishAnswered (lib : Lib) (c : Client) (ctx : Option Context) (reportId : Int)
    (resp : Response) (rd : ReportDoneResponse) : Prop :=
  (c.post lib ctx "/finish" "application/x-www-form-urlencoded"
      (utf8 (Values.Encode (Values.Set [] "id" (FormatInt reportId))))).outcome
    = .returned (.ok resp) ∧
  lib.xmlDecodeReportDoneResponse resp.Body = .ok rd

/-- The transport answered the request of `Retract` with `resp`, and the
body of `resp` decodes to the document `rr`. -/
def Client.RetractAnswered (lib : Lib) (c : Client) (ctx : Option Context) (reportId : Int)
    (resp : Response) (rr : ReportResponse) : Prop :=
  (c.post lib ctx "/retract" "application/x-www-form-urlencoded"
      (utf8 (Values.Encode (Values.Set [] "id" (FormatInt reportId))))).outcome
    = .returned (.ok resp) ∧
  lib.xmlDecodeReportResponse resp.Body = .ok rr

/-! ## Fixtures for the examples -/

/-- A codec whose encoders always succeed and whose decoders yield the given
documents, with a URL check that accepts every URL. -/
def stubLib (rr : Except GoError ReportResponse) (rd : Except GoError ReportDoneResponse) : Lib :=
  { xmlMarshalReport := fun _ => .ok (utf8 "<report></report>")
    xmlMarshalFileDetails := fun _ => .ok (utf8 "<fileDetails></fileDetails>")
    xmlDecodeReportResponse := fun _ => rr
    xmlDecodeReportDoneResponse := fun _ => rd
    urlParse := fun _ => none }

/-- An HTTP client that answers every request with `resp`. -/
def stubHttpClient (resp : Response) : HttpClient :=
  { Do := fun _ => .ok resp }

/-- A client for the testing environment over `stubHttpClient resp`. -/
def stubClient (resp : Response) : Client :=
  NewClient (stubHttpClient resp) "user" "secret" Testing
    [WithHTTPClient (some (stubHttpClient resp))]

/-- The context `context.Background()`. -/
def background : Option Context := some { id := 0 }

/-- The minimal report of `TestClientMinimalReport`. -/
def minimalReport : Report :=
  { IncidentSummary := some
      { IncidentType := "Child Pornography (possession, manufacture, and distribution)"
        IncidentDateTime := some "2024-01-01T00:00:00Z" }
    Reporter := some
      { ReportingPerson := some { FirstName := some "John", LastName := some "Smith" } } }

/-- A reader that yields the three bytes `1, 2, 3` and then ends. -/
def threeBytes : Reader := { bytes := [1, 2, 3], err := none }

/-! ## The decimal representation, as the specification words it -/

/-- The decimal digits of a natural number, most significant first: the
digit `0` alone for zero, and no leading zero otherwise. -/
def decimalDigits (u : Nat) : List Char :=
  if u = 0 then ['0'] else (Nat.digits 10 u).reverse.map digitChar

/-- The base-10 representation of an integer: a leading `-` when it is
negative, then the decimal digits of its absolute value. -/
def decimalString (n : Int) : String :=
  String.mk ((if n < 0 then ['-'] else []) ++ decimalDigits n.natAbs)

/-! ## The sequence of `testClient` -/

/-- The struct `testFile` of `client_test.go`, with the opened file in place
of its path: the base name, the content that `os.Open` gives, the details,
and the boundary drawn while the file is uploaded. -/
structure TestFile where
  name : String
  data : Reader
  details : FileDetails
  boundary : String
deriving DecidableEq, Repr

/-- The loop of `testClient` over the files: `Upload` under the report
identifier, then `FileInfo` with the two identifiers filled in.  A failing
call ends the test with the message of `t.Fatalf`. -/
def testClientFiles (lib : Lib) (c : Client) (ctx : Option Context) (reportID : Int) :
    List TestFile → Run (Option String)
  | [] => ⟨[], .returned none⟩
  | file :: files =>
    let u := c.Upload lib ctx reportID file.name file.data file.boundary
    match u.outcome with
    | .panicked reason => ⟨u.calls, .panicked reason⟩
    | .returned (_, some err) => ⟨u.calls, .returned (some ("Failed to upload file: " ++ err.Error))⟩
    | .returned (fileID, none) =>
      let fileDetails := { file.details with ReportId := some reportID, FileId := some fileID }
      let i := c.FileInfo lib ctx fileDetails
      match i.outcome with
      | .panicked reason => ⟨u.calls ++ i.calls, .panicked reason⟩
      | .returned (some err) =>
        ⟨u.calls ++ i.calls, .returned (some ("Failed to submit file info: " ++ err.Error))⟩
      | .returned none =>
        let rest := testClientFiles lib c ctx reportID files
        ⟨u.calls ++ i.calls ++ rest.calls, rest.outcome⟩

/-- The helper `testClient` of `client_test.go` on a client `c`: `Submit`,
the loop over the files, `Finish`.  The result is the message of the
`t.Fatalf` that ended the test, or nothing when the test went through. -/
def testClient (lib : Lib) (c : Client) (ctx : Option Context) (report : Report)
    (files : List TestFile) : Run (Option String) :=
  let s := c.Submit lib ctx report
  match s.outcome with
  | .panicked reason => ⟨s.calls, .panicked reason⟩
  | .returned (_, some err) => ⟨s.calls, .returned (some ("Failed to submit report: " ++ err.Error))⟩
  | .returned (reportID, none) =>
    let fs := testClientFiles lib c ctx reportID files
    match fs.outcome with
    | .panicked reason => ⟨s.calls ++ fs.calls, .panicked reason⟩
    | .returned (some msg) => ⟨s.calls ++ fs.calls, .returned (some msg)⟩
    | .returned none =>
      let f := c.Finish lib ctx reportID
      match f.outcome with
      | .panicked reason => ⟨s.calls ++ fs.calls ++ f.calls, .panicked reason⟩
      | .returned (some err) =>
        ⟨s.calls ++ fs.calls ++ f.calls, .returned (some ("Failed to finish report: " ++ err.Error))⟩
      | .returned none => ⟨s.calls ++ fs.calls ++ f.calls, .returned none⟩

/-- The transport `h` accepts everything: it answers every request with HTTP
200 and a body that decodes to a document with status code 0, report
identifier `r` and file identifier `f`. -/
def AcceptsAll (lib : Lib) (h : HttpClient) (r : Int) (f : String) : Prop :=
  ∀ req, ∃ resp rr rd, h.Do req = .ok resp ∧ resp.StatusCode = StatusOK ∧
    lib.xmlDecodeReportResponse resp.Body = .ok rr ∧ rr.ResponseCode = some 0 ∧
    rr.ReportId = some r ∧ rr.FileId = some f ∧
    lib.xmlDecodeReportDoneResponse resp.Body = .ok rd ∧ rd.ResponseCode = some 0

/-! ## The five operations as one family -/

/-- A call of one of the five operations, with its arguments; for `Upload`
the boundary drawn by `multipart.NewWriter` is part of the call. -/
inductive Call where
  | submit (report : Report)
  | upload (reportId : Int) (filename : String) (data : Reader) (boundary : String)
  | fileInfo (details : FileDetails)
  | finish (reportId : Int)
  | retract (reportId : Int)
deriving DecidableEq, Repr

/-- The value an operation returns next to its error: the report
identifier of `Submit`, the file identifier of `Upload`, nothing for the
other three. -/
inductive Value where
  | reportId (id : Int)
  | fileId (id : String)
  | unit
deriving DecidableEq, Repr

/-- The operation that a call stands for, run on the client `c`. -/
def Client.perform (lib : Lib) (c : Client) (ctx : Option Context) :
    Call → Run (Value × Option GoError)
  | .submit report =>
    let r := c.Submit lib ctx report
    ⟨r.calls, match r.outcome with
      | .returned (id, err) => .returned (.reportId id, err)
      | .panicked reason => .panicked reason⟩
  | .upload reportId filename data boundary =>
    let r := c.Upload lib ctx reportId filename data boundary
    ⟨r.calls, match r.outcome with
      | .returned (id, err) => .returned (.fileId id, err)
      | .panicked reason => .panicked reason⟩
  | .fileInfo details =>
    let r := c.FileInfo lib ctx details
    ⟨r.calls, match r.outcome with
      | .returned err => .returned (.unit, err)
      | .panicked reason => .panicked reason⟩
  | .finish reportId =>
    let r := c.Finish lib ctx reportId
    ⟨r.calls, match r.outcome with
      | .returned err => .returned (.unit, err)
      | .panicked reason => .panicked reason⟩
  | .retract reportId =>
    let r := c.Retract lib ctx reportId
    ⟨r.calls, match r.outcome with
      | .returned err => .returned (.unit, err)
      | .panicked reason => .panicked reason⟩

/-- The path to which a call posts. -/
def Call.path : Call → String
  | .submit _ => "/submit"
  | .upload _ _ _ _ => "/upload"
  | .fileInfo _ => "/fileinfo"
  | .finish _ => "/finish"
  | .retract _ => "/retract"

/-- The content type and the body that a call has ready when it posts, or
the error met while building them. -/
def Call.payload (lib : Lib) : Call → Except GoError (String × Bytes)
  | .submit report =>
    match lib.xmlMarshalReport report with
    | .error err => .error err
    | .ok reportXML => .ok ("text/xml; charset=utf-8", reportXML)
  | .upload reportId filename data boundary => uploadForm reportId filename data boundary
  | .fileInfo details =>
    match lib.xmlMarshalFileDetails details with
    | .error err => .error err
    | .ok fileInfoXML => .ok ("text/xml; charset=utf-8", fileInfoXML)
  | .finish reportId =>
    .ok ("application/x-www-form-urlencoded",
      utf8 (Values.Encode (Values.Set [] "id" (FormatInt reportId))))
  | .retract reportId =>
    .ok ("application/x-www-form-urlencoded",
      utf8 (Values.Encode (Values.Set [] "id" (FormatInt reportId))))

/-- The value an operation returns together with a non-nil error. -/
def Call.zero : Call → Value
  | .submit _ => .reportId 0
  | .upload _ _ _ _ => .fileId ""
  | .fileInfo _ => .unit
  | .finish _ => .unit
  | .retract _ => .unit

/-- The errors that `errors.Is` and `errors.As` visit: the error itself and
then, step by step, what `Unwrap` gives. -/
def GoError.chain : GoError → List GoError
  | .errorString s => [.errorString s]
  | .wrapError msg err => .wrapError msg err :: err.chain

/-- An HTTP client whose transport fails every request with `e`. -/
def failingHttpClient (e : GoError) : HttpClient :=
  { Do := fun _ => .error e }

/-- A client for the testing environment over `failingHttpClient e`. -/
def failingClient (e : GoError) : Client :=
  NewClient (failingHttpClient e) "user" "secret" Testing
    [WithHTTPClient (some (failingHttpClient e))]

/-- The library with other decoders for the two response documents. -/
def Lib.withDecoders (lib : Lib) (d1 : Bytes → Except GoError ReportResponse)
    (d2 : Bytes → Except GoError ReportDoneResponse) : Lib :=
  { lib with xmlDecodeReportResponse := d1, xmlDecodeReportDoneResponse := d2 }

/-- The words with which each operation introduces a failure of its
request. -/
def Call.transportPrefix : Call → String
  | .submit _ => "error submitting report: "
  | .upload _ _ _ _ => "error uploading file: "
  | .fileInfo _ => "error sending file info: "
  | .finish _ => "error finishing report: "
  | .retract _ => "error retracting report: "

/-! ## The package `ncmec`: `date.go` -/

/-- Go `fmt` on an integer with the verb `%0Nd` (`fmtInteger` with the
zero flag and the width `wid`): the 64-bit pattern is negated when negative,
its decimal digits are written, zeros are put in front up to the width (one
less when there is a sign), and then the sign. -/
def fmtInteger (wid : Nat) (v : Int) : List Char :=
  let negative := decide (v < 0)
  let u := (v % 2 ^ 64).toNat
  let u := if negative then (2 ^ 64 - u) % 2 ^ 64 else u
  let digits := formatBitsLoop 64 u []
  let prec := if negative then wid - 1 else wid
  let padded := List.replicate (prec - digits.length) '0' ++ digits
  if negative then '-' :: padded else padded

/-- The struct `Date`; `time.Month` is an integer type. -/
structure Date where
  year : Int
  month : Int
  day : Int
deriving DecidableEq, Repr

/-- The method `Date.String`: `fmt.Sprintf("%04d-%02d-%02d", ...)`.  The
verb `%d` prints a `time.Month` as its number. -/
def Date.String (d : Date) : String :=
  String.mk (fmtInteger 4 d.year ++ '-' :: fmtInteger 2 d.month ++ '-' :: fmtInteger 2 d.day)

/-- The method `Date.MarshalText`: the bytes and the error. -/
def Date.MarshalText (d : Date) : Bytes × Option GoError :=
  (utf8 d.String, none)

/-- The constructor `NewDate`. -/
def NewDate (year : Int) (month : Int) (day : Int) : Date :=
  { year := year, month := month, day := day }

/-- A `time.Time` as its accessors show it in its own location: the
calendar date that `Date()` returns, the clock, and the name of the
location. -/
structure Time where
  year : Int
  month : Int
  day : Int
  hour : Nat
  minute : Nat
  second : Nat
  nanosecond : Nat
  location : String
deriving DecidableEq, Repr

/-- Go `Time.Date`: year, month and day of the time in its location. -/
def Time.Date (t : Time) : Int × Int × Int :=
  (t.year, t.month, t.day)

/-- The function `FromTime`. -/
def FromTime (t : Time) : Date :=
  let d : Date := { year := 0, month := 0, day := 0 }
  let (year, month, day) := t.Date
  { d with year := year, month := month, day := day }

/-! ## Categories of failure -/

/-- The kinds of failure of a call once its request is built: the transport
fails, the response does not decode, the service rejects, the HTTP status is
not 200. -/
inductive Category where
  | transport
  | decoding
  | rejection
  | httpStatus
deriving DecidableEq, Repr

/-- The status code and the description of the response document into
which a call decodes the body: `Finish` decodes a `ReportDoneResponse`, the
other operations a `ReportResponse`. -/
def Call.decode (lib : Lib) (call : Call) (body : Bytes) :
    Except GoError (Option Int × Option String) :=
  match call with
  | .finish _ =>
    match lib.xmlDecodeReportDoneResponse body with
    | .error err => .error err
    | .ok rd => .ok (rd.ResponseCode, none)
  | _ =>
    match lib.xmlDecodeReportResponse body with
    | .error err => .error err
    | .ok rr => .ok (rr.ResponseCode, rr.ResponseDescription)

/-- The call returns the error `err`, and the failure is of the kind `k`:
for `transport`, the HTTP client failed the request; for `decoding`, the
client answered and the body did not decode; for `rejection`, the decoded
status code is not 0; for `httpStatus`, the decoded status code is 0 and the
HTTP status is not 200. -/
def Client.FailsIn (lib : Lib) (c : Client) (ctx : Option Context) (call : Call)
    (k : Category) (err : GoError) : Prop :=
  (c.perform lib ctx call).outcome = .returned (call.zero, some err) ∧
  ∃ contentType body, call.payload lib = .ok (contentType, body) ∧
    match k with
    | .transport => ∃ cx h e, ctx = some cx ∧ lib.urlParse (c.environment ++ call.path) = none ∧
        c.httpClient = some h ∧ h.Do (c.request cx call.path contentType body) = .error e
    | .decoding => ∃ resp e,
        (c.post lib ctx call.path contentType body).outcome = .returned (.ok resp) ∧
        call.decode lib resp.Body = .error e
    | .rejection => ∃ resp code desc,
        (c.post lib ctx call.path contentType body).outcome = .returned (.ok resp) ∧
        call.decode lib resp.Body = .ok (some code, desc) ∧ code ≠ 0
    | .httpStatus => ∃ resp desc,
        (c.post lib ctx call.path contentType body).outcome = .returned (.ok resp) ∧
        call.decode lib resp.Body = .ok (some 0, desc) ∧ resp.StatusCode ≠ StatusOK

/-- The kind of failure that a caller reads off the message of an error. -/
def categoryOfMessage (msg : String) : Category :=
  if "error decoding ".data.isPrefixOf msg.data then .decoding
  else if "error from server: ".data.isPrefixOf msg.data || msg = "error finishing report"
      || msg = "error retracting report" then .rejection
  else if "error ".data.isPrefixOf msg.data then .transport
  else .httpStatus

/-! ## Reading a multi-part form

What a receiver of `multipart/form-data` reads from a body, after RFC 2046
and the quoted strings of `mime.ParseMediaType`: the parts between the
boundary lines, with the name and the file name of their
`Content-Disposition` header and their content. -/

/-- One part of a form as a receiver reads it. -/
structure FormPart where
  name : Bytes
  filename : Option Bytes
  content : Bytes
deriving DecidableEq, Repr

/-- The rest of `l` after the bytes `p`, when `l` starts with them. -/
def expect : Bytes → Bytes → Option Bytes
  | [], l => some l
  | _ :: _, [] => none
  | a :: p, b :: l => if a = b then expect p l else none

/-- The bytes before and after the first occurrence of `pat`. -/
def cutAt (pat : Bytes) : Bytes → Option (Bytes × Bytes)
  | [] => (expect pat []).map (fun rest => ([], rest))
  | b :: l =>
    match expect pat (b :: l) with
    | some rest => some ([], rest)
    | none => (cutAt pat l).map (fun r => (b :: r.1, r.2))

/-- The characters `()<>@,;:\"/[]?=` of `mime.isTSpecial`, as bytes. -/
def isTSpecial (c : Nat) : Bool :=
  [40, 41, 60, 62, 64, 44, 59, 58, 92, 34, 47, 91, 93, 63, 61].contains c

/-- The value of a quoted string after its opening quote, and what follows
the closing quote.  A backslash in front of a special character stands for
that character, any other backslash for itself; a carriage return or a line
feed inside the quotes is an error.  `escaped` tells that the byte before
was such a backslash. -/
def readQuoted : Bool → Bytes → Option (Bytes × Bytes)
  | _, [] => none
  | false, c :: rest =>
    if c = 34 then some ([], rest)
    else if c = 13 ∨ c = 10 then none
    else if c = 92 then readQuoted true rest
    else (readQuoted false rest).map (fun r => (c :: r.1, r.2))
  | true, c :: rest =>
    if isTSpecial c then (readQuoted false rest).map (fun r => (c :: r.1, r.2))
    else if c = 13 ∨ c = 10 then none
    else (readQuoted false rest).map (fun r => (92 :: c :: r.1, r.2))

/-- The name and the file name of a header line
`Content-Disposition: form-data; name="..."`, with or without
`; filename="..."`. -/
def readDisposition (line : Bytes) : Option (Bytes × Option Bytes) :=
  match expect (utf8 "Content-Disposition: form-data; name=\"") line with
  | none => none
  | some rest =>
    match readQuoted false rest with
    | none => none
    | some (name, rest) =>
      if rest = [] then some (name, none)
      else
        match expect (utf8 "; filename=\"") rest with
        | none => none
        | some rest =>
          match readQuoted false rest with
          | none => none
          | some (filename, rest) => if rest = [] then some (name, some filename) else none

/-- The header lines of a part up to the empty line, and what follows. -/
def readHeaderLines : Nat → Bytes → Option (List Bytes × Bytes)
  | 0, _ => none
  | fuel + 1, l =>
    match cutAt [13, 10] l with
    | none => none
    | some (line, rest) =>
      if line = [] then some ([], rest)
      else (readHeaderLines fuel rest).map (fun r => (line :: r.1, r.2))

/-- The line that separates the parts: a line break, two dashes and the
boundary. -/
def delimiter (boundary : String) : Bytes :=
  13 :: 10 :: utf8 ("--" ++ boundary)

/-- The parts of a body from the first header on: each part ends at the next
delimiter, and the body ends with the delimiter followed by two dashes and a
line break. -/
def readParts (boundary : String) : Nat → Bytes → Option (List FormPart)
  | 0, _ => none
  | fuel + 1, l =>
    match readHeaderLines (l.length + 1) l with
    | none => none
    | some (lines, rest) =>
      match lines.findSome? readDisposition with
      | none => none
      | some (name, filename) =>
        match cutAt (delimiter boundary) rest with
        | none => none
        | some (content, after) =>
          if after = [45, 45, 13, 10] then
            some [{ name := name, filename := filename, content := content }]
          else
            match expect [13, 10] after with
            | none => none
            | some next =>
              (readParts boundary fuel next).map
                (fun parts => { name := name, filename := filename, content := content } :: parts)

/-- The parts of a multi-part body with the given boundary. -/
def readForm (boundary : String) (body : Bytes) : Option (List FormPart) :=
  match expect (utf8 ("--" ++ boundary)) body with
  | none => none
  | some rest =>
    match expect [13, 10] rest with
    | none => none
    | some rest => readParts boundary (body.length + 1) rest

/-- The content `b` holds no delimiter that would end its part early:
read up to the first delimiter, `b` followed by a delimiter is `b`. -/
def FreeOfDelimiter (boundary : String) (b : Bytes) : Prop :=
  ∀ rest, cutAt (delimiter boundary) (b ++ delimiter boundary ++ rest) = some (b, rest)

/-- The body that `Client.Upload` posts, empty when building it fails. -/
def uploadBody (reportId : Int) (filename : String) (data : Reader) (boundary : String) : Bytes :=
  match uploadForm reportId filename data boundary with
  | .ok (_, buf) => buf
  | .error _ => []

/-- Go `multipart.escapeQuotes` on one byte. -/
def quoteByte (b : Nat) : Bytes :=
  if b = 92 then [92, 92] else if b = 34 then [92, 34] else [b]

/-- The header line of the field `id`. -/
def idLine : Bytes := utf8 "Content-Disposition: form-data; name=\"id\""

/-- The header line of the file part for an escaped file name. -/
def fileLine (quoted : Bytes) : Bytes :=
  utf8 "Content-Disposition: form-data; name=\"file\"; filename=\"" ++ quoted ++ [34]

/-- The header line that gives the content type of the file part. -/
def typeLine : Bytes := utf8 "Content-Type: application/octet-stream"

/-- The file part of the form and the closing line: the two header lines,
the empty line, the content, and the delimiter followed by two dashes. -/
def fileSection (boundary : String) (quoted content : Bytes) : Bytes :=
  fileLine quoted ++ ([13, 10] ++ (typeLine ++ ([13, 10] ++ ([13, 10] ++
    (content ++ (delimiter boundary ++ [45, 45, 13, 10]))))))

/-! ## More fixtures -/

/-- A codec whose two encoders fail with `e`. -/
def failingMarshalLib (e : GoError) : Lib :=
  { xmlMarshalReport := fun _ => .error e
    xmlMarshalFileDetails := fun _ => .error e
    xmlDecodeReportResponse := fun _ => .ok { }
    xmlDecodeReportDoneResponse := fun _ => .ok { }
    urlParse := fun _ => none }

/-- The status codes to which `http.StatusText` gives a text. -/
def registeredStatusCodes : List Int :=
  [100, 101, 102, 103, 200, 201, 202, 203, 204, 205, 206, 207, 208, 226,
   300, 301, 302, 303, 304, 305, 307, 308,
   400, 401, 402, 403, 404, 405, 406, 407, 408, 409, 410, 411, 412, 413, 414, 415, 416, 417,
   418, 421, 422, 423, 424, 425, 426, 428, 429, 431, 451,
   500, 501, 502, 503, 504, 505, 506, 507, 508, 510, 511]

/-- The HTTP client that the options leave: the one of the last option. -/
def lastSupplied (supplied : List (Option HttpClient)) : Option HttpClient :=
  supplied.getLast?.join

/-- The loop of `NewClient` over its options. -/
def applyOptions (options : List (Client → Client)) (client : Client) : Client :=
  options.foldl (fun c option => option c) client

/-- The client that `NewClient` builds before it applies the options. -/
def initialClient (username password : String) (environment : Environment) : Client :=
  { username := username, password := password, environment := environment, httpClient := none }

/-! ## Reading decimal numbers back -/

/-- The value of a decimal digit. -/
def digitValue (c : Char) : Option Nat :=
  if 48 ≤ c.toNat ∧ c.toNat ≤ 57 then some (c.toNat - 48) else none

/-- The number written by the digits `cs` after the digits read so far,
whose value is `acc`; nothing when a character is not a digit. -/
def parseDigits : List Char → Nat → Option Nat
  | [], acc => some acc
  | c :: cs, acc =>
    match digitValue c with
    | none => none
    | some d => parseDigits cs (acc * 10 + d)

/-- The number written by a non-empty string of decimal digits. -/
def parseUint (cs : List Char) : Option Nat :=
  if cs = [] then none else parseDigits cs 0

/-- Go `strconv.ParseInt(s, 10, 64)`, with `none` for its errors: an
optional sign, decimal digits, and a value in the 64-bit range. -/
def ParseInt (s : String) : Option Int :=
  match s.data with
  | [] => none
  | c :: cs =>
    if c = '-' then
      match parseUint cs with
      | none => none
      | some u => if u ≤ 2 ^ 63 then some (-(u : Int)) else none
    else if c = '+' then
      match parseUint cs with
      | none => none
      | some u => if u < 2 ^ 63 then some (u : Int) else none
    else
      match parseUint (c :: cs) with
      | none => none
      | some u => if u < 2 ^ 63 then some (u : Int) else none

/-- Go `strconv.ParseInt(string(b), 10, 64)` on bytes. -/
def parseIntBytes (b : Bytes) : Option Int :=
  ParseInt (String.mk (b.map Char.ofNat))

/-- The identifier that a receiver reads from a form body with the single
field `id`. -/
def readIdField (body : Bytes) : Option Int :=
  match expect (utf8 "id=") body with
  | none => none
  | some value => parseIntBytes value

/-- The fields of a string between its `-` characters. -/
def splitDash : List Char → List (List Char)
  | [] => [[]]
  | c :: cs =>
    if c = '-' then [] :: splitDash cs
    else
      match splitDash cs with
      | [] => [[c]]
      | field :: fields => (c :: field) :: fields

/-- The year, month and day read from a string of three decimal numbers
with `-` between them. -/
def readDate (s : String) : Option (Int × Int × Int) :=
  match splitDash s.data with
  | [y, m, d] =>
    match parseUint y, parseUint m, parseUint d with
    | some year, some month, some day => some ((year : Int), (month : Int), (day : Int))
    | _, _, _ => none
  | _ => none

/-! ## Transports that answer a call alike -/

/-- The HTTP clients of two clients answer a call alike: both are nil, or
both are set and give the same answer to the request that the call builds on
the first client.  Nothing is asked of their answers to other requests. -/
def Client.AnswersAlike (lib : Lib) (ctx : Option Context) (call : Call) (c1 c2 : Client) : Prop :=
  (c1.httpClient = none ∧ c2.httpClient = none) ∨
  ∃ h1 h2, c1.httpClient = some h1 ∧ c2.httpClient = some h2 ∧
    ∀ cx contentType body, ctx = some cx → call.payload lib = .ok (contentType, body) →
      h1.Do (c1.request cx call.path contentType body)
        = h2.Do (c1.request cx call.path contentType body)

/-- An HTTP client that answers the requests to `url` with `resp` and fails
every other request with `e`. -/
def onlyAt (url : String) (resp : Response) (e : GoError) : HttpClient :=
  { Do := fun req => if req.URL = url then .ok resp else .error e }

/-! ## Calls one after the other, with the state made explicit

The methods have the pointer receiver `c *Client`, and `c.httpClient.Do` acts
on the world behind the HTTP client (its connections, the remote service),
which may answer a request differently after an earlier one.  Here the
methods are written in state-passing form: they take the store they run in
and return the store they leave behind. -/

/-- A non-nil `*http.Client` with the state behind it made explicit: `Do`
takes the request and the state of the world, and gives the answer, a
response or the transport's error, with the state of the world after the
request. -/
structure Stateful.HttpClient (σ : Type) where
  Do : Request → σ → Except GoError Response × σ

/-- The struct `Client`; `httpClient` is a pointer, `none` when nil. -/
structure Stateful.Client (σ : Type) where
  username : String
  password : String
  environment : Environment
  httpClient : Option (Stateful.HttpClient σ)

/-- The store a method runs in: the struct that its receiver `c` points to,
and the state of the world behind the HTTP client. -/
structure Stateful.Store (σ : Type) where
  client : Stateful.Client σ
  world : σ

/-- The method `Client.post` in state-passing form. -/
def Stateful.Client.post {σ : Type} (lib : Lib) (ctx : Option Context)
    (path contentType : String) (body : Bytes) (s : Stateful.Store σ) :
    Stateful.Store σ × Run (Except GoError Response) :=
  match NewRequestWithContext lib ctx "POST" (s.client.environment ++ path) body with
  | .error err => (s, ⟨[], .returned (.error (ErrorfW "error creating request: " err))⟩)
  | .ok req =>
    let req := { req with BasicAuth := some (s.client.username, s.client.password) }
    let req := { req with ContentType := some contentType }
    match s.client.httpClient with
    | none => (s, ⟨[], .panicked nilDereference⟩)
    | some httpClient =>
      match httpClient.Do req s.world with
      | (.error err, world) =>
        ({ s with world := world },
          ⟨[req], .returned (.error (ErrorfW "error making request: " err))⟩)
      | (.ok resp, world) => ({ s with world := world }, ⟨[req], .returned (.ok resp)⟩)

/-- The method `Client.Submit` in state-passing form. -/
def Stateful.Client.Submit {σ : Type} (lib : Lib) (ctx : Option Context) (report : Report)
    (s : Stateful.Store σ) : Stateful.Store σ × Run (Int × Option GoError) :=
  match lib.xmlMarshalReport report with
  | .error err => (s, ⟨[], .returned (0, some (ErrorfW "error mashaling report to XML: " err))⟩)
  | .ok reportXML =>
    let p := Stateful.Client.post lib ctx "/submit" "text/xml; charset=utf-8" reportXML s
    (p.1, ⟨p.2.calls,
      match p.2.outcome with
      | .panicked reason => .panicked reason
      | .returned (.error err) => .returned (0, some (ErrorfW "error submitting report: " err))
      | .returned (.ok resp) =>
        match lib.xmlDecodeReportResponse resp.Body with
        | .error err => .returned (0, some (ErrorfW "error decoding report response: " err))
        | .ok reportResponse =>
          match reportResponse.ResponseCode with
          | none => .panicked nilDereference
          | some code =>
            if code ≠ 0 then
              match reportResponse.ResponseDescription with
              | none => .panicked nilDereference
              | some description => .returned (0, some (ErrorfS "error from server: " description))
            else if resp.StatusCode ≠ StatusOK then
              .returned (0, some (errorsNew (StatusText resp.StatusCode)))
            else
              match reportResponse.ReportId with
              | none => .panicked nilDereference
              | some reportId => .returned (reportId, none)⟩)

/-- The method `Client.Upload` in state-passing form; `boundary` is the
multi-part boundary drawn by `multipart.NewWriter`. -/
def Stateful.Client.Upload {σ : Type} (lib : Lib) (ctx : Option Context) (reportId : Int)
    (filename : String) (data : Reader) (boundary : String) (s : Stateful.Store σ) :
    Stateful.Store σ × Run (String × Option GoError) :=
  match uploadForm reportId filename data boundary with
  | .error err => (s, ⟨[], .returned ("", some err)⟩)
  | .ok (contentType, buf) =>
    let p := Stateful.Client.post lib ctx "/upload" contentType buf s
    (p.1, ⟨p.2.calls,
      match p.2.outcome with
      | .panicked reason => .panicked reason
      | .returned (.error err) => .returned ("", some (ErrorfW "error uploading file: " err))
      | .returned (.ok resp) =>
        match lib.xmlDecodeReportResponse resp.Body with
        | .error err => .returned ("", some (ErrorfW "error decoding upload response: " err))
        | .ok reportResponse =>
          match reportResponse.ResponseCode with
          | none => .panicked nilDereference
          | some code =>
            if code ≠ 0 then
              match reportResponse.ResponseDescription with
              | none => .panicked nilDereference
              | some description => .returned ("", some (ErrorfS "error from server: " description))
            else if resp.StatusCode ≠ StatusOK then
              .returned ("", some (errorsNew (StatusText resp.StatusCode)))
            else
              match reportResponse.FileId with
              | none => .panicked nilDereference
              | some fileId => .returned (fileId, none)⟩)

/-- The method `Client.FileInfo` in state-passing form. -/
def Stateful.Client.FileInfo {σ : Type} (lib : Lib) (ctx : Option Context)
    (details : FileDetails) (s : Stateful.Store σ) : Stateful.Store σ × Run (Option GoError) :=
  match lib.xmlMarshalFileDetails details with
  | .error err =>
    (s, ⟨[], .returned (some (ErrorfW "error marshaling file details to XML: " err))⟩)
  | .ok fileInfoXML =>
    let p := Stateful.Client.post lib ctx "/fileinfo" "text/xml; charset=utf-8" fileInfoXML s
    (p.1, ⟨p.2.calls,
      match p.2.outcome with
      | .panicked reason => .panicked reason
      | .returned (.error err) => .returned (some (ErrorfW "error sending file info: " err))
      | .returned (.ok resp) =>
        match lib.xmlDecodeReportResponse resp.Body with
        | .error err => .returned (some (ErrorfW "error decoding file info response: " err))
        | .ok reportResponse =>
          match reportResponse.ResponseCode with
          | none => .panicked nilDereference
          | some code =>
            if code ≠ 0 then
              match reportResponse.ResponseDescription with
              | none => .panicked nilDereference
              | some description => .returned (some (ErrorfS "error from server: " description))
            else if resp.StatusCode ≠ StatusOK then
              .returned (some (errorsNew (StatusText resp.StatusCode)))
            else .returned none⟩)

/-- The method `Client.Finish` in state-passing form. -/
def Stateful.Client.Finish {σ : Type} (lib : Lib) (ctx : Option Context) (reportId : Int)
    (s : Stateful.Store σ) : Stateful.Store σ × Run (Option GoError) :=
  let form : Values := []
  let form := Values.Set form "id" (FormatInt reportId)
  let p := Stateful.Client.post lib ctx "/finish" "application/x-www-form-urlencoded"
    (utf8 (Values.Encode form)) s
  (p.1, ⟨p.2.calls,
    match p.2.outcome with
    | .panicked reason => .panicked reason
    | .returned (.error err) => .returned (some (ErrorfW "error finishing report: " err))
    | .returned (.ok resp) =>
      match lib.xmlDecodeReportDoneResponse resp.Body with
      | .error err => .returned (some (ErrorfW "error decoding finish response: " err))
      | .ok reportDoneResponse =>
        match reportDoneResponse.ResponseCode with
        | none => .panicked nilDereference
        | some code =>
          if code ≠ 0 then .returned (some (errorsNew "error finishing report"))
          else if resp.StatusCode ≠ StatusOK then
            .returned (some (errorsNew (StatusText resp.StatusCode)))
          else .returned none⟩)

/-- The method `Client.Retract` in state-passing form. -/
def Stateful.Client.Retract {σ : Type} (lib : Lib) (ctx : Option Context) (reportId : Int)
    (s : Stateful.Store σ) : Stateful.Store σ × Run (Option GoError) :=
  let form : Values := []
  let form := Values.Set form "id" (FormatInt reportId)
  let p := Stateful.Client.post lib ctx "/retract" "application/x-www-form-urlencoded"
    (utf8 (Values.Encode form)) s
  (p.1, ⟨p.2.calls,
    match p.2.outcome with
    | .panicked reason => .panicked reason
    | .returned (.error err) => .returned (some (ErrorfW "error retracting report: " err))
    | .returned (.ok resp) =>
      match lib.xmlDecodeReportResponse resp.Body with
      | .error err => .returned (some (ErrorfW "error decoding finish response: " err))
      | .ok reportResponse =>
        match reportResponse.ResponseCode with
        | none => .panicked nilDereference
        | some code =>
          if code ≠ 0 then .returned (some (errorsNew "error retracting report"))
          else .returned none⟩)

/-- The operation that a call stands for, run in the store `s`. -/
def Stateful.perform {σ : Type} (lib : Lib) (ctx : Option Context) (call : Call)
    (s : Stateful.Store σ) : Stateful.Store σ × Run (Value × Option GoError) :=
  match call with
  | .submit report =>
    let p := Stateful.Client.Submit lib ctx report s
    (p.1, ⟨p.2.calls, match p.2.outcome with
      | .returned (id, err) => .returned (.reportId id, err)
      | .panicked reason => .panicked reason⟩)
  | .upload reportId filename data boundary =>
    let p := Stateful.Client.Upload lib ctx reportId filename data boundary s
    (p.1, ⟨p.2.calls, match p.2.outcome with
      | .returned (id, err) => .returned (.fileId id, err)
      | .panicked reason => .panicked reason⟩)
  | .fileInfo details =>
    let p := Stateful.Client.FileInfo lib ctx details s
    (p.1, ⟨p.2.calls, match p.2.outcome with
      | .returned err => .returned (.unit, err)
      | .panicked reason => .panicked reason⟩)
  | .finish reportId =>
    let p := Stateful.Client.Finish lib ctx reportId s
    (p.1, ⟨p.2.calls, match p.2.outcome with
      | .returned err => .returned (.unit, err)
      | .panicked reason => .panicked reason⟩)
  | .retract reportId =>
    let p := Stateful.Client.Retract lib ctx reportId s
    (p.1, ⟨p.2.calls, match p.2.outcome with
      | .returned err => .returned (.unit, err)
      | .panicked reason => .panicked reason⟩)

/-- Calls made one after the other, each in the store that the one before
left: the store after the last call. -/
def Stateful.after {σ : Type} (lib : Lib) (ctx : Option Context) :
    List Call → Stateful.Store σ → Stateful.Store σ
  | [], s => s
  | call :: calls, s => Stateful.after lib ctx calls (Stateful.perform lib ctx call s).1

/-- The request that `post` hands to the HTTP client under context `cx`. -/
def Stateful.Client.request {σ : Type} (c : Stateful.Client σ) (cx : Context)
    (path contentType : String) (body : Bytes) : Request :=
  { ctx := cx, Method := "POST", URL := c.environment ++ path,
    BasicAuth := some (c.username, c.password), ContentType := some contentType, Body := body }

/-- The client of a store with its HTTP client taken at the present state of
the world: it answers every request as the HTTP client of the store would
answer it now. -/
def Stateful.Store.snapshot {σ : Type} (s : Stateful.Store σ) : Cybertipline.Client :=
  { username := s.client.username, password := s.client.password,
    environment := s.client.environment,
    httpClient := s.client.httpClient.map (fun h => { Do := fun req => (h.Do req s.world).1 }) }

/-- A pure HTTP client as one with state: the state is left as it is. -/
def Stateful.HttpClient.ofPure {σ : Type} (h : Cybertipline.HttpClient) :
    Stateful.HttpClient σ :=
  { Do := fun req world => (h.Do req, world) }

/-- A client over a pure HTTP client as a client with state. -/
def Stateful.Client.ofPure {σ : Type} (c : Cybertipline.Client) : Stateful.Client σ :=
  { username := c.username, password := c.password, environment := c.environment,
    httpClient := c.httpClient.map Stateful.HttpClient.ofPure }

/-- A service that remembers: once a request to the finish URL of the
testing environment has been made, it answers every other request with the
body `[0]`; until then, and to the finish requests, it answers with the body
`[1]`.  The state is whether a report was finished. -/
def rememberingService : Stateful.HttpClient Bool :=
  { Do := fun req finished =>
      if req.URL = Testing ++ "/finish" then (.ok { StatusCode := 200, Body := [1] }, true)
      else if finished then (.ok { StatusCode := 200, Body := [0] }, finished)
      else (.ok { StatusCode := 200, Body := [1] }, finished) }

/-- A codec that reads the body `[1]` as a document with status code 0 and
any other body as a rejection with status code 4100. -/
def rememberingLib : Lib :=
  { xmlMarshalReport := fun _ => .ok (utf8 "<report></report>")
    xmlMarshalFileDetails := fun _ => .ok (utf8 "<fileDetails></fileDetails>")
    xmlDecodeReportResponse := fun body =>
      if body = [1] then .ok { ResponseCode := some 0 }
      else .ok { ResponseCode := some 4100, ResponseDescription := some "report is finished" }
    xmlDecodeReportDoneResponse := fun body =>
      if body = [1] then .ok { ResponseCode := some 0 } else .ok { ResponseCode := some 4100 }
    urlParse := fun _ => none }

/-- A store with a client for the testing environment over the remembering
service, before any report was finished. -/
def rememberingStore : Stateful.Store Bool :=
  { client := { username := "user", password := "secret", environment := Testing,
                httpClient := some rememberingService }
    world := false }

/-! # Theorems -/

/-! ## Shared lemmas -/

/-- Once the transport has answered and the body has decoded, the result of
`Submit` is decided by the document and the HTTP status alone. -/
theorem Submit_outcome_of_answered {lib : Lib} {c : Client} {ctx : Option Context}
    {report : Report} {resp : Response} {rr : ReportResponse}
    (h : c.SubmitAnswered lib ctx report resp rr) :
    (c.Submit lib ctx report).outcome =
      match rr.ResponseCode with
      | none => .panicked nilDereference
      | some code =>
        if code ≠ 0 then
          match rr.ResponseDescription with
          | none => .panicked nilDereference
          | some description => .returned (0, some (ErrorfS "error from server: " description))
        else if resp.StatusCode ≠ StatusOK then
          .returned (0, some (errorsNew (StatusText resp.StatusCode)))
        else
          match rr.ReportId with
          | none => .panicked nilDereference
          | some reportId => .returned (reportId, none) := by
  obtain ⟨reportXML, hm, hp, hd⟩ := h
  simp only [Client.Submit, hm, hp, hd]

/-- Once the transport has answered and the body has decoded, the result of
`Upload` is decided by the document and the HTTP status alone. -/
theorem Upload_outcome_of_answered {lib : Lib} {c : Client} {ctx : Option Context}
    {reportId : Int} {filename : String} {data : Reader} {boundary : String}
    {resp : Response} {rr : ReportResponse}
    (h : c.UploadAnswered lib ctx reportId filename data boundary resp rr) :
    (c.Upload lib ctx reportId filename data boundary).outcome =
      match rr.ResponseCode with
      | none => .panicked nilDereference
      | some code =>
        if code ≠ 0 then
          match rr.ResponseDescription with
          | none => .panicked nilDereference
          | some description => .returned ("", some (ErrorfS "error from server: " description))
        else if resp.StatusCode ≠ StatusOK then
          .returned ("", some (errorsNew (StatusText resp.StatusCode)))
        else
          match rr.FileId with
          | none => .panicked nilDereference
          | some fileId => .returned (fileId, none) := by
  obtain ⟨contentType, buf, hm, hp, hd⟩ := h
  simp only [Client.Upload, hm, hp, hd]

/-- Once the transport has answered and the body has decoded, the result of
`FileInfo` is decided by the document and the HTTP status alone. -/
theorem FileInfo_outcome_of_answered {lib : Lib} {c : Client} {ctx : Option Context}
    {details : FileDetails} {resp : Response} {rr : ReportResponse}
    (h : c.FileInfoAnswered lib ctx details resp rr) :
    (c.FileInfo lib ctx details).outcome =
      match rr.ResponseCode with
      | none => .panicked nilDereference
      | some code =>
        if code ≠ 0 then
          match rr.ResponseDescription with
          | none => .panicked nilDereference
          | some description => .returned (some (ErrorfS "error from server: " description))
        else if resp.StatusCode ≠ StatusOK then
          .returned (some (errorsNew (StatusText resp.StatusCode)))
        else .returned none := by
  obtain ⟨fileInfoXML, hm, hp, hd⟩ := h
  simp only [Client.FileInfo, hm, hp, hd]

/-- Once the transport has answered and the body has decoded, the result of
`Finish` is decided by the document and the HTTP status alone. -/
theorem Finish_outcome_of_answered {lib : Lib} {c : Client} {ctx : Option Context}
    {reportId : Int} {resp : Response} {rd : ReportDoneResponse}
    (h : c.FinishAnswered lib ctx reportId resp rd) :
    (c.Finish lib ctx reportId).outcome =
      match rd.ResponseCode with
      | none => .panicked nilDereference
      | some code =>
        if code ≠ 0 then .returned (some (errorsNew "error finishing report"))
        else if resp.StatusCode ≠ StatusOK then
          .returned (some (errorsNew (StatusText resp.StatusCode)))
        else .returned none := by
  obtain ⟨hp, hd⟩ := h
  simp only [Client.Finish, hp, hd]

/-- Once the transport has answered and the body has decoded, the result of
`Retract` is decided by the status code of the document alone. -/
theorem Retract_outcome_of_answered {lib : Lib} {c : Client} {ctx : Option Context}
    {reportId : Int} {resp : Response} {rr : ReportResponse}
    (h : c.RetractAnswered lib ctx reportId resp rr) :
    (c.Retract lib ctx reportId).outcome =
      match rr.ResponseCode with
      | none => .panicked nilDereference
      | some code =>
        if code ≠ 0 then .returned (some (errorsNew "error retracting report"))
        else .returned none := by
  obtain ⟨hp, hd⟩ := h
  simp only [Client.Retract, hp, hd]

/-! ## `FormatInt` writes the decimal representation -/

/-- With room for all its digits, the digit loop writes the decimal digits
of `u` in front of the accumulator. -/
theorem formatBitsLoop_eq_decimalDigits (room : Nat) :
    ∀ (u : Nat) (acc : List Char), u < 10 ^ (room + 1) →
      formatBitsLoop (room + 1) u acc = decimalDigits u ++ acc := by
  induction room with
  | zero =>
    intro u acc hu
    have hu10 : u < 10 := by simpa using hu
    simp only [formatBitsLoop, hu10, if_true]
    unfold decimalDigits
    by_cases h0 : u = 0
    · subst h0; rfl
    · rw [if_neg h0, Nat.digits_of_lt 10 u h0 hu10]; rfl
  | succ room ih =>
    intro u acc hu
    by_cases hu10 : u < 10
    · simp only [formatBitsLoop, hu10, if_true]
      unfold decimalDigits
      by_cases h0 : u = 0
      · subst h0; rfl
      · rw [if_neg h0, Nat.digits_of_lt 10 u h0 hu10]; rfl
    · have hpos : 0 < u := by omega
      have hdiv : u / 10 < 10 ^ (room + 1) := by
        rw [Nat.div_lt_iff_lt_mul (by norm_num)]
        calc u < 10 ^ (room + 1 + 1) := hu
          _ = 10 ^ (room + 1) * 10 := by ring
      have hdiv0 : u / 10 ≠ 0 := by omega
      have hu0 : u ≠ 0 := by omega
      rw [formatBitsLoop, if_neg hu10, ih (u / 10) _ hdiv]
      unfold decimalDigits
      rw [if_neg hdiv0, if_neg hu0, Nat.digits_def' (by norm_num) hpos]
      simp

/-- On the 64-bit range `FormatInt` is the base-10 representation; the
buffer of 64 digits is never exhausted. -/
theorem formatBits_int64 (n : Int) (hlo : -2 ^ 63 ≤ n) (hhi : n < 2 ^ 63) :
    FormatInt n = decimalString n := by
  have hlt : n.natAbs < 10 ^ (63 + 1) := by
    have : n.natAbs ≤ 2 ^ 63 := by omega
    calc n.natAbs ≤ 2 ^ 63 := this
      _ < 10 ^ (63 + 1) := by norm_num
  unfold FormatInt formatBits decimalString
  by_cases hneg : n < 0
  · have hu : (2 ^ 64 - (n % 2 ^ 64).toNat) % 2 ^ 64 = n.natAbs := by omega
    simp only [hneg, decide_True, if_true, hu]
    rw [formatBitsLoop_eq_decimalDigits 63 _ _ hlt]
    simp
  · have hu : (n % 2 ^ 64).toNat = n.natAbs := by omega
    simp only [hneg, decide_False, if_false, hu, Bool.false_eq_true]
    rw [formatBitsLoop_eq_decimalDigits 63 _ _ hlt]
    simp

/-! ## The form body of `Finish` and `Retract` -/

/-- A decimal digit is one byte, which query escaping keeps. -/
theorem escape_digitChar (d : Nat) (hd : d < 10) :
    (utf8EncodeChar (digitChar d)).flatMap escapeByte = [digitChar d] := by
  interval_cases d <;> rfl

/-- Query escaping keeps every character of a digit string. -/
theorem escape_decimalDigits (u : Nat) :
    ∀ ch ∈ decimalDigits u, (utf8EncodeChar ch).flatMap escapeByte = [ch] := by
  intro ch hch
  unfold decimalDigits at hch
  split at hch
  · simp at hch; subst hch; rfl
  · simp only [List.mem_map, List.mem_reverse] at hch
    obtain ⟨d, hd, rfl⟩ := hch
    exact escape_digitChar d (Nat.digits_lt_base (by norm_num) hd)

/-- A string of characters that escaping keeps is its own escaped form. -/
theorem QueryEscape_of_unreserved (s : String)
    (h : ∀ ch ∈ s.data, (utf8EncodeChar ch).flatMap escapeByte = [ch]) :
    QueryEscape s = s := by
  unfold QueryEscape utf8
  rw [List.flatMap_assoc]
  have : (s.data.flatMap fun x => (utf8EncodeChar x).flatMap escapeByte) = s.data := by
    have key : ∀ l : List Char, (∀ ch ∈ l, (utf8EncodeChar ch).flatMap escapeByte = [ch]) →
        (l.flatMap fun x => (utf8EncodeChar x).flatMap escapeByte) = l := by
      intro l
      induction l with
      | nil => intro _; rfl
      | cons a l ih =>
        intro hl
        rw [List.flatMap_cons, hl a (List.mem_cons_self a l),
          ih (fun ch hch => hl ch (List.mem_cons_of_mem a hch))]
        rfl
    exact key s.data h
  rw [this]

/-- The base-10 representation of an integer needs no escaping. -/
theorem QueryEscape_decimalString (n : Int) : QueryEscape (decimalString n) = decimalString n := by
  apply QueryEscape_of_unreserved
  intro ch hch
  unfold decimalString at hch
  simp only [List.mem_append] at hch
  rcases hch with hch | hch
  · split at hch
    · simp at hch; subst hch; rfl
    · simp at hch
  · exact escape_decimalDigits _ ch hch

/-- The encoded form with the single field `id`. -/
theorem Encode_id (v : String) :
    Values.Encode (Values.Set [] "id" v) = "id=" ++ QueryEscape v := by
  have h1 : Values.Encode (Values.Set [] "id" v) = QueryEscape "id" ++ "=" ++ QueryEscape v := rfl
  have h2 : QueryEscape "id" = "id" := by decide
  rw [h1, h2]
  rfl

/-- With a context, a URL that parses and an HTTP client, `post` hands
exactly one request to the client and passes its answer on. -/
theorem post_sends (lib : Lib) (c : Client) (cx : Context) (h : HttpClient)
    (path contentType : String) (body : Bytes)
    (hurl : lib.urlParse (c.environment ++ path) = none) (hc : c.httpClient = some h) :
    c.post lib (some cx) path contentType body =
      ⟨[c.request cx path contentType body],
        match h.Do (c.request cx path contentType body) with
        | .error err => .returned (.error (ErrorfW "error making request: " err))
        | .ok resp => .returned (.ok resp)⟩ := by
  simp only [Client.post, NewRequestWithContext, hurl, hc, Client.request]
  split <;> simp_all

/-! ## The accepted sequence -/

/-- Building the multi-part form succeeds when the file reads without
error. -/
theorem uploadForm_of_readable (reportId : Int) (filename : String) (data : Reader)
    (boundary : String) (hdata : data.err = none) :
    ∃ contentType buf, uploadForm reportId filename data boundary = .ok (contentType, buf) := by
  simp [uploadForm, Writer.WriteField, Writer.CreatePart, Writer.Write, Writer.CreateFormFile,
    ioCopy, hdata, Writer.Close, NewWriter]

/-- The run of `Submit` against a transport that accepts everything. -/
theorem Submit_accepted (lib : Lib) (c : Client) (cx : Context) (h : HttpClient) (r : Int)
    (f : String) (report : Report) (reportXML : Bytes)
    (hc : c.httpClient = some h) (hurl : ∀ path, lib.urlParse (c.environment ++ path) = none)
    (hacc : AcceptsAll lib h r f) (hm : lib.xmlMarshalReport report = .ok reportXML) :
    c.Submit lib (some cx) report =
      ⟨[c.request cx "/submit" "text/xml; charset=utf-8" reportXML], .returned (r, none)⟩ := by
  obtain ⟨resp, rr, rd, hdo, hst, hdr, hcode, hrid, hfid, hdd, hdcode⟩ :=
    hacc (c.request cx "/submit" "text/xml; charset=utf-8" reportXML)
  simp [Client.Submit, hm, post_sends lib c cx h _ _ _ (hurl _) hc, hdo, hdr, hcode, hst, hrid]

/-- The run of `Upload` against a transport that accepts everything. -/
theorem Upload_accepted (lib : Lib) (c : Client) (cx : Context) (h : HttpClient) (r : Int)
    (f : String) (reportId : Int) (filename : String) (data : Reader) (boundary : String)
    (contentType : String) (buf : Bytes)
    (hc : c.httpClient = some h) (hurl : ∀ path, lib.urlParse (c.environment ++ path) = none)
    (hacc : AcceptsAll lib h r f)
    (hform : uploadForm reportId filename data boundary = .ok (contentType, buf)) :
    c.Upload lib (some cx) reportId filename data boundary =
      ⟨[c.request cx "/upload" contentType buf], .returned (f, none)⟩ := by
  obtain ⟨resp, rr, rd, hdo, hst, hdr, hcode, hrid, hfid, hdd, hdcode⟩ :=
    hacc (c.request cx "/upload" contentType buf)
  simp [Client.Upload, hform, post_sends lib c cx h _ _ _ (hurl _) hc, hdo, hdr, hcode, hst, hfid]

/-- The run of `FileInfo` against a transport that accepts everything. -/
theorem FileInfo_accepted (lib : Lib) (c : Client) (cx : Context) (h : HttpClient) (r : Int)
    (f : String) (details : FileDetails) (fileInfoXML : Bytes)
    (hc : c.httpClient = some h) (hurl : ∀ path, lib.urlParse (c.environment ++ path) = none)
    (hacc : AcceptsAll lib h r f) (hm : lib.xmlMarshalFileDetails details = .ok fileInfoXML) :
    c.FileInfo lib (some cx) details =
      ⟨[c.request cx "/fileinfo" "text/xml; charset=utf-8" fileInfoXML], .returned none⟩ := by
  obtain ⟨resp, rr, rd, hdo, hst, hdr, hcode, hrid, hfid, hdd, hdcode⟩ :=
    hacc (c.request cx "/fileinfo" "text/xml; charset=utf-8" fileInfoXML)
  simp [Client.FileInfo, hm, post_sends lib c cx h _ _ _ (hurl _) hc, hdo, hdr, hcode, hst]

/-- The run of `Finish` against a transport that accepts everything. -/
theorem Finish_accepted (lib : Lib) (c : Client) (cx : Context) (h : HttpClient) (r : Int)
    (f : String) (reportId : Int)
    (hc : c.httpClient = some h) (hurl : ∀ path, lib.urlParse (c.environment ++ path) = none)
    (hacc : AcceptsAll lib h r f) :
    c.Finish lib (some cx) reportId =
      ⟨[c.request cx "/finish" "application/x-www-form-urlencoded"
          (utf8 (Values.Encode (Values.Set [] "id" (FormatInt reportId))))],
        .returned none⟩ := by
  obtain ⟨resp, rr, rd, hdo, hst, hdr, hcode, hrid, hfid, hdd, hdcode⟩ :=
    hacc (c.request cx "/finish" "application/x-www-form-urlencoded"
      (utf8 (Values.Encode (Values.Set [] "id" (FormatInt reportId)))))
  simp [Client.Finish, post_sends lib c cx h _ _ _ (hurl _) hc, hdo, hdd, hdcode, hst]

/-! ## Success and failure of the operations -/

/-- C1, at the input where the claim fails: the service answers `Submit`
with HTTP 200 and a document that has status code 1 and report identifier 7
but no description.  The status code and the identifier are present and
the status code is not 0, so the claim promises a non-nil error; `Submit`
dereferences the absent description and panics instead of returning. -/
theorem Submit_rejection_without_description_does_not_return :
    (Client.Submit
        (stubLib (.ok { ResponseCode := some 1, ReportId := some 7 }) (.ok { }))
        (stubClient { StatusCode := 200, Body := [] }) background minimalReport).outcome
      = .panicked nilDereference ∧
    ∀ id err,
      (Client.Submit
          (stubLib (.ok { ResponseCode := some 1, ReportId := some 7 }) (.ok { }))
          (stubClient { StatusCode := 200, Body := [] }) background minimalReport).outcome
        ≠ .returned (id, some err) := by
  refine ⟨rfl, ?_⟩
  intro id err h
  exact Outcome.noConfusion h

/-- C2: the identifier that `Submit` returns.  Whenever `Submit` returns with
a non-nil error the identifier is 0; whenever it returns with a nil error,
the transport answered with a response whose body decodes to a document, and
the identifier returned is the `reportId` of that document. -/
theorem Submit_identifier_only_on_success (lib : Lib) (c : Client) (ctx : Option Context)
    (report : Report) (id : Int) (err : Option GoError)
    (h : (c.Submit lib ctx report).outcome = .returned (id, err)) :
    (err ≠ none → id = 0) ∧
    (err = none → ∃ resp rr, c.SubmitAnswered lib ctx report resp rr ∧ rr.ReportId = some id) := by
  unfold Client.Submit at h
  cases hm : lib.xmlMarshalReport report with
  | error e => simp [hm] at h; obtain ⟨rfl, rfl⟩ := h; simp
  | ok reportXML =>
    simp only [hm] at h
    cases hp : (c.post lib ctx "/submit" "text/xml; charset=utf-8" reportXML).outcome with
    | panicked reason => simp [hp] at h
    | returned v =>
      cases v with
      | error e => simp [hp] at h; obtain ⟨rfl, rfl⟩ := h; simp
      | ok resp =>
        simp only [hp] at h
        cases hd : lib.xmlDecodeReportResponse resp.Body with
        | error e => simp [hd] at h; obtain ⟨rfl, rfl⟩ := h; simp
        | ok rr =>
          simp only [hd] at h
          cases hc : rr.ResponseCode with
          | none => simp [hc] at h
          | some code =>
            simp only [hc] at h
            split at h
            · cases hdesc : rr.ResponseDescription with
              | none => simp [hdesc] at h
              | some d => simp [hdesc] at h; obtain ⟨rfl, rfl⟩ := h; simp
            · split at h
              · simp at h; obtain ⟨rfl, rfl⟩ := h; simp
              · cases hid : rr.ReportId with
                | none => simp [hid] at h
                | some rid =>
                  simp [hid] at h
                  obtain ⟨rfl, rfl⟩ := h
                  exact ⟨fun hne => absurd rfl hne, fun _ => ⟨resp, rr, ⟨reportXML, hm, hp, hd⟩, hid⟩⟩

/-- C2 at a concrete run: the service accepts the minimal report with
identifier 7. -/
theorem Submit_identifier_only_on_success_witness :
    (Client.Submit
        (stubLib (.ok { ResponseCode := some 0, ReportId := some 7 }) (.ok { }))
        (stubClient { StatusCode := 200, Body := [] }) background minimalReport).outcome
      = .returned (7, none) ∧
    ((none : Option GoError) ≠ none → (7 : Int) = 0) ∧
    ((none : Option GoError) = none → ∃ resp rr,
      (stubClient { StatusCode := 200, Body := [] }).SubmitAnswered
        (stubLib (.ok { ResponseCode := some 0, ReportId := some 7 }) (.ok { }))
        background minimalReport resp rr ∧ rr.ReportId = some 7) :=
  ⟨rfl,
    Submit_identifier_only_on_success
      (stubLib (.ok { ResponseCode := some 0, ReportId := some 7 }) (.ok { }))
      (stubClient { StatusCode := 200, Body := [] }) background minimalReport 7 none rfl⟩

/-- Where the success rule of C1 does hold: given an answer whose document
has a status code, the identifier the operation reads, and a description
whenever the status code is not 0, each of `Submit`, `Upload` and
`FileInfo` returns the nil error exactly when the status code is 0 and the
HTTP status is 200, and returns a non-nil error otherwise; `Finish` does so
without any condition on the description. -/
theorem success_iff_accepted_given_description (lib : Lib) (c : Client) (ctx : Option Context)
    (report : Report) (reportId : Int) (filename : String) (data : Reader) (boundary : String)
    (details : FileDetails) (resp : Response) (rr : ReportResponse) (rd : ReportDoneResponse)
    (code id : Int) (fid d : String) :
    (c.SubmitAnswered lib ctx report resp rr → rr.ResponseCode = some code →
      rr.ReportId = some id → rr.ResponseDescription = some d →
      ((code = 0 ∧ resp.StatusCode = StatusOK →
          (c.Submit lib ctx report).outcome = .returned (id, none)) ∧
        (¬(code = 0 ∧ resp.StatusCode = StatusOK) →
          ∃ err, (c.Submit lib ctx report).outcome = .returned (0, some err)))) ∧
    (c.UploadAnswered lib ctx reportId filename data boundary resp rr →
      rr.ResponseCode = some code → rr.FileId = some fid → rr.ResponseDescription = some d →
      ((code = 0 ∧ resp.StatusCode = StatusOK →
          (c.Upload lib ctx reportId filename data boundary).outcome = .returned (fid, none)) ∧
        (¬(code = 0 ∧ resp.StatusCode = StatusOK) →
          ∃ err, (c.Upload lib ctx reportId filename data boundary).outcome
            = .returned ("", some err)))) ∧
    (c.FileInfoAnswered lib ctx details resp rr → rr.ResponseCode = some code →
      rr.ResponseDescription = some d →
      ((code = 0 ∧ resp.StatusCode = StatusOK →
          (c.FileInfo lib ctx details).outcome = .returned none) ∧
        (¬(code = 0 ∧ resp.StatusCode = StatusOK) →
          ∃ err, (c.FileInfo lib ctx details).outcome = .returned (some err)))) ∧
    (c.FinishAnswered lib ctx reportId resp rd → rd.ResponseCode = some code →
      ((code = 0 ∧ resp.StatusCode = StatusOK →
          (c.Finish lib ctx reportId).outcome = .returned none) ∧
        (¬(code = 0 ∧ resp.StatusCode = StatusOK) →
          ∃ err, (c.Finish lib ctx reportId).outcome = .returned (some err)))) := by
  refine ⟨fun h hc hi hd => ?_, fun h hc hi hd => ?_, fun h hc hd => ?_, fun h hc => ?_⟩
  · rw [Submit_outcome_of_answered h]
    refine ⟨fun hok => by simp [hc, hi, hok.1, hok.2], fun hno => ?_⟩
    by_cases h0 : code = 0
    · have hs : resp.StatusCode ≠ StatusOK := fun hs => hno ⟨h0, hs⟩
      exact ⟨errorsNew (StatusText resp.StatusCode), by simp [hc, h0, hs]⟩
    · exact ⟨ErrorfS "error from server: " d, by simp [hc, h0, hd]⟩
  · rw [Upload_outcome_of_answered h]
    refine ⟨fun hok => by simp [hc, hi, hok.1, hok.2], fun hno => ?_⟩
    by_cases h0 : code = 0
    · have hs : resp.StatusCode ≠ StatusOK := fun hs => hno ⟨h0, hs⟩
      exact ⟨errorsNew (StatusText resp.StatusCode), by simp [hc, h0, hs]⟩
    · exact ⟨ErrorfS "error from server: " d, by simp [hc, h0, hd]⟩
  · rw [FileInfo_outcome_of_answered h]
    refine ⟨fun hok => by simp [hc, hok.1, hok.2], fun hno => ?_⟩
    by_cases h0 : code = 0
    · have hs : resp.StatusCode ≠ StatusOK := fun hs => hno ⟨h0, hs⟩
      exact ⟨errorsNew (StatusText resp.StatusCode), by simp [hc, h0, hs]⟩
    · exact ⟨ErrorfS "error from server: " d, by simp [hc, h0, hd]⟩
  · rw [Finish_outcome_of_answered h]
    refine ⟨fun hok => by simp [hc, hok.1, hok.2], fun hno => ?_⟩
    by_cases h0 : code = 0
    · have hs : resp.StatusCode ≠ StatusOK := fun hs => hno ⟨h0, hs⟩
      exact ⟨errorsNew (StatusText resp.StatusCode), by simp [hc, h0, hs]⟩
    · exact ⟨errorsNew "error finishing report", by simp [hc, h0]⟩

/-- C3, at the input where the claim fails: the service answers with HTTP
200 and a well-formed document that has no status-code element (here it has
the two identifiers and a description).  The claim promises a non-nil error
from every operation; each of the five operations dereferences the absent
status code and panics. -/
theorem absent_status_code_panics :
    (Client.Submit
        (stubLib (.ok { ResponseDescription := some "ok", ReportId := some 7, FileId := some "f" })
          (.ok { }))
        (stubClient { StatusCode := 200, Body := [] }) background minimalReport).outcome
      = .panicked nilDereference ∧
    (Client.Upload
        (stubLib (.ok { ResponseDescription := some "ok", ReportId := some 7, FileId := some "f" })
          (.ok { }))
        (stubClient { StatusCode := 200, Body := [] }) background 7 "gopher.png" threeBytes
        "b0").outcome
      = .panicked nilDereference ∧
    (Client.FileInfo
        (stubLib (.ok { ResponseDescription := some "ok", ReportId := some 7, FileId := some "f" })
          (.ok { }))
        (stubClient { StatusCode := 200, Body := [] }) background
        { ReportId := some 7, FileId := some "f" }).outcome
      = .panicked nilDereference ∧
    (Client.Finish
        (stubLib (.ok { ResponseDescription := some "ok", ReportId := some 7, FileId := some "f" })
          (.ok { }))
        (stubClient { StatusCode := 200, Body := [] }) background 7).outcome
      = .panicked nilDereference ∧
    (Client.Retract
        (stubLib (.ok { ResponseDescription := some "ok", ReportId := some 7, FileId := some "f" })
          (.ok { }))
        (stubClient { StatusCode := 200, Body := [] }) background 7).outcome
      = .panicked nilDereference :=
  ⟨rfl, rfl, rfl, rfl, rfl⟩

/-- C4: the description of the service in the error.  For `Submit`, `Upload`
and `FileInfo`, when the transport answered and the decoded document has a
non-zero status code and the description `d`, the operation returns an error
whose message is `"error from server: "` followed by `d` (and `Submit`
returns the identifier 0, `Upload` the empty string). -/
theorem rejection_error_carries_description (lib : Lib) (c : Client) (ctx : Option Context)
    (report : Report) (reportId : Int) (filename : String) (data : Reader) (boundary : String)
    (details : FileDetails) (resp : Response) (rr : ReportResponse) (code : Int) (d : String)
    (hcode : rr.ResponseCode = some code) (hne : code ≠ 0)
    (hdesc : rr.ResponseDescription = some d) :
    (c.SubmitAnswered lib ctx report resp rr →
      ∃ err, (c.Submit lib ctx report).outcome = .returned (0, some err) ∧
        err.Error = "error from server: " ++ d) ∧
    (c.UploadAnswered lib ctx reportId filename data boundary resp rr →
      ∃ err, (c.Upload lib ctx reportId filename data boundary).outcome
          = .returned ("", some err) ∧
        err.Error = "error from server: " ++ d) ∧
    (c.FileInfoAnswered lib ctx details resp rr →
      ∃ err, (c.FileInfo lib ctx details).outcome = .returned (some err) ∧
        err.Error = "error from server: " ++ d) := by
  refine ⟨fun h => ?_, fun h => ?_, fun h => ?_⟩
  · refine ⟨ErrorfS "error from server: " d, ?_, rfl⟩
    rw [Submit_outcome_of_answered h]
    simp [hcode, hne, hdesc]
  · refine ⟨ErrorfS "error from server: " d, ?_, rfl⟩
    rw [Upload_outcome_of_answered h]
    simp [hcode, hne, hdesc]
  · refine ⟨ErrorfS "error from server: " d, ?_, rfl⟩
    rw [FileInfo_outcome_of_answered h]
    simp [hcode, hne, hdesc]

/-- C4 at a concrete run: the service rejects with status code 4100 and the
description `"Invalid report"`, under HTTP 200. -/
theorem rejection_error_carries_description_witness :
    (∃ err, (Client.Submit
          (stubLib (.ok { ResponseCode := some 4100, ResponseDescription := some "Invalid report" })
            (.ok { }))
          (stubClient { StatusCode := 200, Body := [] }) background minimalReport).outcome
        = .returned (0, some err) ∧ err.Error = "error from server: " ++ "Invalid report") ∧
    (∃ err, (Client.Upload
          (stubLib (.ok { ResponseCode := some 4100, ResponseDescription := some "Invalid report" })
            (.ok { }))
          (stubClient { StatusCode := 200, Body := [] }) background 7 "gopher.png" threeBytes
          "b0").outcome
        = .returned ("", some err) ∧ err.Error = "error from server: " ++ "Invalid report") ∧
    (∃ err, (Client.FileInfo
          (stubLib (.ok { ResponseCode := some 4100, ResponseDescription := some "Invalid report" })
            (.ok { }))
          (stubClient { StatusCode := 200, Body := [] }) background
          { ReportId := some 7, FileId := some "f" }).outcome
        = .returned (some err) ∧ err.Error = "error from server: " ++ "Invalid report") :=
  have h := rejection_error_carries_description
    (stubLib (.ok { ResponseCode := some 4100, ResponseDescription := some "Invalid report" })
      (.ok { }))
    (stubClient { StatusCode := 200, Body := [] }) background minimalReport 7 "gopher.png"
    threeBytes "b0" { ReportId := some 7, FileId := some "f" } { StatusCode := 200, Body := [] }
    { ResponseCode := some 4100, ResponseDescription := some "Invalid report" } 4100
    "Invalid report" rfl (by decide) rfl
  ⟨h.1 ⟨_, rfl, rfl, rfl⟩, h.2.1 ⟨_, _, rfl, rfl, rfl⟩, h.2.2 ⟨_, rfl, rfl, rfl⟩⟩

/-- C5, at the input where the claim fails: the service answers with HTTP
200 and a document that has status code 4100 and no description element.
The claim promises an application-rejection error with a generic message;
`Submit`, `Upload` and `FileInfo` dereference the absent description and
panic, while `Finish` and `Retract` return their generic rejection error
on the same answer. -/
theorem rejection_without_description_panics :
    (Client.Submit (stubLib (.ok { ResponseCode := some 4100 }) (.ok { ResponseCode := some 4100 }))
        (stubClient { StatusCode := 200, Body := [] }) background minimalReport).outcome
      = .panicked nilDereference ∧
    (Client.Upload (stubLib (.ok { ResponseCode := some 4100 }) (.ok { ResponseCode := some 4100 }))
        (stubClient { StatusCode := 200, Body := [] }) background 7 "gopher.png" threeBytes
        "b0").outcome
      = .panicked nilDereference ∧
    (Client.FileInfo
        (stubLib (.ok { ResponseCode := some 4100 }) (.ok { ResponseCode := some 4100 }))
        (stubClient { StatusCode := 200, Body := [] }) background
        { ReportId := some 7, FileId := some "f" }).outcome
      = .panicked nilDereference ∧
    (Client.Finish (stubLib (.ok { ResponseCode := some 4100 }) (.ok { ResponseCode := some 4100 }))
        (stubClient { StatusCode := 200, Body := [] }) background 7).outcome
      = .returned (some (errorsNew "error finishing report")) ∧
    (Client.Retract
        (stubLib (.ok { ResponseCode := some 4100 }) (.ok { ResponseCode := some 4100 }))
        (stubClient { StatusCode := 200, Body := [] }) background 7).outcome
      = .returned (some (errorsNew "error retracting report")) :=
  ⟨rfl, rfl, rfl, rfl, rfl⟩

/-- C6, at the input where the claim fails: the service answers with HTTP
500 and a document with status code 0.  The claim promises an
HTTP-status-mismatch error from `Retract`; `Retract` returns the nil error,
while `Finish` on the same answer returns the error
`"Internal Server Error"`. -/
theorem Retract_ignores_http_status :
    (Client.Retract (stubLib (.ok { ResponseCode := some 0 }) (.ok { ResponseCode := some 0 }))
        (stubClient { StatusCode := 500, Body := [] }) background 7).outcome
      = .returned none ∧
    (Client.Finish (stubLib (.ok { ResponseCode := some 0 }) (.ok { ResponseCode := some 0 }))
        (stubClient { StatusCode := 500, Body := [] }) background 7).outcome
      = .returned (some (errorsNew "Internal Server Error")) :=
  ⟨rfl, rfl⟩

/-- C7: `Retract` and the verdict of the service.  When the transport
answered and the decoded document has the status code `code`: for every
non-zero `code` the call returns the error `"error retracting report"`, never
the nil error; for `code = 0` under HTTP 200 it returns the nil error. -/
theorem Retract_fails_exactly_when_rejected (lib : Lib) (c : Client) (ctx : Option Context)
    (reportId : Int) (resp : Response) (rr : ReportResponse) (code : Int)
    (h : c.RetractAnswered lib ctx reportId resp rr) (hcode : rr.ResponseCode = some code) :
    (code ≠ 0 →
      (c.Retract lib ctx reportId).outcome = .returned (some (errorsNew "error retracting report")) ∧
      (c.Retract lib ctx reportId).outcome ≠ .returned none) ∧
    (code = 0 → resp.StatusCode = StatusOK → (c.Retract lib ctx reportId).outcome = .returned none) := by
  rw [Retract_outcome_of_answered h]
  refine ⟨fun hne => ?_, fun h0 _ => ?_⟩
  · simp [hcode, hne]
  · simp [hcode, h0]

/-- C7 at the sequence of `TestRetractReport`: the service accepts the report
with identifier 7 and then accepts its retraction, both under HTTP 200. -/
theorem Retract_fails_exactly_when_rejected_witness :
    (Client.Submit
        (stubLib (.ok { ResponseCode := some 0, ReportId := some 7 }) (.ok { }))
        (stubClient { StatusCode := 200, Body := [] }) background
        { minimalReport with BatchedReport := some { Reason := "VIRAL_POTENTIAL_MEME" } }).outcome
      = .returned (7, none) ∧
    (Client.Retract
        (stubLib (.ok { ResponseCode := some 0, ReportId := some 7 }) (.ok { }))
        (stubClient { StatusCode := 200, Body := [] }) background 7).outcome
      = .returned none :=
  ⟨rfl,
    (Retract_fails_exactly_when_rejected
      (stubLib (.ok { ResponseCode := some 0, ReportId := some 7 }) (.ok { }))
      (stubClient { StatusCode := 200, Body := [] }) background 7
      { StatusCode := 200, Body := [] } { ResponseCode := some 0, ReportId := some 7 } 0
      ⟨rfl, rfl⟩ rfl).2 rfl rfl⟩

/-- Shared lemma: how a call of `Upload` that returns can have
ended. -/
theorem Upload_returned_cases (lib : Lib) (c : Client) (ctx : Option Context) (reportId : Int)
    (filename : String) (data : Reader) (boundary : String) (s : String) (err : Option GoError)
    (h : (c.Upload lib ctx reportId filename data boundary).outcome = .returned (s, err)) :
    (err ≠ none ∧ s = "") ∨
    (err = none ∧ ∃ resp rr, c.UploadAnswered lib ctx reportId filename data boundary resp rr ∧
      rr.FileId = some s) := by
  unfold Client.Upload at h
  cases hm : uploadForm reportId filename data boundary with
  | error e => simp [hm] at h; obtain ⟨rfl, rfl⟩ := h; simp
  | ok form =>
    obtain ⟨contentType, buf⟩ := form
    simp only [hm] at h
    cases hp : (c.post lib ctx "/upload" contentType buf).outcome with
    | panicked reason => simp [hp] at h
    | returned v =>
      cases v with
      | error e => simp [hp] at h; obtain ⟨rfl, rfl⟩ := h; simp
      | ok resp =>
        simp only [hp] at h
        cases hd : lib.xmlDecodeReportResponse resp.Body with
        | error e => simp [hd] at h; obtain ⟨rfl, rfl⟩ := h; simp
        | ok rr =>
          simp only [hd] at h
          cases hc : rr.ResponseCode with
          | none => simp [hc] at h
          | some code =>
            simp only [hc] at h
            split at h
            · cases hdesc : rr.ResponseDescription with
              | none => simp [hdesc] at h
              | some d => simp [hdesc] at h; obtain ⟨rfl, rfl⟩ := h; simp
            · split at h
              · simp at h; obtain ⟨rfl, rfl⟩ := h; simp
              · cases hid : rr.FileId with
                | none => simp [hid] at h
                | some fid =>
                  simp [hid] at h
                  obtain ⟨rfl, rfl⟩ := h
                  exact Or.inr ⟨rfl, resp, rr, ⟨contentType, buf, hm, hp, hd⟩, hid⟩

/-- C8: the identifier that `Upload` returns.  Whenever `Upload` returns with
a non-nil error the string is empty; whenever it returns with a nil error the
transport answered with a response whose body decodes to a document, and the
string returned is the `fileId` of that document.  Hence two uploads that
succeed on answers with different `fileId`s return different identifiers. -/
theorem Upload_identifier_only_on_success (lib : Lib) (c : Client) (ctx : Option Context)
    (reportId : Int) (filename : String) (data : Reader) (boundary : String)
    (s : String) (err : Option GoError)
    (h : (c.Upload lib ctx reportId filename data boundary).outcome = .returned (s, err)) :
    (err ≠ none → s = "") ∧
    (err = none → ∃ resp rr,
      c.UploadAnswered lib ctx reportId filename data boundary resp rr ∧ rr.FileId = some s) ∧
    (∀ (reportId2 : Int) (filename2 : String) (data2 : Reader) (boundary2 : String)
        (s2 : String) (resp resp2 : Response) (rr rr2 : ReportResponse),
      err = none →
      (c.Upload lib ctx reportId2 filename2 data2 boundary2).outcome = .returned (s2, none) →
      c.UploadAnswered lib ctx reportId filename data boundary resp rr →
      c.UploadAnswered lib ctx reportId2 filename2 data2 boundary2 resp2 rr2 →
      rr.FileId ≠ rr2.FileId → s ≠ s2) := by
  refine ⟨fun hne => ?_, fun he => ?_, ?_⟩
  · rcases Upload_returned_cases lib c ctx reportId filename data boundary s err h with h1 | h1
    · exact h1.2
    · exact absurd h1.1 hne
  · rcases Upload_returned_cases lib c ctx reportId filename data boundary s err h with h1 | h1
    · exact absurd he h1.1
    · exact h1.2
  · intro reportId2 filename2 data2 boundary2 s2 resp resp2 rr rr2 he h2 ha ha2 hdiff hs
    subst he
    rw [Upload_outcome_of_answered ha] at h
    rw [Upload_outcome_of_answered ha2] at h2
    apply hdiff
    have e1 : rr.FileId = some s := by
      cases hc : rr.ResponseCode with
      | none => simp [hc] at h
      | some code =>
        simp only [hc] at h
        split at h
        · cases hdesc : rr.ResponseDescription <;> simp [hdesc] at h
        · split at h
          · simp at h
          · cases hid : rr.FileId <;> simp [hid] at h
            simp [h]
    have e2 : rr2.FileId = some s2 := by
      cases hc : rr2.ResponseCode with
      | none => simp [hc] at h2
      | some code =>
        simp only [hc] at h2
        split at h2
        · cases hdesc : rr2.ResponseDescription <;> simp [hdesc] at h2
        · split at h2
          · simp at h2
          · cases hid : rr2.FileId <;> simp [hid] at h2
            simp [h2]
    rw [e1, e2, hs]

/-- C8 at a concrete run: the service accepts the upload and answers with
the file identifier `"b2f1"`. -/
theorem Upload_identifier_only_on_success_witness :
    (Client.Upload
        (stubLib (.ok { ResponseCode := some 0, ReportId := some 7, FileId := some "b2f1" })
          (.ok { }))
        (stubClient { StatusCode := 200, Body := [] }) background 7 "gopher.png" threeBytes
        "b0").outcome
      = .returned ("b2f1", none) ∧
    ∃ resp rr,
      (stubClient { StatusCode := 200, Body := [] }).UploadAnswered
        (stubLib (.ok { ResponseCode := some 0, ReportId := some 7, FileId := some "b2f1" })
          (.ok { }))
        background 7 "gopher.png" threeBytes "b0" resp rr ∧ rr.FileId = some "b2f1" :=
  ⟨rfl,
    (Upload_identifier_only_on_success
      (stubLib (.ok { ResponseCode := some 0, ReportId := some 7, FileId := some "b2f1" })
        (.ok { }))
      (stubClient { StatusCode := 200, Body := [] }) background 7 "gopher.png" threeBytes "b0"
      "b2f1" none rfl).2.1 rfl⟩

/-- C9: the accepted sequence.  Let the transport answer every request with
HTTP 200 and a document with status code 0, report identifier `r` and file
identifier `f`, let the two documents serialise and the file read without
error.  Then `Submit` returns `r` with no error, `Upload` under `r` returns
`f` with no error, `FileInfo` on the details with `ReportId = r` and
`FileId = f` sends exactly one request, whose body is the serialisation of
that details value, and returns no error, `Finish` under `r` returns no error,
and the sequence of `testClient` runs through with these four requests in
order. -/
theorem accepted_sequence (lib : Lib) (c : Client) (cx : Context) (h : HttpClient) (r : Int)
    (f : String) (report : Report) (reportXML : Bytes) (filename : String) (data : Reader)
    (boundary : String) (details : FileDetails) (fileInfoXML : Bytes)
    (hc : c.httpClient = some h) (hurl : ∀ path, lib.urlParse (c.environment ++ path) = none)
    (hacc : AcceptsAll lib h r f) (hmr : lib.xmlMarshalReport report = .ok reportXML)
    (hdata : data.err = none)
    (hmd : lib.xmlMarshalFileDetails { details with ReportId := some r, FileId := some f }
      = .ok fileInfoXML) :
    (c.Submit lib (some cx) report).outcome = .returned (r, none) ∧
    (c.Upload lib (some cx) r filename data boundary).outcome = .returned (f, none) ∧
    c.FileInfo lib (some cx) { details with ReportId := some r, FileId := some f } =
      ⟨[c.request cx "/fileinfo" "text/xml; charset=utf-8" fileInfoXML], .returned none⟩ ∧
    (c.Finish lib (some cx) r).outcome = .returned none ∧
    ∃ contentType buf, uploadForm r filename data boundary = .ok (contentType, buf) ∧
      testClient lib c (some cx) report
          [{ name := filename, data := data, details := details, boundary := boundary }] =
        ⟨[c.request cx "/submit" "text/xml; charset=utf-8" reportXML,
          c.request cx "/upload" contentType buf,
          c.request cx "/fileinfo" "text/xml; charset=utf-8" fileInfoXML,
          c.request cx "/finish" "application/x-www-form-urlencoded"
            (utf8 (Values.Encode (Values.Set [] "id" (FormatInt r))))],
          .returned none⟩ := by
  obtain ⟨contentType, buf, hform⟩ := uploadForm_of_readable r filename data boundary hdata
  have hS := Submit_accepted lib c cx h r f report reportXML hc hurl hacc hmr
  have hU := Upload_accepted lib c cx h r f r filename data boundary contentType buf hc hurl
    hacc hform
  have hI := FileInfo_accepted lib c cx h r f
    { details with ReportId := some r, FileId := some f } fileInfoXML hc hurl hacc hmd
  have hF := Finish_accepted lib c cx h r f r hc hurl hacc
  refine ⟨by rw [hS], by rw [hU], hI, by rw [hF], contentType, buf, hform, ?_⟩
  simp [testClient, testClientFiles, hS, hU, hI, hF]

/-- C9 at a concrete run: the minimal report and one file of three bytes,
against a transport that accepts everything with report identifier 7 and file
identifier `"b2f1"`. -/
theorem accepted_sequence_witness :
    AcceptsAll (stubLib (.ok { ResponseCode := some 0, ReportId := some 7, FileId := some "b2f1" })
        (.ok { ResponseCode := some 0 }))
      (stubHttpClient { StatusCode := 200, Body := [] }) 7 "b2f1" ∧
    (testClient (stubLib (.ok { ResponseCode := some 0, ReportId := some 7, FileId := some "b2f1" })
        (.ok { ResponseCode := some 0 }))
      (stubClient { StatusCode := 200, Body := [] }) background minimalReport
      [{ name := "gopher.png", data := threeBytes, details := { }, boundary := "b0" }]).outcome
      = .returned none ∧
    (Client.FileInfo
        (stubLib (.ok { ResponseCode := some 0, ReportId := some 7, FileId := some "b2f1" })
          (.ok { ResponseCode := some 0 }))
        (stubClient { StatusCode := 200, Body := [] }) background
        { ReportId := some 7, FileId := some "b2f1" }) =
      ⟨[(stubClient { StatusCode := 200, Body := [] }).request { id := 0 } "/fileinfo"
          "text/xml; charset=utf-8" (utf8 "<fileDetails></fileDetails>")], .returned none⟩ :=
  have hacc : AcceptsAll
      (stubLib (.ok { ResponseCode := some 0, ReportId := some 7, FileId := some "b2f1" })
        (.ok { ResponseCode := some 0 }))
      (stubHttpClient { StatusCode := 200, Body := [] }) 7 "b2f1" :=
    fun _ => ⟨_, _, _, rfl, rfl, rfl, rfl, rfl, rfl, rfl, rfl⟩
  have h := accepted_sequence
    (stubLib (.ok { ResponseCode := some 0, ReportId := some 7, FileId := some "b2f1" })
      (.ok { ResponseCode := some 0 }))
    (stubClient { StatusCode := 200, Body := [] }) { id := 0 }
    (stubHttpClient { StatusCode := 200, Body := [] }) 7 "b2f1" minimalReport
    (utf8 "<report></report>") "gopher.png" threeBytes "b0" { }
    (utf8 "<fileDetails></fileDetails>") rfl (fun _ => rfl) hacc rfl rfl rfl
  ⟨hacc, by obtain ⟨_, _, _, _, ct, buf, _, ht⟩ := h; exact congrArg Run.outcome ht, h.2.2.1⟩

/-- C10: the body of `Finish` and `Retract`.  For every 64-bit report
identifier `n`, when a request is sent (the context is not nil, the URL
parses and the client has an HTTP client), it is the only request of the
call, its content type is `application/x-www-form-urlencoded` and its body is
the bytes of `"id="` followed by the base-10 representation of `n`: a `-`
when `n` is negative, then the decimal digits of its absolute value. -/
theorem Finish_Retract_form_body (lib : Lib) (c : Client) (cx : Context) (h : HttpClient)
    (n : Int) (hlo : -2 ^ 63 ≤ n) (hhi : n < 2 ^ 63)
    (hc : c.httpClient = some h)
    (hfin : lib.urlParse (c.environment ++ "/finish") = none)
    (hret : lib.urlParse (c.environment ++ "/retract") = none) :
    (c.Finish lib (some cx) n).calls =
      [c.request cx "/finish" "application/x-www-form-urlencoded"
        (utf8 ("id=" ++ decimalString n))] ∧
    (c.Retract lib (some cx) n).calls =
      [c.request cx "/retract" "application/x-www-form-urlencoded"
        (utf8 ("id=" ++ decimalString n))] := by
  have hbody : Values.Encode (Values.Set [] "id" (FormatInt n)) = "id=" ++ decimalString n := by
    rw [Encode_id, formatBits_int64 n hlo hhi, QueryEscape_decimalString]
  constructor
  · simp only [Client.Finish, hbody, post_sends lib c cx h _ _ _ hfin hc]
  · simp only [Client.Retract, hbody, post_sends lib c cx h _ _ _ hret hc]

/-- C10 at the least 64-bit identifier. -/
theorem Finish_Retract_form_body_witness :
    (-2 ^ 63 ≤ (-9223372036854775808 : Int) ∧ (-9223372036854775808 : Int) < 2 ^ 63) ∧
    (Client.Finish (stubLib (.ok { }) (.ok { })) (stubClient { StatusCode := 200, Body := [] })
        (some { id := 0 }) (-9223372036854775808)).calls =
      [(stubClient { StatusCode := 200, Body := [] }).request { id := 0 } "/finish"
        "application/x-www-form-urlencoded" (utf8 ("id=" ++ decimalString (-9223372036854775808)))] ∧
    (Client.Retract (stubLib (.ok { }) (.ok { })) (stubClient { StatusCode := 200, Body := [] })
        (some { id := 0 }) (-9223372036854775808)).calls =
      [(stubClient { StatusCode := 200, Body := [] }).request { id := 0 } "/retract"
        "application/x-www-form-urlencoded" (utf8 ("id=" ++ decimalString (-9223372036854775808)))] ∧
    (Client.Finish (stubLib (.ok { }) (.ok { })) (stubClient { StatusCode := 200, Body := [] })
        (some { id := 0 }) (-9223372036854775808)).calls.map (fun req => req.Body) =
      [utf8 "id=-9223372036854775808"] :=
  ⟨⟨by decide, by decide⟩,
    (Finish_Retract_form_body (stubLib (.ok { }) (.ok { }))
      (stubClient { StatusCode := 200, Body := [] }) { id := 0 }
      (stubHttpClient { StatusCode := 200, Body := [] }) (-9223372036854775808)
      (by decide) (by decide) rfl rfl rfl).1,
    (Finish_Retract_form_body (stubLib (.ok { }) (.ok { }))
      (stubClient { StatusCode := 200, Body := [] }) { id := 0 }
      (stubHttpClient { StatusCode := 200, Body := [] }) (-9223372036854775808)
      (by decide) (by decide) rfl rfl rfl).2,
    by decide⟩

/-! ## What is sent, and transport failures -/

/-- With a context, URLs that parse and an HTTP client, a call whose payload
is built hands exactly one request to the client: the payload posted to the
environment base followed by the path of the call.  The rest of the run is
decided by the answer of the client. -/
theorem perform_calls (lib : Lib) (c : Client) (cx : Context) (h : HttpClient) (call : Call)
    (contentType : String) (body : Bytes)
    (hc : c.httpClient = some h)
    (hurl : lib.urlParse (c.environment ++ call.path) = none)
    (hp : call.payload lib = .ok (contentType, body)) :
    (c.perform lib (some cx) call).calls = [c.request cx call.path contentType body] := by
  cases call with
  | submit report =>
    simp only [Call.payload] at hp
    simp only [Call.path] at hurl
    cases hm : lib.xmlMarshalReport report with
    | error e => simp [hm] at hp
    | ok xml =>
      simp [hm] at hp
      obtain ⟨rfl, rfl⟩ := hp
      simp [Client.perform, Client.Submit, hm, post_sends lib c cx h _ _ _ hurl hc, Call.path]
  | upload reportId filename data boundary =>
    simp only [Call.payload] at hp
    simp only [Call.path] at hurl
    simp [Client.perform, Client.Upload, hp, post_sends lib c cx h _ _ _ hurl hc, Call.path]
  | fileInfo details =>
    simp only [Call.payload] at hp
    simp only [Call.path] at hurl
    cases hm : lib.xmlMarshalFileDetails details with
    | error e => simp [hm] at hp
    | ok xml =>
      simp [hm] at hp
      obtain ⟨rfl, rfl⟩ := hp
      simp [Client.perform, Client.FileInfo, hm, post_sends lib c cx h _ _ _ hurl hc, Call.path]
  | finish reportId =>
    simp [Call.payload] at hp
    simp only [Call.path] at hurl
    obtain ⟨rfl, rfl⟩ := hp
    simp [Client.perform, Client.Finish, post_sends lib c cx h _ _ _ hurl hc, Call.path]
  | retract reportId =>
    simp [Call.payload] at hp
    simp only [Call.path] at hurl
    obtain ⟨rfl, rfl⟩ := hp
    simp [Client.perform, Client.Retract, post_sends lib c cx h _ _ _ hurl hc, Call.path]

/-- Every error is the first of its own chain. -/
theorem GoError.mem_chain_self (e : GoError) : e ∈ e.chain := by
  cases e <;> simp [GoError.chain]

/-- The run of a call whose request the HTTP client fails with `e`. -/
theorem perform_of_transport_error (lib : Lib) (c : Client) (cx : Context) (h : HttpClient)
    (call : Call) (contentType : String) (body : Bytes) (e : GoError)
    (hc : c.httpClient = some h)
    (hurl : lib.urlParse (c.environment ++ call.path) = none)
    (hp : call.payload lib = .ok (contentType, body))
    (he : h.Do (c.request cx call.path contentType body) = .error e) :
    c.perform lib (some cx) call =
      ⟨[c.request cx call.path contentType body],
        .returned (call.zero,
          some (ErrorfW call.transportPrefix (ErrorfW "error making request: " e)))⟩ := by
  cases call with
  | submit report =>
    simp only [Call.payload] at hp
    simp only [Call.path] at hurl he
    cases hm : lib.xmlMarshalReport report with
    | error e => simp [hm] at hp
    | ok xml =>
      simp [hm] at hp
      obtain ⟨rfl, rfl⟩ := hp
      simp [Client.perform, Client.Submit, hm, post_sends lib c cx h _ _ _ hurl hc, he,
        Call.zero, Call.transportPrefix, Call.path]
  | upload reportId filename data boundary =>
    simp only [Call.payload] at hp
    simp only [Call.path] at hurl he
    simp [Client.perform, Client.Upload, hp, post_sends lib c cx h _ _ _ hurl hc, he,
      Call.zero, Call.transportPrefix, Call.path]
  | fileInfo details =>
    simp only [Call.payload] at hp
    simp only [Call.path] at hurl he
    cases hm : lib.xmlMarshalFileDetails details with
    | error e => simp [hm] at hp
    | ok xml =>
      simp [hm] at hp
      obtain ⟨rfl, rfl⟩ := hp
      simp [Client.perform, Client.FileInfo, hm, post_sends lib c cx h _ _ _ hurl hc, he,
        Call.zero, Call.transportPrefix, Call.path]
  | finish reportId =>
    simp [Call.payload] at hp
    simp only [Call.path] at hurl he
    obtain ⟨rfl, rfl⟩ := hp
    simp [Client.perform, Client.Finish, post_sends lib c cx h _ _ _ hurl hc, he,
      Call.zero, Call.transportPrefix, Call.path]
  | retract reportId =>
    simp [Call.payload] at hp
    simp only [Call.path] at hurl he
    obtain ⟨rfl, rfl⟩ := hp
    simp [Client.perform, Client.Retract, post_sends lib c cx h _ _ _ hurl hc, he,
      Call.zero, Call.transportPrefix, Call.path]

/-- The payload of a call does not involve the decoders. -/
theorem Call.payload_withDecoders (lib : Lib) (call : Call)
    (d1 : Bytes → Except GoError ReportResponse) (d2 : Bytes → Except GoError ReportDoneResponse) :
    call.payload (lib.withDecoders d1 d2) = call.payload lib := by
  cases call <;> rfl

/-- C12: where the operations post.  With a context, URLs that parse and an
HTTP client, each operation hands one request to the client, whose URL is the
environment base of the client followed by the fixed path of the operation:
`/submit`, `/upload`, `/fileinfo`, `/finish`, `/retract`, five different
paths.  `Submit` and `FileInfo` send the content type
`text/xml; charset=utf-8`.  The two environments are
`https://report.cybertip.org/ispws` and `https://exttest.cybertip.org/ispws`,
two different values. -/
theorem posts_to_environment_and_path (lib : Lib) (c : Client) (cx : Context) (h : HttpClient)
    (hc : c.httpClient = some h)
    (hurl : ∀ path, lib.urlParse (c.environment ++ path) = none) :
    (∀ report reportXML, lib.xmlMarshalReport report = .ok reportXML →
      ∃ req, (c.Submit lib (some cx) report).calls = [req] ∧
        req.URL = c.environment ++ "/submit" ∧
        req.ContentType = some "text/xml; charset=utf-8") ∧
    (∀ reportId filename data boundary contentType buf,
      uploadForm reportId filename data boundary = .ok (contentType, buf) →
      ∃ req, (c.Upload lib (some cx) reportId filename data boundary).calls = [req] ∧
        req.URL = c.environment ++ "/upload") ∧
    (∀ details fileInfoXML, lib.xmlMarshalFileDetails details = .ok fileInfoXML →
      ∃ req, (c.FileInfo lib (some cx) details).calls = [req] ∧
        req.URL = c.environment ++ "/fileinfo" ∧
        req.ContentType = some "text/xml; charset=utf-8") ∧
    (∀ reportId, ∃ req, (c.Finish lib (some cx) reportId).calls = [req] ∧
        req.URL = c.environment ++ "/finish") ∧
    (∀ reportId, ∃ req, (c.Retract lib (some cx) reportId).calls = [req] ∧
        req.URL = c.environment ++ "/retract") ∧
    ["/submit", "/upload", "/fileinfo", "/finish", "/retract"].Nodup ∧
    Production = "https://report.cybertip.org/ispws" ∧
    Testing = "https://exttest.cybertip.org/ispws" ∧
    Production ≠ Testing := by
  refine ⟨?_, ?_, ?_, ?_, ?_, by decide, rfl, rfl, by decide⟩
  · intro report reportXML hm
    exact ⟨_, perform_calls lib c cx h (.submit report) "text/xml; charset=utf-8" reportXML hc
      (hurl _) (by simp [Call.payload, hm]), rfl, rfl⟩
  · intro reportId filename data boundary contentType buf hm
    exact ⟨_, perform_calls lib c cx h (.upload reportId filename data boundary) contentType buf
      hc (hurl _) (by simp [Call.payload, hm]), rfl⟩
  · intro details fileInfoXML hm
    exact ⟨_, perform_calls lib c cx h (.fileInfo details) "text/xml; charset=utf-8" fileInfoXML
      hc (hurl _) (by simp [Call.payload, hm]), rfl, rfl⟩
  · intro reportId
    exact ⟨_, perform_calls lib c cx h (.finish reportId) _ _ hc (hurl _) rfl, rfl⟩
  · intro reportId
    exact ⟨_, perform_calls lib c cx h (.retract reportId) _ _ hc (hurl _) rfl, rfl⟩

/-- C12 at a concrete client: the requests of `Submit` and `Retract` in the
testing environment. -/
theorem posts_to_environment_and_path_witness :
    (∃ req, (Client.Submit (stubLib (.ok { }) (.ok { }))
          (stubClient { StatusCode := 200, Body := [] }) (some { id := 0 }) minimalReport).calls
        = [req] ∧
      req.URL = "https://exttest.cybertip.org/ispws/submit" ∧
      req.ContentType = some "text/xml; charset=utf-8") ∧
    (∃ req, (Client.Retract (stubLib (.ok { }) (.ok { }))
          (stubClient { StatusCode := 200, Body := [] }) (some { id := 0 }) 7).calls = [req] ∧
      req.URL = "https://exttest.cybertip.org/ispws/retract") :=
  have h := posts_to_environment_and_path (stubLib (.ok { }) (.ok { }))
    (stubClient { StatusCode := 200, Body := [] }) { id := 0 }
    (stubHttpClient { StatusCode := 200, Body := [] }) rfl (fun _ => rfl)
  ⟨h.1 minimalReport _ rfl, h.2.2.2.2.1 7⟩

/-- C13: a transport failure.  When the HTTP client fails the request of a
call with the error `e`, the call has handed exactly that one request to the
client, it returns the zero value with a non-nil error, unwrapping that error
twice gives `e` itself, and the run is the same whatever the decoders of the
response documents would do. -/
theorem transport_failure_surfaced_once (lib : Lib) (c : Client) (cx : Context)
    (h : HttpClient) (call : Call) (contentType : String) (body : Bytes) (e : GoError)
    (hc : c.httpClient = some h)
    (hurl : lib.urlParse (c.environment ++ call.path) = none)
    (hp : call.payload lib = .ok (contentType, body))
    (he : h.Do (c.request cx call.path contentType body) = .error e) :
    (c.perform lib (some cx) call).calls = [c.request cx call.path contentType body] ∧
    (∃ err, (c.perform lib (some cx) call).outcome = .returned (call.zero, some err) ∧
      e ∈ err.chain ∧ err.Unwrap.bind GoError.Unwrap = some e) ∧
    (∀ d1 d2,
      c.perform (lib.withDecoders d1 d2) (some cx) call = c.perform lib (some cx) call) := by
  have hrun := perform_of_transport_error lib c cx h call contentType body e hc hurl hp he
  refine ⟨by rw [hrun], ?_, ?_⟩
  · refine ⟨_, by rw [hrun], ?_, ?_⟩
    · simp [ErrorfW, GoError.chain, GoError.mem_chain_self]
    · simp [ErrorfW, GoError.Unwrap]
  · intro d1 d2
    rw [hrun]
    exact perform_of_transport_error (lib.withDecoders d1 d2) c cx h call contentType body e hc
      hurl (by rw [Call.payload_withDecoders]; exact hp) he

/-- C13 at a concrete run: the transport fails `Finish` with the error
`"connection refused"`. -/
theorem transport_failure_surfaced_once_witness :
    (Client.Finish (stubLib (.ok { }) (.ok { }))
        (failingClient (errorsNew "connection refused")) (some { id := 0 }) 7).calls.length = 1 ∧
    ∃ err, (Client.perform (stubLib (.ok { }) (.ok { }))
          (failingClient (errorsNew "connection refused")) (some { id := 0 })
          (.finish 7)).outcome = .returned (.unit, some err) ∧
      errorsNew "connection refused" ∈ err.chain ∧
      err.Unwrap.bind GoError.Unwrap = some (errorsNew "connection refused") :=
  have h := transport_failure_surfaced_once (stubLib (.ok { }) (.ok { }))
    (failingClient (errorsNew "connection refused")) { id := 0 }
    (failingHttpClient (errorsNew "connection refused")) (.finish 7) _ _
    (errorsNew "connection refused") rfl rfl rfl rfl
  ⟨by decide, h.2.1⟩

/-! ## Names of the operations in decoding errors -/

/-- C15, at the input where the claim fails: the service answers `Finish`
and `Retract` with a body that does not decode, the decoder failing with
`"EOF"`.  The claim says the two decoding errors carry different operation
names; both calls return the same error, with the message
`"error decoding finish response: EOF"`, while `Submit`, `Upload` and
`FileInfo` each name their own response. -/
theorem Retract_decoding_error_names_finish :
    (Client.Finish (stubLib (.error (errorsNew "EOF")) (.error (errorsNew "EOF")))
        (stubClient { StatusCode := 200, Body := [] }) background 7).outcome
      = .returned (some (ErrorfW "error decoding finish response: " (errorsNew "EOF"))) ∧
    (Client.Retract (stubLib (.error (errorsNew "EOF")) (.error (errorsNew "EOF")))
        (stubClient { StatusCode := 200, Body := [] }) background 7).outcome
      = .returned (some (ErrorfW "error decoding finish response: " (errorsNew "EOF"))) ∧
    (ErrorfW "error decoding finish response: " (errorsNew "EOF")).Error
      = "error decoding finish response: EOF" ∧
    (Client.Submit (stubLib (.error (errorsNew "EOF")) (.error (errorsNew "EOF")))
        (stubClient { StatusCode := 200, Body := [] }) background minimalReport).outcome
      = .returned (0, some (ErrorfW "error decoding report response: " (errorsNew "EOF"))) ∧
    (Client.Upload (stubLib (.error (errorsNew "EOF")) (.error (errorsNew "EOF")))
        (stubClient { StatusCode := 200, Body := [] }) background 7 "gopher.png" threeBytes
        "b0").outcome
      = .returned ("", some (ErrorfW "error decoding upload response: " (errorsNew "EOF"))) ∧
    (Client.FileInfo (stubLib (.error (errorsNew "EOF")) (.error (errorsNew "EOF")))
        (stubClient { StatusCode := 200, Body := [] }) background
        { ReportId := some 7, FileId := some "f" }).outcome
      = .returned (some (ErrorfW "error decoding file info response: " (errorsNew "EOF"))) :=
  ⟨rfl, rfl, by decide, rfl, rfl, rfl⟩

/-! ## Dates -/

/-- C17: the wire form of a date.  For every date `d`, `MarshalText`
returns the bytes of `d.String()` and the nil error. -/
theorem MarshalText_is_String (d : Date) :
    d.MarshalText = (utf8 d.String, none) ∧ d.MarshalText.2 = none :=
  ⟨rfl, rfl⟩

/-- C18: `FromTime` keeps the calendar date.  For every time `t`,
`FromTime t` is `NewDate y m d` for the year, month and day that `t.Date()`
gives in the location of `t`; nothing else of `t` and no other time zone
enters, so two times with the same calendar date give dates with the same
`String`. -/
theorem FromTime_keeps_calendar_date (t : Time) :
    FromTime t = NewDate t.Date.1 t.Date.2.1 t.Date.2.2 ∧
    (∀ t2 : Time, t2.Date = t.Date → FromTime t2 = FromTime t ∧
      (FromTime t2).String = (FromTime t).String) := by
  refine ⟨rfl, fun t2 h2 => ?_⟩
  have : FromTime t2 = FromTime t := by
    simp only [Time.Date, Prod.mk.injEq] at h2
    obtain ⟨h1, h2, h3⟩ := h2
    simp [FromTime, Time.Date, h1, h2, h3]
  exact ⟨this, by rw [this]⟩

/-- One step of the digit loop on a number below ten. -/
theorem formatBitsLoop_lt (room u : Nat) (acc : List Char) (h : u < 10) :
    formatBitsLoop (room + 1) u acc = digitChar u :: acc := by
  simp [formatBitsLoop, h]

/-- One step of the digit loop on a number of at least ten. -/
theorem formatBitsLoop_ge (room u : Nat) (acc : List Char) (h : ¬ u < 10) :
    formatBitsLoop (room + 1) u acc = formatBitsLoop room (u / 10) (digitChar (u % 10) :: acc) := by
  simp [formatBitsLoop, h]

/-- The verb `%02d` on a number from 0 to 99 writes its two digits. -/
theorem fmtInteger_two (v : Int) (h0 : 0 ≤ v) (h1 : v ≤ 99) :
    fmtInteger 2 v = [digitChar (v.toNat / 10), digitChar (v.toNat % 10)] := by
  have hneg : ¬ v < 0 := by omega
  have hu : (v % 2 ^ 64).toNat = v.toNat := by omega
  have hn : v.toNat < 100 := by omega
  generalize v.toNat = n at hu hn
  simp only [fmtInteger, hneg, decide_False, Bool.false_eq_true, if_false, hu]
  by_cases h10 : n < 10
  · rw [formatBitsLoop_lt _ _ _ h10]
    have : n / 10 = 0 := by omega
    have h2 : n % 10 = n := by omega
    simp [this, h2, List.replicate]
    rfl
  · rw [formatBitsLoop_ge _ _ _ h10, formatBitsLoop_lt _ _ _ (by omega)]
    simp

/-- The verb `%04d` on a number from 0 to 9999 writes its four digits. -/
theorem fmtInteger_four (v : Int) (h0 : 0 ≤ v) (h1 : v ≤ 9999) :
    fmtInteger 4 v = [digitChar (v.toNat / 1000), digitChar (v.toNat / 100 % 10),
      digitChar (v.toNat / 10 % 10), digitChar (v.toNat % 10)] := by
  have hneg : ¬ v < 0 := by omega
  have hu : (v % 2 ^ 64).toNat = v.toNat := by omega
  have hn : v.toNat < 10000 := by omega
  generalize v.toNat = n at hu hn
  simp only [fmtInteger, hneg, decide_False, Bool.false_eq_true, if_false, hu]
  by_cases h10 : n < 10
  · rw [formatBitsLoop_lt _ _ _ h10]
    have e1 : n / 1000 = 0 := by omega
    have e2 : n / 100 % 10 = 0 := by omega
    have e3 : n / 10 % 10 = 0 := by omega
    have e4 : n % 10 = n := by omega
    simp [e1, e2, e3, e4, List.replicate]
    rfl
  · rw [formatBitsLoop_ge _ _ _ h10]
    by_cases h100 : n / 10 < 10
    · rw [formatBitsLoop_lt _ _ _ h100]
      have e1 : n / 1000 = 0 := by omega
      have e2 : n / 100 % 10 = 0 := by omega
      have e3 : n / 10 % 10 = n / 10 := by omega
      simp [e1, e2, e3, List.replicate]
      rfl
    · rw [formatBitsLoop_ge _ _ _ h100]
      by_cases h1000 : n / 10 / 10 < 10
      · rw [formatBitsLoop_lt _ _ _ h1000]
        have e1 : n / 1000 = 0 := by omega
        have e2 : n / 100 % 10 = n / 10 / 10 := by omega
        simp [e1, e2, List.replicate]
        rfl
      · rw [formatBitsLoop_ge _ _ _ h1000, formatBitsLoop_lt _ _ _ (by omega)]
        have e1 : n / 1000 = n / 10 / 10 / 10 := by omega
        have e2 : n / 100 % 10 = n / 10 / 10 % 10 := by omega
        simp [e1, e2]

/-- C16 as stated fails: `NewDate` accepts the year 10000, and the string
of `NewDate(10000, 1, 1)` is `"10000-01-01"`, eleven characters with a year
of five digits, not the ten characters of `YYYY-MM-DD`. -/
theorem Date_String_year_10000 :
    (NewDate 10000 1 1).String = "10000-01-01" ∧ (NewDate 10000 1 1).String.length ≠ 10 := by
  decide

/-- C16, amended: for every year from 0 to 9999 and every month and day
from 0 to 99, `String` is ten characters: the four decimal digits of the
year, `-`, the two decimal digits of the month as a number, `-`, the two
decimal digits of the day. -/
theorem Date_String_token (year month day : Int)
    (hy0 : 0 ≤ year) (hy1 : year ≤ 9999) (hm0 : 0 ≤ month) (hm1 : month ≤ 99)
    (hd0 : 0 ≤ day) (hd1 : day ≤ 99) :
    (NewDate year month day).String =
      String.mk [digitChar (year.toNat / 1000), digitChar (year.toNat / 100 % 10),
        digitChar (year.toNat / 10 % 10), digitChar (year.toNat % 10), '-',
        digitChar (month.toNat / 10), digitChar (month.toNat % 10), '-',
        digitChar (day.toNat / 10), digitChar (day.toNat % 10)] ∧
    (NewDate year month day).String.length = 10 ∧
    year.toNat / 1000 < 10 ∧ month.toNat / 10 < 10 ∧ day.toNat / 10 < 10 := by
  have hs : (NewDate year month day).String =
      String.mk [digitChar (year.toNat / 1000), digitChar (year.toNat / 100 % 10),
        digitChar (year.toNat / 10 % 10), digitChar (year.toNat % 10), '-',
        digitChar (month.toNat / 10), digitChar (month.toNat % 10), '-',
        digitChar (day.toNat / 10), digitChar (day.toNat % 10)] := by
    simp only [Date.String, NewDate, fmtInteger_four year hy0 hy1, fmtInteger_two month hm0 hm1,
      fmtInteger_two day hd0 hd1]
    rfl
  refine ⟨hs, ?_, by omega, by omega, by omega⟩
  rw [hs]
  rfl

/-- C16, amended, at `NewDate(2000, 1, 1)`, whose string is
`"2000-01-01"`. -/
theorem Date_String_token_witness :
    (NewDate 2000 1 1).String = "2000-01-01" ∧ (NewDate 2000 1 1).String.length = 10 :=
  have h := Date_String_token 2000 1 1 (by decide) (by decide) (by decide) (by decide)
    (by decide) (by decide)
  ⟨by decide, h.2.1⟩

/-- C18 at two times of 1 January 2000, at noon in UTC and at 23:59:59 in
another location. -/
theorem FromTime_keeps_calendar_date_witness :
    FromTime (Time.mk 2000 1 1 23 59 59 0 "Australia/Sydney")
      = FromTime (Time.mk 2000 1 1 12 0 0 0 "UTC") ∧
    (FromTime (Time.mk 2000 1 1 23 59 59 0 "Australia/Sydney")).String
      = (FromTime (Time.mk 2000 1 1 12 0 0 0 "UTC")).String :=
  (FromTime_keeps_calendar_date (Time.mk 2000 1 1 12 0 0 0 "UTC")).2 _ rfl

/-! ## Telling the categories of failure apart -/

/-- A test for a prefix no longer than `q` looks at `q` alone. -/
theorem isPrefixOf_append_of_le (p q x : List Char) (h : p.length ≤ q.length) :
    p.isPrefixOf (q ++ x) = p.isPrefixOf q := by
  induction p generalizing q with
  | nil => simp
  | cons a p ih =>
    cases q with
    | nil => simp at h
    | cons b q =>
      have := ih q (by simpa using h)
      simp only [List.cons_append, List.isPrefixOf, List.append_eq, this]

/-- The category read off a message depends on its first 24 characters
alone, when it has that many. -/
theorem categoryOfMessage_append (pre rest : String) (hlen : 24 ≤ pre.length) :
    categoryOfMessage (pre ++ rest) = categoryOfMessage pre := by
  have hl : (pre ++ rest).length = pre.length + rest.length := String.length_append pre rest
  have h22 : "error finishing report".length = 22 := rfl
  have h23 : "error retracting report".length = 23 := rfl
  have hne1 : pre ++ rest ≠ "error finishing report" := by
    intro h
    rw [h] at hl
    omega
  have hne2 : pre ++ rest ≠ "error retracting report" := by
    intro h
    rw [h] at hl
    omega
  have hne3 : pre ≠ "error finishing report" := by
    intro h
    rw [h] at hlen
    omega
  have hne4 : pre ≠ "error retracting report" := by
    intro h
    rw [h] at hlen
    omega
  have hd : pre.data.length = pre.length := rfl
  have e1 : "error decoding ".data.isPrefixOf (pre ++ rest).data
      = "error decoding ".data.isPrefixOf pre.data := by
    rw [String.data_append]
    exact isPrefixOf_append_of_le _ _ _ (by rw [hd]; exact le_trans (by decide) hlen)
  have e2 : "error from server: ".data.isPrefixOf (pre ++ rest).data
      = "error from server: ".data.isPrefixOf pre.data := by
    rw [String.data_append]
    exact isPrefixOf_append_of_le _ _ _ (by rw [hd]; exact le_trans (by decide) hlen)
  have e3 : "error ".data.isPrefixOf (pre ++ rest).data = "error ".data.isPrefixOf pre.data := by
    rw [String.data_append]
    exact isPrefixOf_append_of_le _ _ _ (by rw [hd]; exact le_trans (by decide) hlen)
  simp only [categoryOfMessage, e1, e2, e3, hne1, hne2, hne3, hne4]

/-- A message that starts with `"error from server: "` reads as a
rejection. -/
theorem categoryOfMessage_server (d : String) :
    categoryOfMessage ("error from server: " ++ d) = .rejection := by
  have e1 : "error decoding ".data.isPrefixOf ("error from server: " ++ d).data = false := by
    rw [String.data_append, isPrefixOf_append_of_le _ _ _ (by decide)]
    decide
  have e2 : "error from server: ".data.isPrefixOf ("error from server: " ++ d).data = true := by
    rw [String.data_append, isPrefixOf_append_of_le _ _ _ (by decide)]
    decide
  simp [categoryOfMessage, e1, e2]

/-- The category of a message chosen by a test, when both choices read
alike. -/
theorem categoryOfMessage_ite (p : Prop) [Decidable p] (a b : String) (k : Category)
    (ha : categoryOfMessage a = k) (hb : categoryOfMessage b = k) :
    categoryOfMessage (if p then a else b) = k := by
  split <;> assumption

/-- No status text reads as anything but an HTTP-status mismatch. -/
theorem categoryOfMessage_StatusText (code : Int) :
    categoryOfMessage (StatusText code) = .httpStatus := by
  unfold StatusText
  repeat' (first | apply categoryOfMessage_ite | rfl)

/-- The category of the message of a wrapped error with a literal
introduction of at least 24 characters. -/
theorem categoryOfMessage_ErrorfW (pre : String) (e : GoError) (hlen : 24 ≤ pre.length) :
    categoryOfMessage (ErrorfW pre e).Error = categoryOfMessage pre :=
  categoryOfMessage_append pre e.Error hlen

/-- The message of an error of a call tells the kind of its failure. -/
theorem category_of_failure (lib : Lib) (c : Client) (ctx : Option Context) (call : Call)
    (k : Category) (err : GoError) (h : c.FailsIn lib ctx call k err) :
    categoryOfMessage err.Error = k := by
  obtain ⟨hout, contentType, body, hp, hk⟩ := h
  cases k with
  | transport =>
    obtain ⟨cx, h, e, rfl, hurl, hc, he⟩ := hk
    rw [perform_of_transport_error lib c cx h call contentType body e hc hurl hp he] at hout
    simp only [Outcome.returned.injEq, Prod.mk.injEq, Option.some.injEq, true_and] at hout
    subst hout
    have hm : (ErrorfW call.transportPrefix (ErrorfW "error making request: " e)).Error
        = (call.transportPrefix ++ "error making request: ") ++ e.Error := by
      simp [ErrorfW, GoError.Error, String.append_assoc]
    rw [hm]
    cases call <;> simp only [Call.transportPrefix] <;>
      exact (categoryOfMessage_append _ _ (by decide)).trans rfl
  | decoding =>
    obtain ⟨resp, e, hpost, hd⟩ := hk
    cases call with
    | submit report =>
      simp only [Call.payload] at hp
      simp only [Call.path] at hpost
      cases hm : lib.xmlMarshalReport report with
      | error e => simp [hm] at hp
      | ok xml =>
        simp [hm] at hp
        obtain ⟨rfl, rfl⟩ := hp
        simp only [Call.decode] at hd
        cases hdd : lib.xmlDecodeReportResponse resp.Body with
        | ok rr => simp [hdd] at hd
        | error e2 =>
          simp [Client.perform, Client.Submit, hm, hpost, hdd, Call.zero] at hout
          subst hout
          exact (categoryOfMessage_ErrorfW _ _ (by decide)).trans rfl
    | upload reportId filename data boundary =>
      simp only [Call.payload] at hp
      simp only [Call.path] at hpost
      simp only [Call.decode] at hd
      cases hdd : lib.xmlDecodeReportResponse resp.Body with
      | ok rr => simp [hdd] at hd
      | error e2 =>
        simp [Client.perform, Client.Upload, hp, hpost, hdd, Call.zero] at hout
        subst hout
        exact (categoryOfMessage_ErrorfW _ _ (by decide)).trans rfl
    | fileInfo details =>
      simp only [Call.payload] at hp
      simp only [Call.path] at hpost
      cases hm : lib.xmlMarshalFileDetails details with
      | error e => simp [hm] at hp
      | ok xml =>
        simp [hm] at hp
        obtain ⟨rfl, rfl⟩ := hp
        simp only [Call.decode] at hd
        cases hdd : lib.xmlDecodeReportResponse resp.Body with
        | ok rr => simp [hdd] at hd
        | error e2 =>
          simp [Client.perform, Client.FileInfo, hm, hpost, hdd, Call.zero] at hout
          subst hout
          exact (categoryOfMessage_ErrorfW _ _ (by decide)).trans rfl
    | finish reportId =>
      simp [Call.payload] at hp
      simp only [Call.path] at hpost
      obtain ⟨rfl, rfl⟩ := hp
      simp only [Call.decode] at hd
      cases hdd : lib.xmlDecodeReportDoneResponse resp.Body with
      | ok rr => simp [hdd] at hd
      | error e2 =>
        simp [Client.perform, Client.Finish, hpost, hdd, Call.zero] at hout
        subst hout
        exact (categoryOfMessage_ErrorfW _ _ (by decide)).trans rfl
    | retract reportId =>
      simp [Call.payload] at hp
      simp only [Call.path] at hpost
      obtain ⟨rfl, rfl⟩ := hp
      simp only [Call.decode] at hd
      cases hdd : lib.xmlDecodeReportResponse resp.Body with
      | ok rr => simp [hdd] at hd
      | error e2 =>
        simp [Client.perform, Client.Retract, hpost, hdd, Call.zero] at hout
        subst hout
        exact (categoryOfMessage_ErrorfW _ _ (by decide)).trans rfl
  | rejection =>
    obtain ⟨resp, code, desc, hpost, hd, hne⟩ := hk
    cases call with
    | submit report =>
      simp only [Call.payload] at hp
      simp only [Call.path] at hpost
      cases hm : lib.xmlMarshalReport report with
      | error e => simp [hm] at hp
      | ok xml =>
        simp [hm] at hp
        obtain ⟨rfl, rfl⟩ := hp
        simp only [Call.decode] at hd
        cases hdd : lib.xmlDecodeReportResponse resp.Body with
        | error e2 => simp [hdd] at hd
        | ok rr =>
          simp [hdd] at hd
          obtain ⟨hcode, hdesc⟩ := hd
          cases desc with
          | none => simp [Client.perform, Client.Submit, hm, hpost, hdd, hcode, hdesc, hne] at hout
          | some d =>
            simp [Client.perform, Client.Submit, hm, hpost, hdd, hcode, hdesc, hne, Call.zero] at hout
            subst hout
            exact categoryOfMessage_server d
    | upload reportId filename data boundary =>
      simp only [Call.payload] at hp
      simp only [Call.path] at hpost
      simp only [Call.decode] at hd
      cases hdd : lib.xmlDecodeReportResponse resp.Body with
      | error e2 => simp [hdd] at hd
      | ok rr =>
        simp [hdd] at hd
        obtain ⟨hcode, hdesc⟩ := hd
        cases desc with
        | none => simp [Client.perform, Client.Upload, hp, hpost, hdd, hcode, hdesc, hne] at hout
        | some d =>
          simp [Client.perform, Client.Upload, hp, hpost, hdd, hcode, hdesc, hne, Call.zero] at hout
          subst hout
          exact categoryOfMessage_server d
    | fileInfo details =>
      simp only [Call.payload] at hp
      simp only [Call.path] at hpost
      cases hm : lib.xmlMarshalFileDetails details with
      | error e => simp [hm] at hp
      | ok xml =>
        simp [hm] at hp
        obtain ⟨rfl, rfl⟩ := hp
        simp only [Call.decode] at hd
        cases hdd : lib.xmlDecodeReportResponse resp.Body with
        | error e2 => simp [hdd] at hd
        | ok rr =>
          simp [hdd] at hd
          obtain ⟨hcode, hdesc⟩ := hd
          cases desc with
          | none => simp [Client.perform, Client.FileInfo, hm, hpost, hdd, hcode, hdesc, hne] at hout
          | some d =>
            simp [Client.perform, Client.FileInfo, hm, hpost, hdd, hcode, hdesc, hne, Call.zero] at hout
            subst hout
            exact categoryOfMessage_server d
    | finish reportId =>
      simp [Call.payload] at hp
      simp only [Call.path] at hpost
      obtain ⟨rfl, rfl⟩ := hp
      simp only [Call.decode] at hd
      cases hdd : lib.xmlDecodeReportDoneResponse resp.Body with
      | error e2 => simp [hdd] at hd
      | ok rr =>
        simp [hdd] at hd
        simp [Client.perform, Client.Finish, hpost, hdd, hd, hne, Call.zero] at hout
        subst hout
        rfl
    | retract reportId =>
      simp [Call.payload] at hp
      simp only [Call.path] at hpost
      obtain ⟨rfl, rfl⟩ := hp
      simp only [Call.decode] at hd
      cases hdd : lib.xmlDecodeReportResponse resp.Body with
      | error e2 => simp [hdd] at hd
      | ok rr =>
        simp [hdd] at hd
        obtain ⟨hcode, hdesc⟩ := hd
        simp [Client.perform, Client.Retract, hpost, hdd, hcode, hne, Call.zero] at hout
        subst hout
        rfl
  | httpStatus =>
    obtain ⟨resp, desc, hpost, hd, hst⟩ := hk
    cases call with
    | submit report =>
      simp only [Call.payload] at hp
      simp only [Call.path] at hpost
      cases hm : lib.xmlMarshalReport report with
      | error e => simp [hm] at hp
      | ok xml =>
        simp [hm] at hp
        obtain ⟨rfl, rfl⟩ := hp
        simp only [Call.decode] at hd
        cases hdd : lib.xmlDecodeReportResponse resp.Body with
        | error e2 => simp [hdd] at hd
        | ok rr =>
          simp [hdd] at hd
          obtain ⟨hcode, hdesc⟩ := hd
          simp [Client.perform, Client.Submit, hm, hpost, hdd, hcode, hst, Call.zero] at hout
          subst hout
          exact categoryOfMessage_StatusText _
    | upload reportId filename data boundary =>
      simp only [Call.payload] at hp
      simp only [Call.path] at hpost
      simp only [Call.decode] at hd
      cases hdd : lib.xmlDecodeReportResponse resp.Body with
      | error e2 => simp [hdd] at hd
      | ok rr =>
        simp [hdd] at hd
        obtain ⟨hcode, hdesc⟩ := hd
        simp [Client.perform, Client.Upload, hp, hpost, hdd, hcode, hst, Call.zero] at hout
        subst hout
        exact categoryOfMessage_StatusText _
    | fileInfo details =>
      simp only [Call.payload] at hp
      simp only [Call.path] at hpost
      cases hm : lib.xmlMarshalFileDetails details with
      | error e => simp [hm] at hp
      | ok xml =>
        simp [hm] at hp
        obtain ⟨rfl, rfl⟩ := hp
        simp only [Call.decode] at hd
        cases hdd : lib.xmlDecodeReportResponse resp.Body with
        | error e2 => simp [hdd] at hd
        | ok rr =>
          simp [hdd] at hd
          obtain ⟨hcode, hdesc⟩ := hd
          simp [Client.perform, Client.FileInfo, hm, hpost, hdd, hcode, hst, Call.zero] at hout
          subst hout
          exact categoryOfMessage_StatusText _
    | finish reportId =>
      simp [Call.payload] at hp
      simp only [Call.path] at hpost
      obtain ⟨rfl, rfl⟩ := hp
      simp only [Call.decode] at hd
      cases hdd : lib.xmlDecodeReportDoneResponse resp.Body with
      | error e2 => simp [hdd] at hd
      | ok rr =>
        simp [hdd] at hd
        simp [Client.perform, Client.Finish, hpost, hdd, hd, hst, Call.zero] at hout
        subst hout
        exact categoryOfMessage_StatusText _
    | retract reportId =>
      simp [Call.payload] at hp
      simp only [Call.path] at hpost
      obtain ⟨rfl, rfl⟩ := hp
      simp only [Call.decode] at hd
      cases hdd : lib.xmlDecodeReportResponse resp.Body with
      | error e2 => simp [hdd] at hd
      | ok rr =>
        simp [hdd] at hd
        obtain ⟨hcode, hdesc⟩ := hd
        simp [Client.perform, Client.Retract, hpost, hdd, hcode, Call.zero] at hout

/-- C14: the categories of failure are told apart by the message.  Take two
failing calls of the operations, of different kinds among transport failure,
decoding failure, rejection by the service and HTTP-status mismatch, whatever
the transport's error, the decoder's error, the description and the HTTP
status are.  Then the messages of the two errors differ; in particular a
decoding failure never carries the message of a transport failure. -/
theorem failure_categories_distinguishable
    (lib1 : Lib) (c1 : Client) (ctx1 : Option Context) (call1 : Call) (k1 : Category)
    (err1 : GoError)
    (lib2 : Lib) (c2 : Client) (ctx2 : Option Context) (call2 : Call) (k2 : Category)
    (err2 : GoError)
    (h1 : c1.FailsIn lib1 ctx1 call1 k1 err1) (h2 : c2.FailsIn lib2 ctx2 call2 k2 err2)
    (hk : k1 ≠ k2) :
    err1.Error ≠ err2.Error := by
  intro h
  apply hk
  rw [← category_of_failure lib1 c1 ctx1 call1 k1 err1 h1,
    ← category_of_failure lib2 c2 ctx2 call2 k2 err2 h2, h]

/-- C14 at concrete runs of `Submit`: a transport failure with the error
`"connection refused"` against a decoding failure with the error `"EOF"`,
and a rejection with the description `"Invalid report"` against the HTTP
status 500 under status code 0. -/
theorem failure_categories_distinguishable_witness :
    (ErrorfW "error submitting report: "
        (ErrorfW "error making request: " (errorsNew "connection refused"))).Error
      ≠ (ErrorfW "error decoding report response: " (errorsNew "EOF")).Error ∧
    (ErrorfS "error from server: " "Invalid report").Error
      ≠ (errorsNew (StatusText 500)).Error :=
  ⟨failure_categories_distinguishable
      (stubLib (.ok { }) (.ok { })) (failingClient (errorsNew "connection refused")) background
      (.submit minimalReport) .transport _
      (stubLib (.error (errorsNew "EOF")) (.ok { })) (stubClient { StatusCode := 200, Body := [] })
      background (.submit minimalReport) .decoding _
      ⟨rfl, _, _, rfl, _, _, _, rfl, rfl, rfl, rfl⟩
      ⟨rfl, _, _, rfl, _, _, rfl, rfl⟩ (by decide),
    failure_categories_distinguishable
      (stubLib (.ok { ResponseCode := some 4100, ResponseDescription := some "Invalid report" })
        (.ok { }))
      (stubClient { StatusCode := 200, Body := [] }) background (.submit minimalReport)
      .rejection _
      (stubLib (.ok { ResponseCode := some 0, ReportId := some 7 }) (.ok { }))
      (stubClient { StatusCode := 500, Body := [] }) background (.submit minimalReport)
      .httpStatus _
      ⟨rfl, _, _, rfl, _, _, _, rfl, rfl, by decide⟩
      ⟨rfl, _, _, rfl, _, _, rfl, rfl, by decide⟩ (by decide)⟩

/-! ## Purity -/

/-- C20 as stated fails for `Upload`: two runs with the same client, the same
arguments and the same transport, in which `multipart.NewWriter` draws two
different boundaries, hand different requests to the transport; the content
types already differ. -/
theorem Upload_requests_differ_between_draws :
    (Client.Upload (stubLib (.ok { ResponseCode := some 0, FileId := some "b2f1" }) (.ok { }))
        (stubClient { StatusCode := 200, Body := [] }) background 7 "gopher.png" threeBytes
        "0f3a9c51d2e47b8860f3a9c51d2e47b8860f3a9c51d2e47b8860f3a9c51d").calls
      ≠ (Client.Upload (stubLib (.ok { ResponseCode := some 0, FileId := some "b2f1" }) (.ok { }))
        (stubClient { StatusCode := 200, Body := [] }) background 7 "gopher.png" threeBytes
        "77e01b5a3c9d2f4e6877e01b5a3c9d2f4e6877e01b5a3c9d2f4e6877e01b").calls ∧
    (Client.Upload (stubLib (.ok { ResponseCode := some 0, FileId := some "b2f1" }) (.ok { }))
        (stubClient { StatusCode := 200, Body := [] }) background 7 "gopher.png" threeBytes
        "0f3a9c51d2e47b8860f3a9c51d2e47b8860f3a9c51d2e47b8860f3a9c51d").calls.map
        (fun req => req.ContentType)
      = [some "multipart/form-data; boundary=0f3a9c51d2e47b8860f3a9c51d2e47b8860f3a9c51d2e47b8860f3a9c51d"] ∧
    (Client.Upload (stubLib (.ok { ResponseCode := some 0, FileId := some "b2f1" }) (.ok { }))
        (stubClient { StatusCode := 200, Body := [] }) background 7 "gopher.png" threeBytes
        "77e01b5a3c9d2f4e6877e01b5a3c9d2f4e6877e01b5a3c9d2f4e6877e01b").calls.map
        (fun req => req.ContentType)
      = [some "multipart/form-data; boundary=77e01b5a3c9d2f4e6877e01b5a3c9d2f4e6877e01b5a3c9d2f4e6877e01b"] := by
  decide

/-- Two clients with the same user name, password and environment, whose
HTTP clients are both nil or give the same answer to the one request that is
built, run `post` alike. -/
theorem post_of_same_answer (lib : Lib) (c1 c2 : Client) (ctx : Option Context)
    (path contentType : String) (body : Bytes)
    (hu : c1.username = c2.username) (hp : c1.password = c2.password)
    (he : c1.environment = c2.environment)
    (ht : (c1.httpClient = none ∧ c2.httpClient = none) ∨
      ∃ h1 h2, c1.httpClient = some h1 ∧ c2.httpClient = some h2 ∧
        ∀ cx, ctx = some cx →
          h1.Do (c1.request cx path contentType body)
            = h2.Do (c1.request cx path contentType body)) :
    c1.post lib ctx path contentType body = c2.post lib ctx path contentType body := by
  cases ctx with
  | none => simp [Client.post, NewRequestWithContext]
  | some cx =>
    simp only [Client.post, NewRequestWithContext, ← hu, ← hp, ← he]
    cases hurl : lib.urlParse (c1.environment ++ path) with
    | some err => rfl
    | none =>
      rcases ht with ⟨n1, n2⟩ | ⟨h1, h2, e1, e2, hdo⟩
      · simp [n1, n2]
      · have hd := hdo cx rfl
        simp only [Client.request] at hd
        simp [e1, e2, hd]

/-- Two clients with the same user name, password and environment whose
HTTP clients answer a call alike run the call alike. -/
theorem perform_of_same_answer (lib : Lib) (ctx : Option Context) (c1 c2 : Client)
    (call : Call) (hu : c1.username = c2.username) (hp : c1.password = c2.password)
    (he : c1.environment = c2.environment) (ht : c1.AnswersAlike lib ctx call c2) :
    c1.perform lib ctx call = c2.perform lib ctx call := by
  cases call with
  | submit report =>
    simp only [Client.perform, Client.Submit]
    cases hm : lib.xmlMarshalReport report with
    | error e => rfl
    | ok xml =>
      have hpost := post_of_same_answer lib c1 c2 ctx "/submit" "text/xml; charset=utf-8" xml
        hu hp he (by
          rcases ht with hn | ⟨h1, h2, e1, e2, hdo⟩
          · exact Or.inl hn
          · exact Or.inr ⟨h1, h2, e1, e2, fun cx hcx =>
              hdo cx _ _ hcx (by simp [Call.payload, hm])⟩)
      simp only [hpost]
  | upload reportId filename data boundary =>
    simp only [Client.perform, Client.Upload]
    cases hm : uploadForm reportId filename data boundary with
    | error e => rfl
    | ok form =>
      obtain ⟨contentType, buf⟩ := form
      have hpost := post_of_same_answer lib c1 c2 ctx "/upload" contentType buf
        hu hp he (by
          rcases ht with hn | ⟨h1, h2, e1, e2, hdo⟩
          · exact Or.inl hn
          · exact Or.inr ⟨h1, h2, e1, e2, fun cx hcx =>
              hdo cx _ _ hcx (by simp [Call.payload, hm])⟩)
      simp only [hpost]
  | fileInfo details =>
    simp only [Client.perform, Client.FileInfo]
    cases hm : lib.xmlMarshalFileDetails details with
    | error e => rfl
    | ok xml =>
      have hpost := post_of_same_answer lib c1 c2 ctx "/fileinfo" "text/xml; charset=utf-8" xml
        hu hp he (by
          rcases ht with hn | ⟨h1, h2, e1, e2, hdo⟩
          · exact Or.inl hn
          · exact Or.inr ⟨h1, h2, e1, e2, fun cx hcx =>
              hdo cx _ _ hcx (by simp [Call.payload, hm])⟩)
      simp only [hpost]
  | finish reportId =>
    simp only [Client.perform, Client.Finish]
    have hpost := post_of_same_answer lib c1 c2 ctx "/finish" "application/x-www-form-urlencoded"
      (utf8 (Values.Encode (Values.Set [] "id" (FormatInt reportId))))
      hu hp he (by
        rcases ht with hn | ⟨h1, h2, e1, e2, hdo⟩
        · exact Or.inl hn
        · exact Or.inr ⟨h1, h2, e1, e2, fun cx hcx =>
            hdo cx _ _ hcx (by simp [Call.payload])⟩)
    simp only [hpost]
  | retract reportId =>
    simp only [Client.perform, Client.Retract]
    have hpost := post_of_same_answer lib c1 c2 ctx "/retract" "application/x-www-form-urlencoded"
      (utf8 (Values.Encode (Values.Set [] "id" (FormatInt reportId))))
      hu hp he (by
        rcases ht with hn | ⟨h1, h2, e1, e2, hdo⟩
        · exact Or.inl hn
        · exact Or.inr ⟨h1, h2, e1, e2, fun cx hcx =>
            hdo cx _ _ hcx (by simp [Call.payload])⟩)
    simp only [hpost]

/-- C20, amended: for two runs of the same operation with equal arguments
(for `Upload` the boundary drawn included) on clients with the same user name,
password and environment whose HTTP clients give the same answer to the
request that the operation builds, the requests handed to the transport and
the returned value and error are identical.  The two HTTP clients may differ
in every other answer. -/
theorem operations_are_functions_of_inputs (lib : Lib) (ctx : Option Context) (c1 c2 : Client)
    (call : Call) (hu : c1.username = c2.username) (hp : c1.password = c2.password)
    (he : c1.environment = c2.environment) (ht : c1.AnswersAlike lib ctx call c2) :
    (c1.perform lib ctx call).calls = (c2.perform lib ctx call).calls ∧
    (c1.perform lib ctx call).outcome = (c2.perform lib ctx call).outcome := by
  rw [perform_of_same_answer lib ctx c1 c2 call hu hp he ht]
  exact ⟨rfl, rfl⟩

/-- C20, amended, at an upload with one boundary on two clients built apart
with the same fields: the HTTP client of the first answers every request with
HTTP 200, that of the second only the requests to the upload URL, and fails
the others. -/
theorem operations_are_functions_of_inputs_witness :
    (stubHttpClient { StatusCode := 200, Body := [] }).Do
        (Client.request (stubClient { StatusCode := 200, Body := [] }) { id := 0 } "/finish"
          "application/x-www-form-urlencoded" [])
      ≠ (onlyAt (Testing ++ "/upload") { StatusCode := 200, Body := [] }
          (errorsNew "connection refused")).Do
        (Client.request (stubClient { StatusCode := 200, Body := [] }) { id := 0 } "/finish"
          "application/x-www-form-urlencoded" []) ∧
    (Client.perform (stubLib (.ok { ResponseCode := some 0, FileId := some "b2f1" }) (.ok { }))
        (stubClient { StatusCode := 200, Body := [] }) background
        (.upload 7 "gopher.png" threeBytes "b0")).calls
      = (Client.perform (stubLib (.ok { ResponseCode := some 0, FileId := some "b2f1" }) (.ok { }))
        { username := "user", password := "secret", environment := Testing,
          httpClient := some (onlyAt (Testing ++ "/upload") { StatusCode := 200, Body := [] }
            (errorsNew "connection refused")) }
        background (.upload 7 "gopher.png" threeBytes "b0")).calls ∧
    (Client.perform (stubLib (.ok { ResponseCode := some 0, FileId := some "b2f1" }) (.ok { }))
        (stubClient { StatusCode := 200, Body := [] }) background
        (.upload 7 "gopher.png" threeBytes "b0")).outcome
      = (Client.perform (stubLib (.ok { ResponseCode := some 0, FileId := some "b2f1" }) (.ok { }))
        { username := "user", password := "secret", environment := Testing,
          httpClient := some (onlyAt (Testing ++ "/upload") { StatusCode := 200, Body := [] }
            (errorsNew "connection refused")) }
        background (.upload 7 "gopher.png" threeBytes "b0")).outcome :=
  ⟨(by
      intro h
      simp only [onlyAt, stubHttpClient] at h
      rw [if_neg (by decide)] at h
      cases h),
    operations_are_functions_of_inputs _ _ _ _ _ rfl rfl rfl
      (Or.inr ⟨_, _, rfl, rfl, fun _ _ _ _ _ => rfl⟩)⟩

/-! ## The form that `Upload` posts, read back -/

/-- The bytes of a concatenation. -/
theorem utf8_append (a b : String) : utf8 (a ++ b) = utf8 a ++ utf8 b := by
  simp [utf8, String.data_append, List.flatMap_append]

/-- A body that starts with the expected bytes. -/
theorem expect_append (p l : Bytes) : expect p (p ++ l) = some l := by
  induction p with
  | nil => cases l <;> rfl
  | cons a p ih => simp [expect, ih]

/-- A pattern does not start at a byte other than its first. -/
theorem expect_cons_ne (x b : Nat) (p l : Bytes) (h : b ≠ x) : expect (x :: p) (b :: l) = none := by
  simp [expect, Ne.symm h]

/-- The first occurrence of a pattern after bytes that do not hold its first
byte. -/
theorem cutAt_of_head_not_mem (x : Nat) (p a rest : Bytes) (h : x ∉ a) :
    cutAt (x :: p) (a ++ (x :: p) ++ rest) = some (a, rest) := by
  induction a with
  | nil =>
    have : expect (x :: p) (x :: (p ++ rest)) = some rest := expect_append (x :: p) rest
    simp [cutAt, this]
  | cons b a ih =>
    have hb : b ≠ x := fun hbx => h (by simp [hbx])
    have ha : x ∉ a := fun hx => h (List.mem_cons_of_mem b hx)
    have := ih ha
    simp only [List.cons_append, List.append_assoc] at this ⊢
    simp [cutAt, expect_cons_ne x b p _ hb, this]

/-- A byte below 128 in the encoding of a character is the character. -/
theorem utf8EncodeChar_small (c : Char) (b : Nat) (hb : b ∈ utf8EncodeChar c) (hlt : b < 128) :
    utf8EncodeChar c = [b] ∧ c.toNat = b := by
  unfold utf8EncodeChar at hb ⊢
  simp only at hb ⊢
  split at hb
  · simp at hb
    subst hb
    simp [*]
  · split at hb
    · simp at hb
      omega
    · split at hb
      · simp at hb
        omega
      · simp at hb
        omega

/-- A character is given by its code. -/
theorem char_eq_of_toNat (c d : Char) (h : c.toNat = d.toNat) : c = d := by
  apply Char.ext
  apply UInt32.ext
  exact h

/-- The bytes of a string without the character `ch` below 128 do not hold
its code. -/
theorem not_mem_utf8 (s : String) (ch : Char) (hch : ch.toNat < 128) (h : ch ∉ s.data) :
    ch.toNat ∉ utf8 s := by
  intro hmem
  simp only [utf8, List.mem_flatMap] at hmem
  obtain ⟨c, hc, hb⟩ := hmem
  have := (utf8EncodeChar_small c ch.toNat hb hch).2
  exact h (char_eq_of_toNat c ch this ▸ hc)

/-- Escaping a string escapes its bytes. -/
theorem utf8_escapeQuotes (s : String) :
    utf8 (escapeQuotes s) = (utf8 s).flatMap quoteByte := by
  simp only [utf8, escapeQuotes, List.flatMap_assoc]
  congr 1
  funext c
  by_cases h1 : c = '\\'
  · subst h1; rfl
  · by_cases h2 : c = '"'
    · subst h2; rfl
    · simp only [h1, h2, if_false, List.flatMap_cons, List.flatMap_nil, List.append_nil]
      have key : ∀ l : Bytes, (∀ b ∈ l, b ≠ 92 ∧ b ≠ 34) → l.flatMap quoteByte = l := by
        intro l
        induction l with
        | nil => intro _; rfl
        | cons b l ih =>
          intro hl
          have hb := hl b (List.mem_cons_self b l)
          rw [List.flatMap_cons, ih (fun x hx => hl x (List.mem_cons_of_mem b hx))]
          simp [quoteByte, hb.1, hb.2]
      rw [key]
      intro b hb
      constructor
      · intro h92
        have := (utf8EncodeChar_small c b hb (by omega)).2
        exact h1 (char_eq_of_toNat c '\\' (by rw [this, h92]; rfl))
      · intro h34
        have := (utf8EncodeChar_small c b hb (by omega)).2
        exact h2 (char_eq_of_toNat c '"' (by rw [this, h34]; rfl))

/-- A quoted string written by `escapeQuotes` reads back as its bytes,
when these hold no carriage return and no line feed. -/
theorem readQuoted_quoteByte (bs rest : Bytes) (h : ∀ b ∈ bs, b ≠ 13 ∧ b ≠ 10) :
    readQuoted false (bs.flatMap quoteByte ++ 34 :: rest) = some (bs, rest) := by
  induction bs with
  | nil => simp [readQuoted]
  | cons b bs ih =>
    have hb := h b (List.mem_cons_self b bs)
    have ih := ih (fun x hx => h x (List.mem_cons_of_mem b hx))
    rw [List.flatMap_cons]
    by_cases h92 : b = 92
    · subst h92
      simp [quoteByte, readQuoted, isTSpecial, ih]
    · by_cases h34 : b = 34
      · subst h34
        simp [quoteByte, readQuoted, isTSpecial, ih]
      · simp [quoteByte, readQuoted, h92, h34, hb.1, hb.2, ih]

/-- The body that `Upload` builds, piece by piece. -/
theorem uploadBody_eq (n : Int) (s : String) (data : Reader) (boundary : String)
    (hdata : data.err = none) :
    uploadBody n s data boundary =
      utf8 ("--" ++ boundary) ++ ([13, 10] ++ (idLine ++ ([13, 10] ++ ([13, 10] ++
        (utf8 (FormatInt n) ++ (delimiter boundary ++ ([13, 10] ++
          fileSection boundary ((utf8 s).flatMap quoteByte) data.bytes))))))) := by
  have e1 : escapeQuotes "id" = "id" := by decide
  have e2 : escapeQuotes "file" = "file" := by decide
  have l1 : utf8 "\r\n" = [13, 10] := by decide
  have l2 : utf8 "Content-Disposition: form-data; name=\"id\"\r\n"
      = utf8 "Content-Disposition: form-data; name=\"id\"" ++ [13, 10] := by decide
  have l3 : utf8 "\r\n--" = 13 :: 10 :: utf8 "--" := by decide
  have l4 : utf8 "Content-Disposition: " ++ utf8 "form-data; name=\"file\"; filename=\""
      = utf8 "Content-Disposition: form-data; name=\"file\"; filename=\"" := by decide
  have l5 : utf8 "\"" = [34] := by decide
  have l6 : utf8 "Content-Type: application/octet-stream\r\n"
      = utf8 "Content-Type: application/octet-stream" ++ [13, 10] := by decide
  have l7 : utf8 "--\r\n" = [45, 45, 13, 10] := by decide
  simp [uploadBody, uploadForm, NewWriter, Writer.WriteField, Writer.CreatePart, Writer.Write,
    Writer.CreateFormFile, ioCopy, hdata, Writer.Close, utf8_append, e1, e2, String.join,
    delimiter, idLine, fileLine, typeLine, utf8_escapeQuotes, fileSection]
  rw [← List.append_assoc (utf8 "Content-Disposition: "), l4]
  simp [l1, l2, l3, l5, l6, l7]

/-- The empty line ends the header. -/
theorem readHeaderLines_end (fuel : Nat) (rest : Bytes) :
    readHeaderLines (fuel + 1) ([13, 10] ++ rest) = some ([], rest) := by
  have h : cutAt [13, 10] ([] ++ [13, 10] ++ rest) = some ([], rest) :=
    cutAt_of_head_not_mem 13 [10] [] rest (by simp)
  simp only [List.nil_append, List.cons_append] at h
  simp [readHeaderLines, h]

/-- A header line without carriage return is read as one line. -/
theorem readHeaderLines_line (fuel : Nat) (line rest : Bytes) (h13 : 13 ∉ line)
    (hne : line ≠ []) :
    readHeaderLines (fuel + 1) (line ++ ([13, 10] ++ rest))
      = (readHeaderLines fuel rest).map (fun r => (line :: r.1, r.2)) := by
  have h : cutAt [13, 10] (line ++ [13, 10] ++ rest) = some (line, rest) :=
    cutAt_of_head_not_mem 13 [10] line rest h13
  simp only [List.append_assoc, List.cons_append, List.nil_append] at h
  simp [readHeaderLines, h, hne]

/-- The header line of the field `id` reads as the name `id`. -/
theorem readDisposition_idLine : readDisposition idLine = some (utf8 "id", none) := by
  decide

/-- The header line of the file part reads as the name `file` and the file
name that was escaped, when this holds no carriage return and no line
feed. -/
theorem readDisposition_fileLine (bs : Bytes) (h : ∀ b ∈ bs, b ≠ 13 ∧ b ≠ 10) :
    readDisposition (fileLine (bs.flatMap quoteByte)) = some (utf8 "file", some bs) := by
  have hsplit : utf8 "Content-Disposition: form-data; name=\"file\"; filename=\""
      = utf8 "Content-Disposition: form-data; name=\"" ++
        ((utf8 "file").flatMap quoteByte ++ 34 :: utf8 "; filename=\"") := by decide
  have hname : ∀ rest, readQuoted false ((utf8 "file").flatMap quoteByte ++ 34 :: rest)
      = some (utf8 "file", rest) :=
    fun rest => readQuoted_quoteByte (utf8 "file") rest (by decide)
  have hq := readQuoted_quoteByte bs [] h
  have hne : utf8 "; filename=\"" ++ (bs.flatMap quoteByte ++ [34]) ≠ [] := by
    have : utf8 "; filename=\"" = 59 :: (utf8 " filename=\"") := by decide
    rw [this]
    simp
  unfold readDisposition fileLine
  rw [hsplit]
  simp only [List.append_assoc, List.cons_append, expect_append, hname, hne, if_false,
    hq]
  simp

/-- Escaped bytes hold a carriage return only if the bytes do. -/
theorem not_mem_flatMap_quoteByte (bs : Bytes) (h : 13 ∉ bs) : 13 ∉ bs.flatMap quoteByte := by
  intro hmem
  simp only [List.mem_flatMap] at hmem
  obtain ⟨b, hb, h13⟩ := hmem
  unfold quoteByte at h13
  split at h13
  · simp at h13
  · split at h13
    · simp at h13
    · simp at h13
      exact h (h13 ▸ hb)

/-- The decimal string of an integer holds no carriage return. -/
theorem not_mem_utf8_decimalString (n : Int) : 13 ∉ utf8 (decimalString n) := by
  apply not_mem_utf8 (decimalString n) '\r' (by decide)
  intro hmem
  unfold decimalString at hmem
  simp only [List.mem_append] at hmem
  rcases hmem with hmem | hmem
  · split at hmem <;> simp at hmem
  · unfold decimalDigits at hmem
    split at hmem
    · simp at hmem
    · simp only [List.mem_map, List.mem_reverse] at hmem
      obtain ⟨d, hd, hch⟩ := hmem
      have hd10 : d < 10 := Nat.digits_lt_base (by norm_num) hd
      interval_cases d <;> simp [digitChar] at hch

/-- A header of one line. -/
theorem readHeaderLines_one (line rest : Bytes) (h13 : 13 ∉ line) (hne : line ≠ []) :
    readHeaderLines ((line ++ ([13, 10] ++ ([13, 10] ++ rest))).length + 1)
        (line ++ ([13, 10] ++ ([13, 10] ++ rest)))
      = some ([line], rest) := by
  have hk : (line ++ ([13, 10] ++ ([13, 10] ++ rest))).length + 1
      = (line.length + rest.length + 3) + 1 + 1 := by
    simp [List.length_append]
    omega
  rw [hk, readHeaderLines_line _ _ _ h13 hne, readHeaderLines_end]
  rfl

/-- A header of two lines. -/
theorem readHeaderLines_two (line1 line2 rest : Bytes) (h1 : 13 ∉ line1) (hne1 : line1 ≠ [])
    (h2 : 13 ∉ line2) (hne2 : line2 ≠ []) :
    readHeaderLines
        ((line1 ++ ([13, 10] ++ (line2 ++ ([13, 10] ++ ([13, 10] ++ rest))))).length + 1)
        (line1 ++ ([13, 10] ++ (line2 ++ ([13, 10] ++ ([13, 10] ++ rest)))))
      = some ([line1, line2], rest) := by
  have hk : (line1 ++ ([13, 10] ++ (line2 ++ ([13, 10] ++ ([13, 10] ++ rest))))).length + 1
      = (line1.length + line2.length + rest.length + 4) + 1 + 1 + 1 := by
    simp [List.length_append]
    omega
  rw [hk, readHeaderLines_line _ _ _ h1 hne1, readHeaderLines_line _ _ _ h2 hne2,
    readHeaderLines_end]
  rfl

/-- Reading one part whose header, disposition and content are known. -/
theorem readParts_part (boundary : String) (fuel : Nat) (l : Bytes) (lines : List Bytes)
    (rest content after : Bytes) (name : Bytes) (filename : Option Bytes)
    (hh : readHeaderLines (l.length + 1) l = some (lines, rest))
    (hd : lines.findSome? readDisposition = some (name, filename))
    (hc : cutAt (delimiter boundary) rest = some (content, after)) :
    readParts boundary (fuel + 1) l =
      if after = [45, 45, 13, 10] then
        some [{ name := name, filename := filename, content := content }]
      else
        match expect [13, 10] after with
        | none => none
        | some next =>
          (readParts boundary fuel next).map
            (fun parts => { name := name, filename := filename, content := content } :: parts) := by
  simp [readParts, hh, hd, hc]

/-- The form that `Upload` builds reads back as its two parts: the field
`id` with the decimal string of the identifier, then the file with its name
and content. -/
theorem uploadBody_reads_back (n : Int) (s : String) (data : Reader) (boundary : String)
    (hlo : -2 ^ 63 ≤ n) (hhi : n < 2 ^ 63) (hdata : data.err = none)
    (hcr : '\r' ∉ s.data) (hlf : '\n' ∉ s.data)
    (hfree : FreeOfDelimiter boundary data.bytes) :
    readForm boundary (uploadBody n s data boundary) =
      some [{ name := utf8 "id", filename := none, content := utf8 (decimalString n) },
            { name := utf8 "file", filename := some (utf8 s), content := data.bytes }] := by
  have h13 : 13 ∉ utf8 s := not_mem_utf8 s '\r' (by decide) hcr
  have h10 : 10 ∉ utf8 s := not_mem_utf8 s '\n' (by decide) hlf
  have hbs : ∀ b ∈ utf8 s, b ≠ 13 ∧ b ≠ 10 :=
    fun b hb => ⟨fun h => h13 (h ▸ hb), fun h => h10 (h ▸ hb)⟩
  have hid13 : 13 ∉ idLine := by decide
  have hidne : idLine ≠ [] := by decide
  have hty13 : 13 ∉ typeLine := by decide
  have htyne : typeLine ≠ [] := by decide
  have hfl13 : 13 ∉ fileLine ((utf8 s).flatMap quoteByte) := by
    have hlit : 13 ∉ utf8 "Content-Disposition: form-data; name=\"file\"; filename=\"" := by
      decide
    have hq := not_mem_flatMap_quoteByte (utf8 s) h13
    simp [fileLine, hlit, hq]
  have hflne : fileLine ((utf8 s).flatMap quoteByte) ≠ [] := by
    have : utf8 "Content-Disposition: form-data; name=\"file\"; filename=\""
        = 67 :: utf8 "ontent-Disposition: form-data; name=\"file\"; filename=\"" := by decide
    simp [fileLine, this]
  have hval : utf8 (FormatInt n) = utf8 (decimalString n) := by rw [formatBits_int64 n hlo hhi]
  have hv13 : 13 ∉ utf8 (decimalString n) := not_mem_utf8_decimalString n
  rw [uploadBody_eq n s data boundary hdata, hval]
  unfold readForm
  rw [expect_append]
  simp only
  rw [expect_append]
  simp only
  -- the second part
  have hfuel2 : ∀ fuel, readParts boundary (fuel + 1)
      (fileSection boundary ((utf8 s).flatMap quoteByte) data.bytes)
      = some [{ name := utf8 "file", filename := some (utf8 s), content := data.bytes }] := by
    intro fuel
    have hc := hfree [45, 45, 13, 10]
    rw [List.append_assoc] at hc
    unfold fileSection
    rw [readParts_part boundary fuel _ _ _ _ _ (utf8 "file") (some (utf8 s))
      (readHeaderLines_two _ _ _ hfl13 hflne hty13 htyne)
      (by simp [List.findSome?, readDisposition_fileLine (utf8 s) hbs]) hc]
    simp
  -- the first part
  generalize fileSection boundary ((utf8 s).flatMap quoteByte) data.bytes = section2 at hfuel2 ⊢
  have hc1 : cutAt (delimiter boundary)
      (utf8 (decimalString n) ++ (delimiter boundary ++ ([13, 10] ++ section2)))
      = some (utf8 (decimalString n), [13, 10] ++ section2) := by
    have := cutAt_of_head_not_mem 13 (10 :: utf8 ("--" ++ boundary)) (utf8 (decimalString n))
      ([13, 10] ++ section2) hv13
    rw [List.append_assoc] at this
    exact this
  have hfuel : ∀ fuel, 0 < fuel → readParts boundary fuel section2
      = some [{ name := utf8 "file", filename := some (utf8 s), content := data.bytes }] := by
    intro fuel hpos
    obtain ⟨k, rfl⟩ : ∃ k, fuel = k + 1 := ⟨fuel - 1, by omega⟩
    exact hfuel2 k
  rw [readParts_part boundary _ _ _ _ _ _ (utf8 "id") none
    (readHeaderLines_one _ _ hid13 hidne)
    (by simp [List.findSome?, readDisposition_idLine]) hc1]
  rw [if_neg (by simp), expect_append]
  simp only
  rw [hfuel _ (by simp [List.length_append])]
  rfl

/-- Content without a carriage return holds no delimiter. -/
theorem FreeOfDelimiter_of_no_cr (boundary : String) (b : Bytes) (h : 13 ∉ b) :
    FreeOfDelimiter boundary b :=
  fun rest => cutAt_of_head_not_mem 13 (10 :: utf8 ("--" ++ boundary)) b rest h

/-- The request of `Upload` carries the body `uploadBody` under the content
type of the writer. -/
theorem Upload_calls (lib : Lib) (c : Client) (cx : Context) (h : HttpClient) (n : Int)
    (s : String) (data : Reader) (boundary : String)
    (hc : c.httpClient = some h) (hurl : lib.urlParse (c.environment ++ "/upload") = none)
    (hdata : data.err = none) :
    (c.Upload lib (some cx) n s data boundary).calls =
      [c.request cx "/upload" (NewWriter boundary).FormDataContentType
        (uploadBody n s data boundary)] := by
  obtain ⟨contentType, buf, hform⟩ := uploadForm_of_readable n s data boundary hdata
  have hbody : uploadBody n s data boundary = buf := by simp [uploadBody, hform]
  have hct : contentType = (NewWriter boundary).FormDataContentType := by
    simp [uploadForm, NewWriter, Writer.WriteField, Writer.CreatePart, Writer.Write,
      Writer.CreateFormFile, ioCopy, hdata, Writer.Close, Writer.FormDataContentType] at hform
    simp [Writer.FormDataContentType, NewWriter, ← hform.1]
  rw [hbody, ← hct]
  exact perform_calls lib c cx h (.upload n s data boundary) contentType buf hc hurl hform

set_option maxRecDepth 100000 in
/-- C11 as stated fails for a file name with a line feed.  `Upload` of the
three bytes `1, 2, 3` under the name `"a\nb"` writes the name between quotes
with the line feed as it is; a receiver does not read a quoted string over a
line feed, so the body does not read as the two parts with the file name
`"a\nb"`.  It also fails for a stream that holds the delimiter line of the
boundary: the file part then ends before the end of the stream. -/
theorem Upload_form_fails_to_read_back :
    readForm "0f3a9c51d2e47b8860f3a9c51d2e47b8860f3a9c51d2e47b8860f3a9c51d"
        (uploadBody 7 "a\nb" threeBytes
          "0f3a9c51d2e47b8860f3a9c51d2e47b8860f3a9c51d2e47b8860f3a9c51d")
      ≠ some [{ name := utf8 "id", filename := none, content := utf8 "7" },
              { name := utf8 "file", filename := some (utf8 "a\nb"), content := [1, 2, 3] }] ∧
    readForm "0f3a9c51d2e47b8860f3a9c51d2e47b8860f3a9c51d2e47b8860f3a9c51d"
        (uploadBody 7 "gopher.png"
          { bytes := 1 :: delimiter "0f3a9c51d2e47b8860f3a9c51d2e47b8860f3a9c51d2e47b8860f3a9c51d"
              ++ [13, 10, 2],
            err := none }
          "0f3a9c51d2e47b8860f3a9c51d2e47b8860f3a9c51d2e47b8860f3a9c51d")
      ≠ some [{ name := utf8 "id", filename := none, content := utf8 "7" },
              { name := utf8 "file", filename := some (utf8 "gopher.png"),
                content := 1 :: delimiter
                  "0f3a9c51d2e47b8860f3a9c51d2e47b8860f3a9c51d2e47b8860f3a9c51d" ++ [13, 10, 2] }] := by
  decide

/-- C11, amended: the form that `Upload` posts.  For every 64-bit report
identifier `n`, every file name `s` without carriage return and line feed, and
every stream that reads without error and holds no delimiter line of the
boundary drawn, the one request of `Upload` carries a body that reads as a
multi-part form with exactly two parts in this order: the field `id` whose
value is the decimal string of `n`, then the file part `file` whose file name
is `s` and whose content is the bytes of the stream. -/
theorem Upload_posts_two_part_form (lib : Lib) (c : Client) (cx : Context) (h : HttpClient)
    (n : Int) (s : String) (data : Reader) (boundary : String)
    (hc : c.httpClient = some h) (hurl : lib.urlParse (c.environment ++ "/upload") = none)
    (hlo : -2 ^ 63 ≤ n) (hhi : n < 2 ^ 63) (hdata : data.err = none)
    (hcr : '\r' ∉ s.data) (hlf : '\n' ∉ s.data)
    (hfree : FreeOfDelimiter boundary data.bytes) :
    (c.Upload lib (some cx) n s data boundary).calls =
      [c.request cx "/upload" (NewWriter boundary).FormDataContentType
        (uploadBody n s data boundary)] ∧
    readForm boundary (uploadBody n s data boundary) =
      some [{ name := utf8 "id", filename := none, content := utf8 (decimalString n) },
            { name := utf8 "file", filename := some (utf8 s), content := data.bytes }] :=
  ⟨Upload_calls lib c cx h n s data boundary hc hurl hdata,
    uploadBody_reads_back n s data boundary hlo hhi hdata hcr hlf hfree⟩

/-- C11, amended, at the upload of `testClient`: the three bytes `1, 2, 3`
under the name `gopher.png` for the report 7. -/
theorem Upload_posts_two_part_form_witness :
    (Client.Upload (stubLib (.ok { }) (.ok { })) (stubClient { StatusCode := 200, Body := [] })
        (some { id := 0 }) 7 "gopher.png" threeBytes
        "0f3a9c51d2e47b8860f3a9c51d2e47b8860f3a9c51d2e47b8860f3a9c51d").calls.map
        (fun req => req.ContentType)
      = [some "multipart/form-data; boundary=0f3a9c51d2e47b8860f3a9c51d2e47b8860f3a9c51d2e47b8860f3a9c51d"] ∧
    readForm "0f3a9c51d2e47b8860f3a9c51d2e47b8860f3a9c51d2e47b8860f3a9c51d"
        (uploadBody 7 "gopher.png" threeBytes
          "0f3a9c51d2e47b8860f3a9c51d2e47b8860f3a9c51d2e47b8860f3a9c51d")
      = some [{ name := utf8 "id", filename := none, content := utf8 (decimalString 7) },
              { name := utf8 "file", filename := some (utf8 "gopher.png"),
                content := [1, 2, 3] }] :=
  have hw := Upload_posts_two_part_form (stubLib (.ok { }) (.ok { }))
    (stubClient { StatusCode := 200, Body := [] }) { id := 0 }
    (stubHttpClient { StatusCode := 200, Body := [] }) 7 "gopher.png" threeBytes
    "0f3a9c51d2e47b8860f3a9c51d2e47b8860f3a9c51d2e47b8860f3a9c51d" rfl rfl
    (by decide) (by decide) rfl (by decide) (by decide)
    (FreeOfDelimiter_of_no_cr _ _ (by decide))
  ⟨by rw [hw.1]; decide, hw.2⟩

/-! ## Encoding failures -/

/-- C21: an encoding failure is reported before anything is sent.  When
serialising the report fails with `e`, `Submit` hands no request to the
transport and returns the identifier 0 with an error that wraps `e`; when
serialising the file details fails with `e`, `FileInfo` hands no request to
the transport and returns an error that wraps `e`. -/
theorem encoding_failure_sends_nothing (lib : Lib) (c : Client) (ctx : Option Context)
    (report : Report) (details : FileDetails) (e : GoError)
    (hr : lib.xmlMarshalReport report = .error e)
    (hd : lib.xmlMarshalFileDetails details = .error e) :
    (c.Submit lib ctx report = ⟨[], .returned (0, some (ErrorfW "error mashaling report to XML: " e))⟩ ∧
      (ErrorfW "error mashaling report to XML: " e).Unwrap = some e) ∧
    (c.FileInfo lib ctx details
        = ⟨[], .returned (some (ErrorfW "error marshaling file details to XML: " e))⟩ ∧
      (ErrorfW "error marshaling file details to XML: " e).Unwrap = some e) := by
  refine ⟨⟨?_, rfl⟩, ⟨?_, rfl⟩⟩
  · simp [Client.Submit, hr]
  · simp [Client.FileInfo, hd]

/-- C21 at a concrete run: the encoder fails with
`"xml: unsupported type"`. -/
theorem encoding_failure_sends_nothing_witness :
    (Client.Submit (failingMarshalLib (errorsNew "xml: unsupported type"))
        (stubClient { StatusCode := 200, Body := [] }) background minimalReport).calls = [] ∧
    (Client.Submit (failingMarshalLib (errorsNew "xml: unsupported type"))
        (stubClient { StatusCode := 200, Body := [] }) background minimalReport).outcome
      = .returned (0, some (ErrorfW "error mashaling report to XML: "
          (errorsNew "xml: unsupported type"))) ∧
    (Client.FileInfo (failingMarshalLib (errorsNew "xml: unsupported type"))
        (stubClient { StatusCode := 200, Body := [] }) background { }).calls = [] :=
  have h := encoding_failure_sends_nothing (failingMarshalLib (errorsNew "xml: unsupported type"))
    (stubClient { StatusCode := 200, Body := [] }) background minimalReport { }
    (errorsNew "xml: unsupported type") rfl rfl
  ⟨congrArg Run.calls h.1.1, congrArg Run.outcome h.1.1, congrArg Run.calls h.2.1⟩

/-! ## The constructor -/

/-- The client after a list of `WithHTTPClient` options. -/
theorem applyOptions_WithHTTPClient (supplied : List (Option HttpClient)) (c : Client) :
    applyOptions (supplied.map WithHTTPClient) c =
      { c with httpClient := match supplied.getLast? with
                              | none => c.httpClient
                              | some h => h } := by
  induction supplied generalizing c with
  | nil => rfl
  | cons h hs ih =>
    have hstep : applyOptions ((h :: hs).map WithHTTPClient) c
        = applyOptions (hs.map WithHTTPClient) (WithHTTPClient h c) := rfl
    rw [hstep, ih]
    cases hs with
    | nil => simp [WithHTTPClient]
    | cons h2 hs =>
      have hne : (h2 :: hs).getLast? = some ((h2 :: hs).getLast (by simp)) :=
        List.getLast?_eq_getLast _ _
      simp [WithHTTPClient, List.getLast?_cons_cons, hne]

/-- `NewClient` in terms of the loop over its options. -/
theorem NewClient_eq (d : HttpClient) (username password : String) (environment : Environment)
    (options : List (Client → Client)) :
    NewClient d username password environment options =
      match (applyOptions options (initialClient username password environment)).httpClient with
      | none => { applyOptions options (initialClient username password environment)
                  with httpClient := some d }
      | some _ => applyOptions options (initialClient username password environment) :=
  rfl

/-- C23 as stated fails for an option that is not a `WithHTTPClient`
option: `NewClient` applies every option function to the client, and an
option that assigns the user name leaves another user name than the one
given. -/
theorem NewClient_option_overwrites_username :
    (NewClient (stubHttpClient { StatusCode := 200, Body := [] }) "user" "secret" Testing
        [fun c => { c with username := "other" }]).username = "other" ∧
    (NewClient (stubHttpClient { StatusCode := 200, Body := [] }) "user" "secret" Testing
        [fun c => { c with username := "other" }]).username ≠ "user" := by
  refine ⟨rfl, ?_⟩
  decide

/-- C23, amended.  For every list of option functions the client returned by
`NewClient` has a non-nil HTTP client: the default one when the options leave
it unset, otherwise the client is returned as the options leave it.  For every
list of `WithHTTPClient` options the client keeps the user name, the password
and the environment it was given, and its HTTP client is the one supplied by
the last option, or the default one when there is no option or the last one
supplies nil. -/
theorem NewClient_result (d : HttpClient) (username password : String) (environment : Environment) :
    (∀ options : List (Client → Client),
      (NewClient d username password environment options).httpClient ≠ none ∧
      ((applyOptions options (initialClient username password environment)).httpClient = none →
        (NewClient d username password environment options).httpClient = some d) ∧
      (∀ h, (applyOptions options (initialClient username password environment)).httpClient = some h →
        NewClient d username password environment options
          = applyOptions options (initialClient username password environment))) ∧
    (∀ supplied : List (Option HttpClient),
      (NewClient d username password environment (supplied.map WithHTTPClient)).username
        = username ∧
      (NewClient d username password environment (supplied.map WithHTTPClient)).password
        = password ∧
      (NewClient d username password environment (supplied.map WithHTTPClient)).environment
        = environment ∧
      (NewClient d username password environment (supplied.map WithHTTPClient)).httpClient
        = some ((lastSupplied supplied).getD d)) := by
  constructor
  · intro options
    rw [NewClient_eq]
    generalize applyOptions options (initialClient username password environment) = c
    cases hc : c.httpClient with
    | none => simp
    | some h => simp [hc]
  · intro supplied
    rw [NewClient_eq, applyOptions_WithHTTPClient]
    simp only [lastSupplied]
    cases hl : supplied.getLast? with
    | none => simp [initialClient]
    | some h =>
      cases h with
      | none => simp [initialClient]
      | some h => simp [initialClient]

/-! ## Rejection, HTTP status and missing identifiers -/

/-- Rejection comes before the HTTP status when the document carries a
description.  When the decoded status code is not 0, the description is
present and the HTTP status is not 200, `Submit`, `Upload` and `FileInfo`
return the error with the description of the service, `"error from server: "`
followed by the description, and `Finish` returns its rejection error
`"error finishing report"`; in no case is the message the text of the HTTP
status. -/
theorem rejection_before_http_status (lib : Lib) (c : Client) (ctx : Option Context)
    (report : Report) (reportId : Int) (filename : String) (data : Reader) (boundary : String)
    (details : FileDetails) (resp : Response) (rr : ReportResponse) (rd : ReportDoneResponse)
    (code : Int) (d : String)
    (hne : code ≠ 0) (_hst : resp.StatusCode ≠ StatusOK) :
    (c.SubmitAnswered lib ctx report resp rr → rr.ResponseCode = some code →
      rr.ResponseDescription = some d →
      (c.Submit lib ctx report).outcome
        = .returned (0, some (ErrorfS "error from server: " d))) ∧
    (c.UploadAnswered lib ctx reportId filename data boundary resp rr →
      rr.ResponseCode = some code → rr.ResponseDescription = some d →
      (c.Upload lib ctx reportId filename data boundary).outcome
        = .returned ("", some (ErrorfS "error from server: " d))) ∧
    (c.FileInfoAnswered lib ctx details resp rr → rr.ResponseCode = some code →
      rr.ResponseDescription = some d →
      (c.FileInfo lib ctx details).outcome
        = .returned (some (ErrorfS "error from server: " d))) ∧
    (c.FinishAnswered lib ctx reportId resp rd → rd.ResponseCode = some code →
      (c.Finish lib ctx reportId).outcome
        = .returned (some (errorsNew "error finishing report"))) ∧
    (ErrorfS "error from server: " d).Error ≠ StatusText resp.StatusCode ∧
    (errorsNew "error finishing report").Error ≠ StatusText resp.StatusCode := by
  refine ⟨fun h hc hd => ?_, fun h hc hd => ?_, fun h hc hd => ?_, fun h hc => ?_, ?_, ?_⟩
  · rw [Submit_outcome_of_answered h]
    simp [hc, hne, hd]
  · rw [Upload_outcome_of_answered h]
    simp [hc, hne, hd]
  · rw [FileInfo_outcome_of_answered h]
    simp [hc, hne, hd]
  · rw [Finish_outcome_of_answered h]
    simp [hc, hne]
  · intro h
    have h1 := categoryOfMessage_server d
    have h2 := categoryOfMessage_StatusText resp.StatusCode
    have h3 : (ErrorfS "error from server: " d).Error = "error from server: " ++ d := rfl
    rw [h3] at h
    rw [h, h2] at h1
    exact Category.noConfusion h1
  · intro h
    have h1 : categoryOfMessage (errorsNew "error finishing report").Error = .rejection := rfl
    have h2 := categoryOfMessage_StatusText resp.StatusCode
    rw [h, h2] at h1
    exact Category.noConfusion h1

/-- Rejection before the HTTP status at a concrete answer: status code 4100
with the description `"Invalid report"` under HTTP 500. -/
theorem rejection_before_http_status_witness :
    (Client.Submit
        (stubLib (.ok { ResponseCode := some 4100, ResponseDescription := some "Invalid report" })
          (.ok { ResponseCode := some 4100 }))
        (stubClient { StatusCode := 500, Body := [] }) background minimalReport).outcome
      = .returned (0, some (ErrorfS "error from server: " "Invalid report")) ∧
    (Client.Finish
        (stubLib (.ok { ResponseCode := some 4100, ResponseDescription := some "Invalid report" })
          (.ok { ResponseCode := some 4100 }))
        (stubClient { StatusCode := 500, Body := [] }) background 7).outcome
      = .returned (some (errorsNew "error finishing report")) ∧
    (ErrorfS "error from server: " "Invalid report").Error ≠ StatusText 500 :=
  have h := rejection_before_http_status
    (stubLib (.ok { ResponseCode := some 4100, ResponseDescription := some "Invalid report" })
      (.ok { ResponseCode := some 4100 }))
    (stubClient { StatusCode := 500, Body := [] }) background minimalReport 7 "gopher.png"
    threeBytes "b0" { } { StatusCode := 500, Body := [] }
    { ResponseCode := some 4100, ResponseDescription := some "Invalid report" }
    { ResponseCode := some 4100 } 4100 "Invalid report" (by decide) (by decide)
  ⟨h.1 ⟨_, rfl, rfl, rfl⟩ rfl rfl, h.2.2.2.1 ⟨rfl, rfl⟩ rfl, h.2.2.2.2.1⟩

/-- C24, at the input where the claim fails: the service answers with HTTP
500 and a document that has status code 4100 and no description element.
The claim promises the application-rejection error for `Submit`, `Upload`,
`FileInfo` and `Finish`; `Finish` returns its rejection error
`"error finishing report"`, not the status text, but `Submit`, `Upload` and
`FileInfo` dereference the absent description and panic, so that they return
no error at all. -/
theorem rejection_under_http_500_without_description_panics :
    (Client.Submit (stubLib (.ok { ResponseCode := some 4100 }) (.ok { ResponseCode := some 4100 }))
        (stubClient { StatusCode := 500, Body := [] }) background minimalReport).outcome
      = .panicked nilDereference ∧
    (Client.Upload (stubLib (.ok { ResponseCode := some 4100 }) (.ok { ResponseCode := some 4100 }))
        (stubClient { StatusCode := 500, Body := [] }) background 7 "gopher.png" threeBytes
        "b0").outcome
      = .panicked nilDereference ∧
    (Client.FileInfo
        (stubLib (.ok { ResponseCode := some 4100 }) (.ok { ResponseCode := some 4100 }))
        (stubClient { StatusCode := 500, Body := [] }) background
        { ReportId := some 7, FileId := some "f" }).outcome
      = .panicked nilDereference ∧
    (Client.Finish (stubLib (.ok { ResponseCode := some 4100 }) (.ok { ResponseCode := some 4100 }))
        (stubClient { StatusCode := 500, Body := [] }) background 7).outcome
      = .returned (some (errorsNew "error finishing report")) ∧
    (errorsNew "error finishing report").Error ≠ StatusText 500 :=
  ⟨rfl, rfl, rfl, rfl, by decide⟩

/-- A status code without a registered text has the empty text. -/
theorem StatusText_unregistered (code : Int) (h : code ∉ registeredStatusCodes) :
    StatusText code = "" := by
  simp only [registeredStatusCodes, List.mem_cons, List.mem_singleton, not_or,
    List.not_mem_nil, not_false_eq_true, and_true] at h
  simp only [StatusText]
  simp [h]

set_option maxRecDepth 100000 in
/-- A registered status code has a text. -/
theorem StatusText_registered (code : Int) (h : code ∈ registeredStatusCodes) :
    StatusText code ≠ "" := by
  revert code
  decide

/-- C25 as stated fails for a status code that is not registered: under
HTTP 520 with status code 0, `Submit` returns an error with the empty
message, which does not identify the status. -/
theorem http_status_520_gives_empty_message :
    (Client.Submit (stubLib (.ok { ResponseCode := some 0, ReportId := some 7 }) (.ok { }))
        (stubClient { StatusCode := 520, Body := [] }) background minimalReport).outcome
      = .returned (0, some (errorsNew "")) ∧
    (errorsNew "").Error = "" := by
  decide

/-- C25, amended: for every registered HTTP status code other than 200,
when the decoded status code is 0, `Submit`, `Upload`, `FileInfo` and `Finish`
return an error whose message is the standard text of that status, which is
not empty.  For a code that is not registered the error is returned as well,
with the empty message. -/
theorem http_status_error_message (lib : Lib) (c : Client) (ctx : Option Context)
    (report : Report) (reportId : Int) (filename : String) (data : Reader) (boundary : String)
    (details : FileDetails) (resp : Response) (rr : ReportResponse) (rd : ReportDoneResponse)
    (hst : resp.StatusCode ≠ StatusOK) :
    (c.SubmitAnswered lib ctx report resp rr → rr.ResponseCode = some 0 →
      (c.Submit lib ctx report).outcome
        = .returned (0, some (errorsNew (StatusText resp.StatusCode)))) ∧
    (c.UploadAnswered lib ctx reportId filename data boundary resp rr →
      rr.ResponseCode = some 0 →
      (c.Upload lib ctx reportId filename data boundary).outcome
        = .returned ("", some (errorsNew (StatusText resp.StatusCode)))) ∧
    (c.FileInfoAnswered lib ctx details resp rr → rr.ResponseCode = some 0 →
      (c.FileInfo lib ctx details).outcome
        = .returned (some (errorsNew (StatusText resp.StatusCode)))) ∧
    (c.FinishAnswered lib ctx reportId resp rd → rd.ResponseCode = some 0 →
      (c.Finish lib ctx reportId).outcome
        = .returned (some (errorsNew (StatusText resp.StatusCode)))) ∧
    (errorsNew (StatusText resp.StatusCode)).Error = StatusText resp.StatusCode ∧
    (resp.StatusCode ∈ registeredStatusCodes → StatusText resp.StatusCode ≠ "") ∧
    (resp.StatusCode ∉ registeredStatusCodes → StatusText resp.StatusCode = "") := by
  refine ⟨fun h hc => ?_, fun h hc => ?_, fun h hc => ?_, fun h hc => ?_, rfl,
    StatusText_registered _, StatusText_unregistered _⟩
  · rw [Submit_outcome_of_answered h]
    simp [hc, hst]
  · rw [Upload_outcome_of_answered h]
    simp [hc, hst]
  · rw [FileInfo_outcome_of_answered h]
    simp [hc, hst]
  · rw [Finish_outcome_of_answered h]
    simp [hc, hst]

/-- C25, amended, at HTTP 503 with status code 0: the message is
`"Service Unavailable"`. -/
theorem http_status_error_message_witness :
    (Client.Submit (stubLib (.ok { ResponseCode := some 0, ReportId := some 7 }) (.ok { }))
        (stubClient { StatusCode := 503, Body := [] }) background minimalReport).outcome
      = .returned (0, some (errorsNew "Service Unavailable")) ∧
    StatusText 503 ≠ "" :=
  have h := http_status_error_message
    (stubLib (.ok { ResponseCode := some 0, ReportId := some 7 }) (.ok { }))
    (stubClient { StatusCode := 503, Body := [] }) background minimalReport 7 "gopher.png"
    threeBytes "b0" { } { StatusCode := 503, Body := [] }
    { ResponseCode := some 0, ReportId := some 7 } { } (by decide)
  ⟨h.1 ⟨_, rfl, rfl, rfl⟩ rfl, h.2.2.2.2.2.1 (by decide)⟩

/-- C26, at the input where the claim fails: the service answers with HTTP
200 and a document with status code 0 in which the identifier is absent (for
`Submit` no report identifier, for `Upload` no file identifier).  The claim
says the call returns normally; `Submit` dereferences the absent report
identifier and `Upload` the absent file identifier, and both panic. -/
theorem missing_identifier_panics :
    (Client.Submit (stubLib (.ok { ResponseCode := some 0 }) (.ok { }))
        (stubClient { StatusCode := 200, Body := [] }) background minimalReport).outcome
      = .panicked nilDereference ∧
    (Client.Upload (stubLib (.ok { ResponseCode := some 0, ReportId := some 7 }) (.ok { }))
        (stubClient { StatusCode := 200, Body := [] }) background 7 "gopher.png" threeBytes
        "b0").outcome
      = .panicked nilDereference :=
  ⟨rfl, rfl⟩

/-! ## Identifiers and dates read back -/

/-- The value of the character of a digit. -/
theorem digitValue_digitChar (d : Nat) (hd : d < 10) : digitValue (digitChar d) = some d := by
  interval_cases d <;> rfl

/-- Reading digits after digits. -/
theorem parseDigits_append (xs ys : List Char) (acc : Nat) :
    parseDigits (xs ++ ys) acc = (parseDigits xs acc).bind (parseDigits ys) := by
  induction xs generalizing acc with
  | nil => rfl
  | cons c xs ih =>
    simp only [List.cons_append, parseDigits]
    cases digitValue c with
    | none => rfl
    | some d => exact ih _

/-- Reading the digits of a number, most significant first. -/
theorem parseDigits_reverse (l : List Nat) (hl : ∀ d ∈ l, d < 10) (acc : Nat) :
    parseDigits (l.reverse.map digitChar) acc = some (acc * 10 ^ l.length + Nat.ofDigits 10 l) := by
  induction l generalizing acc with
  | nil => simp [parseDigits]
  | cons d l ih =>
    have hd : d < 10 := hl d (List.mem_cons_self d l)
    have ih := ih (fun x hx => hl x (List.mem_cons_of_mem d hx)) acc
    rw [List.reverse_cons, List.map_append, parseDigits_append, ih]
    simp only [List.map_cons, List.map_nil, Option.some_bind, parseDigits,
      digitValue_digitChar d hd, Nat.ofDigits_cons, List.length_cons]
    congr 1
    ring

/-- The decimal digits of a number read back as the number. -/
theorem parseUint_decimalDigits (u : Nat) : parseUint (decimalDigits u) = some u := by
  unfold decimalDigits
  by_cases h0 : u = 0
  · subst h0; rfl
  · rw [if_neg h0]
    have hne : (Nat.digits 10 u).reverse.map digitChar ≠ [] := by
      simp [Nat.digits_ne_nil_iff_ne_zero, h0]
    have := parseDigits_reverse (Nat.digits 10 u)
      (fun d hd => Nat.digits_lt_base (by norm_num) hd) 0
    simp only [parseUint, hne, if_false, this, Nat.ofDigits_digits]
    simp

/-- Every decimal digit of a number is the character of a digit. -/
theorem mem_decimalDigits (u : Nat) (ch : Char) (h : ch ∈ decimalDigits u) :
    ∃ d, d < 10 ∧ ch = digitChar d := by
  unfold decimalDigits at h
  split at h
  · simp at h
    exact ⟨0, by norm_num, h⟩
  · simp only [List.mem_map, List.mem_reverse] at h
    obtain ⟨d, hd, rfl⟩ := h
    exact ⟨d, Nat.digits_lt_base (by norm_num) hd, rfl⟩

/-- A number has at least one decimal digit. -/
theorem decimalDigits_ne_nil (u : Nat) : decimalDigits u ≠ [] := by
  unfold decimalDigits
  split
  · simp
  · rename_i h0
    simp [Nat.digits_ne_nil_iff_ne_zero, h0]

/-- The character of a digit is not a sign. -/
theorem digitChar_ne_sign (d : Nat) (hd : d < 10) : digitChar d ≠ '-' ∧ digitChar d ≠ '+' := by
  interval_cases d <;> decide

/-- `ParseInt` reads the base-10 representation of a 64-bit integer back. -/
theorem ParseInt_decimalString (n : Int) (hlo : -2 ^ 63 ≤ n) (hhi : n < 2 ^ 63) :
    ParseInt (decimalString n) = some n := by
  have hp := parseUint_decimalDigits n.natAbs
  unfold ParseInt decimalString
  by_cases hneg : n < 0
  · have hle : n.natAbs ≤ 2 ^ 63 := by omega
    have hval : -((n.natAbs : Nat) : Int) = n := by omega
    simp [hneg, hp]
    exact ⟨by omega, by rw [abs_of_neg hneg]; ring⟩
  · simp only [hneg, if_false, List.nil_append]
    cases hds : decimalDigits n.natAbs with
    | nil => exact absurd hds (decimalDigits_ne_nil _)
    | cons c cs =>
      obtain ⟨d, hd, rfl⟩ := mem_decimalDigits n.natAbs c (by rw [hds]; exact List.mem_cons_self _ _)
      have hs := digitChar_ne_sign d hd
      have hlt : n.natAbs < 2 ^ 63 := by omega
      have hval : ((n.natAbs : Nat) : Int) = n := by omega
      rw [hds] at hp
      simp [hs.1, hs.2, hp, hval]
      omega

/-- The bytes of a string of characters below 128 are their codes. -/
theorem utf8_ascii (cs : List Char) (h : ∀ c ∈ cs, c.toNat < 128) :
    (utf8 (String.mk cs)).map Char.ofNat = cs := by
  induction cs with
  | nil => rfl
  | cons c cs ih =>
    have hc := h c (List.mem_cons_self c cs)
    have ih := ih (fun x hx => h x (List.mem_cons_of_mem c hx))
    have he : utf8EncodeChar c = [c.toNat] := by
      unfold utf8EncodeChar
      simp only
      rw [if_pos (by omega)]
    have hcons : utf8 (String.mk (c :: cs)) = utf8EncodeChar c ++ utf8 (String.mk cs) := by
      simp [utf8]
    rw [hcons, he]
    simp only [List.singleton_append, List.map_cons, ih, Char.ofNat_toNat]

/-- The characters of a base-10 representation are below 128. -/
theorem decimalString_ascii (n : Int) : ∀ c ∈ (decimalString n).data, c.toNat < 128 := by
  intro c hc
  unfold decimalString at hc
  simp only [List.mem_append] at hc
  rcases hc with hc | hc
  · split at hc
    · simp at hc; subst hc; decide
    · simp at hc
  · obtain ⟨d, hd, rfl⟩ := mem_decimalDigits _ c hc
    interval_cases d <;> decide

/-- The bytes of a base-10 representation read back as the integer. -/
theorem parseIntBytes_decimalString (n : Int) (hlo : -2 ^ 63 ≤ n) (hhi : n < 2 ^ 63) :
    parseIntBytes (utf8 (decimalString n)) = some n := by
  unfold parseIntBytes
  have h := utf8_ascii (decimalString n).data (decimalString_ascii n)
  have hs : String.mk (decimalString n).data = decimalString n := rfl
  rw [hs] at h
  rw [h]
  exact ParseInt_decimalString n hlo hhi

/-- The form body with the field `id` reads back as the identifier. -/
theorem readIdField_body (n : Int) (hlo : -2 ^ 63 ≤ n) (hhi : n < 2 ^ 63) :
    readIdField (utf8 ("id=" ++ decimalString n)) = some n := by
  unfold readIdField
  rw [utf8_append, expect_append]
  exact parseIntBytes_decimalString n hlo hhi

/-- C27: the identifier encoding is lossless.  For every 64-bit report
identifier `n`, parsing the decimal string that `FormatInt` gives for the `id`
field, as a string or as the bytes placed in the form, gives back `n`; the
id part of the form that `Upload` posts and the body that `Finish` and
`Retract` send read back as `n`, and two identifiers
for which `Finish`, or `Retract`, hands the same requests to the transport are
equal. -/
theorem identifier_encoding_lossless (lib : Lib) (c : Client) (cx : Context) (h : HttpClient)
    (n : Int) (hlo : -2 ^ 63 ≤ n) (hhi : n < 2 ^ 63)
    (hc : c.httpClient = some h)
    (hfin : lib.urlParse (c.environment ++ "/finish") = none)
    (hret : lib.urlParse (c.environment ++ "/retract") = none) :
    ParseInt (FormatInt n) = some n ∧
    parseIntBytes (utf8 (FormatInt n)) = some n ∧
    (∀ (s : String) (data : Reader) (boundary : String), data.err = none →
      '\r' ∉ s.data → '\n' ∉ s.data → FreeOfDelimiter boundary data.bytes →
      ∃ part rest, readForm boundary (uploadBody n s data boundary) = some (part :: rest) ∧
        part.name = utf8 "id" ∧ parseIntBytes part.content = some n) ∧
    (∀ req ∈ (c.Finish lib (some cx) n).calls, readIdField req.Body = some n) ∧
    (∀ req ∈ (c.Retract lib (some cx) n).calls, readIdField req.Body = some n) ∧
    (∀ m : Int, -2 ^ 63 ≤ m → m < 2 ^ 63 →
      (c.Finish lib (some cx) m).calls = (c.Finish lib (some cx) n).calls → m = n) ∧
    (∀ m : Int, -2 ^ 63 ≤ m → m < 2 ^ 63 →
      (c.Retract lib (some cx) m).calls = (c.Retract lib (some cx) n).calls → m = n) := by
  have hf := formatBits_int64 n hlo hhi
  have hb := Finish_Retract_form_body lib c cx h n hlo hhi hc hfin hret
  have hr := readIdField_body n hlo hhi
  refine ⟨by rw [hf]; exact ParseInt_decimalString n hlo hhi,
    by rw [hf]; exact parseIntBytes_decimalString n hlo hhi, ?_, ?_, ?_, ?_, ?_⟩
  · intro s data boundary hdata hcr hlf hfree
    exact ⟨_, _, uploadBody_reads_back n s data boundary hlo hhi hdata hcr hlf hfree, rfl,
      parseIntBytes_decimalString n hlo hhi⟩
  · intro req hreq
    rw [hb.1] at hreq
    simp only [List.mem_singleton] at hreq
    subst hreq
    exact hr
  · intro req hreq
    rw [hb.2] at hreq
    simp only [List.mem_singleton] at hreq
    subst hreq
    exact hr
  · intro m hmlo hmhi heq
    have hbm := Finish_Retract_form_body lib c cx h m hmlo hmhi hc hfin hret
    rw [hbm.1, hb.1] at heq
    simp only [List.cons.injEq, and_true] at heq
    have hbody := congrArg Request.Body heq
    simp only [Client.request] at hbody
    have hm := readIdField_body m hmlo hmhi
    rw [hbody, hr] at hm
    exact (Option.some.inj hm).symm
  · intro m hmlo hmhi heq
    have hbm := Finish_Retract_form_body lib c cx h m hmlo hmhi hc hfin hret
    rw [hbm.2, hb.2] at heq
    simp only [List.cons.injEq, and_true] at heq
    have hbody := congrArg Request.Body heq
    simp only [Client.request] at hbody
    have hm := readIdField_body m hmlo hmhi
    rw [hbody, hr] at hm
    exact (Option.some.inj hm).symm

/-- C27 at the least 64-bit identifier. -/
theorem identifier_encoding_lossless_witness :
    ParseInt (FormatInt (-9223372036854775808)) = some (-9223372036854775808) ∧
    (∀ req ∈ (Client.Finish (stubLib (.ok { }) (.ok { }))
        (stubClient { StatusCode := 200, Body := [] }) (some { id := 0 })
        (-9223372036854775808)).calls,
      readIdField req.Body = some (-9223372036854775808)) :=
  have h := identifier_encoding_lossless (stubLib (.ok { }) (.ok { }))
    (stubClient { StatusCode := 200, Body := [] }) { id := 0 }
    (stubHttpClient { StatusCode := 200, Body := [] }) (-9223372036854775808)
    (by decide) (by decide) rfl rfl rfl
  ⟨h.1, h.2.2.2.1⟩

/-- The character of a digit is not a dash. -/
theorem digitChar_ne_dash (d : Nat) (hd : d < 10) : digitChar d ≠ '-' :=
  (digitChar_ne_sign d hd).1

/-- Two digits read as a number. -/
theorem parseUint_two (a b : Nat) (ha : a < 10) (hb : b < 10) :
    parseUint [digitChar a, digitChar b] = some (a * 10 + b) := by
  simp [parseUint, parseDigits, digitValue_digitChar, ha, hb]

/-- Four digits read as a number. -/
theorem parseUint_four (a b c d : Nat) (ha : a < 10) (hb : b < 10) (hc : c < 10) (hd : d < 10) :
    parseUint [digitChar a, digitChar b, digitChar c, digitChar d]
      = some (((a * 10 + b) * 10 + c) * 10 + d) := by
  simp [parseUint, parseDigits, digitValue_digitChar, ha, hb, hc, hd]

/-- The fields of a string of four digits, two digits and two digits with
dashes between them. -/
theorem splitDash_token (y1 y2 y3 y4 m1 m2 d1 d2 : Nat) (h1 : y1 < 10) (h2 : y2 < 10)
    (h3 : y3 < 10) (h4 : y4 < 10) (h5 : m1 < 10) (h6 : m2 < 10) (h7 : d1 < 10) (h8 : d2 < 10) :
    splitDash [digitChar y1, digitChar y2, digitChar y3, digitChar y4, '-',
        digitChar m1, digitChar m2, '-', digitChar d1, digitChar d2]
      = [[digitChar y1, digitChar y2, digitChar y3, digitChar y4],
         [digitChar m1, digitChar m2], [digitChar d1, digitChar d2]] := by
  simp [splitDash, digitChar_ne_dash, h1, h2, h3, h4, h5, h6, h7, h8]

/-- C28: dates read back on the calendar range.  For every year from 0 to
9999, month from 1 to 12 and day from 1 to 31, the string of
`NewDate(y, m, d)` has length 10, and its three fields between the two dashes,
read as decimal numbers, are `y`, `m` and `d`.  `NewDate` stores the three
components as they are given, without validating them: `NewDate(2023, 2, 31)`
is kept and formats as `"2023-02-31"`. -/
theorem Date_String_reads_back (year month day : Int)
    (hy0 : 0 ≤ year) (hy1 : year ≤ 9999) (hm0 : 1 ≤ month) (hm1 : month ≤ 12)
    (hd0 : 1 ≤ day) (hd1 : day ≤ 31) :
    (NewDate year month day).String.length = 10 ∧
    readDate (NewDate year month day).String = some (year, month, day) ∧
    ((NewDate year month day).year = year ∧ (NewDate year month day).month = month ∧
      (NewDate year month day).day = day) ∧
    (NewDate 2023 2 31).String = "2023-02-31" := by
  have ht := Date_String_token year month day hy0 hy1 (by omega) (by omega) (by omega) (by omega)
  refine ⟨ht.2.1, ?_, ⟨rfl, rfl, rfl⟩, by decide⟩
  rw [ht.1]
  have hy : year.toNat < 10000 := by omega
  have hm : month.toNat < 100 := by omega
  have hd : day.toNat < 100 := by omega
  have hsplit := splitDash_token (year.toNat / 1000) (year.toNat / 100 % 10)
    (year.toNat / 10 % 10) (year.toNat % 10) (month.toNat / 10) (month.toNat % 10)
    (day.toNat / 10) (day.toNat % 10) (by omega) (by omega) (by omega) (by omega) (by omega)
    (by omega) (by omega) (by omega)
  have hpy := parseUint_four (year.toNat / 1000) (year.toNat / 100 % 10)
    (year.toNat / 10 % 10) (year.toNat % 10) (by omega) (by omega) (by omega) (by omega)
  have hpm := parseUint_two (month.toNat / 10) (month.toNat % 10) (by omega) (by omega)
  have hpd := parseUint_two (day.toNat / 10) (day.toNat % 10) (by omega) (by omega)
  have ey : (((year.toNat / 1000 * 10 + year.toNat / 100 % 10) * 10 + year.toNat / 10 % 10) * 10
      + year.toNat % 10 : Nat) = year.toNat := by omega
  have em : (month.toNat / 10 * 10 + month.toNat % 10 : Nat) = month.toNat := by omega
  have ed : (day.toNat / 10 * 10 + day.toNat % 10 : Nat) = day.toNat := by omega
  rw [ey] at hpy
  rw [em] at hpm
  rw [ed] at hpd
  simp only [readDate, hsplit, hpy, hpm, hpd]
  have e1 : ((year.toNat : Nat) : Int) = year := by omega
  have e2 : ((month.toNat : Nat) : Int) = month := by omega
  have e3 : ((day.toNat : Nat) : Int) = day := by omega
  rw [e1, e2, e3]

/-- C28 at `NewDate(2023, 2, 31)`, a day that no calendar has. -/
theorem Date_String_reads_back_witness :
    (NewDate 2023 2 31).String = "2023-02-31" ∧
    readDate (NewDate 2023 2 31).String = some (2023, 2, 31) :=
  have h := Date_String_reads_back 2023 2 31 (by decide) (by decide) (by decide) (by decide)
    (by decide) (by decide)
  ⟨h.2.2.2, h.2.1⟩

/-! ## No state between calls -/

/-- The method `post` leaves the struct of its receiver as it was. -/
theorem post_keeps_client {σ : Type} (lib : Lib) (ctx : Option Context)
    (path contentType : String) (body : Bytes) (s : Stateful.Store σ) :
    (Stateful.Client.post lib ctx path contentType body s).1.client = s.client := by
  simp only [Stateful.Client.post]
  split
  · rfl
  · split
    · rfl
    · split <;> rfl

/-- The run of `post` in a store is the run of `post` on the client of the
store with its HTTP client taken at the present state of the world. -/
theorem post_run_snapshot {σ : Type} (lib : Lib) (ctx : Option Context)
    (path contentType : String) (body : Bytes) (s : Stateful.Store σ) :
    (Stateful.Client.post lib ctx path contentType body s).2
      = s.snapshot.post lib ctx path contentType body := by
  simp only [Stateful.Client.post, Client.post, Stateful.Store.snapshot]
  split
  · rfl
  · cases hc : s.client.httpClient with
    | none => rfl
    | some h =>
      simp only [Option.map_some']
      split <;> rename_i hd <;> simp [hd]

/-- Every operation leaves the struct of its receiver as it was, however the
call ends. -/
theorem perform_keeps_client {σ : Type} (lib : Lib) (ctx : Option Context) (call : Call)
    (s : Stateful.Store σ) : (Stateful.perform lib ctx call s).1.client = s.client := by
  cases call with
  | submit report =>
    simp only [Stateful.perform, Stateful.Client.Submit]
    split
    · rfl
    · exact post_keeps_client _ _ _ _ _ _
  | upload reportId filename data boundary =>
    simp only [Stateful.perform, Stateful.Client.Upload]
    split
    · rfl
    · exact post_keeps_client _ _ _ _ _ _
  | fileInfo details =>
    simp only [Stateful.perform, Stateful.Client.FileInfo]
    split
    · rfl
    · exact post_keeps_client _ _ _ _ _ _
  | finish reportId => exact post_keeps_client _ _ _ _ _ _
  | retract reportId => exact post_keeps_client _ _ _ _ _ _

/-- The run of an operation in a store is the run of the operation on the
client of the store with its HTTP client taken at the present state of the
world. -/
theorem perform_run_snapshot {σ : Type} (lib : Lib) (ctx : Option Context) (call : Call)
    (s : Stateful.Store σ) :
    (Stateful.perform lib ctx call s).2 = s.snapshot.perform lib ctx call := by
  cases call with
  | submit report =>
    simp only [Stateful.perform, Client.perform, Stateful.Client.Submit, Client.Submit]
    split
    · rfl
    · simp only [post_run_snapshot]
  | upload reportId filename data boundary =>
    simp only [Stateful.perform, Client.perform, Stateful.Client.Upload, Client.Upload]
    split
    · rfl
    · simp only [post_run_snapshot]
  | fileInfo details =>
    simp only [Stateful.perform, Client.perform, Stateful.Client.FileInfo,
      Client.FileInfo]
    split
    · rfl
    · simp only [post_run_snapshot]
  | finish reportId =>
    simp only [Stateful.perform, Client.perform, Stateful.Client.Finish, Client.Finish,
      post_run_snapshot]
  | retract reportId =>
    simp only [Stateful.perform, Client.perform, Stateful.Client.Retract,
      Client.Retract, post_run_snapshot]

/-- The struct of the receiver after a series of calls is the struct before
it. -/
theorem after_keeps_client {σ : Type} (lib : Lib) (ctx : Option Context) (calls : List Call)
    (s : Stateful.Store σ) : (Stateful.after lib ctx calls s).client = s.client := by
  induction calls generalizing s with
  | nil => rfl
  | cons call calls ih =>
    simp only [Stateful.after]
    rw [ih, perform_keeps_client]

/-- The requests that an operation hands to the transport do not depend on
the state of the world: in two stores with the same client they are the
same. -/
theorem perform_calls_of_same_client {σ : Type} (lib : Lib) (ctx : Option Context) (call : Call)
    (s1 s2 : Stateful.Store σ) (hc : s1.client = s2.client) :
    (Stateful.perform lib ctx call s1).2.calls = (Stateful.perform lib ctx call s2).2.calls := by
  have hpost : ∀ path contentType body,
      (Stateful.Client.post lib ctx path contentType body s1).2.calls
        = (Stateful.Client.post lib ctx path contentType body s2).2.calls := by
    intro path contentType body
    simp only [Stateful.Client.post, hc]
    split
    · rfl
    · split
      · rfl
      · split <;> split <;> rfl
  cases call with
  | submit report =>
    simp only [Stateful.perform, Stateful.Client.Submit]
    split
    · rfl
    · exact hpost _ _ _
  | upload reportId filename data boundary =>
    simp only [Stateful.perform, Stateful.Client.Upload]
    split
    · rfl
    · exact hpost _ _ _
  | fileInfo details =>
    simp only [Stateful.perform, Stateful.Client.FileInfo]
    split
    · rfl
    · exact hpost _ _ _
  | finish reportId => exact hpost _ _ _
  | retract reportId => exact hpost _ _ _

/-- Over a pure HTTP client the operations in state-passing form run as the
operations on the client do, and leave the store as it was. -/
theorem perform_ofPure {σ : Type} (lib : Lib) (ctx : Option Context) (call : Call)
    (c : Cybertipline.Client) (world : σ) :
    (Stateful.perform lib ctx call { client := Stateful.Client.ofPure c, world := world }).2
      = c.perform lib ctx call := by
  rw [perform_run_snapshot]
  have hs : ({ client := Stateful.Client.ofPure c, world := world } :
      Stateful.Store σ).snapshot = c := by
    obtain ⟨u, p, e, h⟩ := c
    cases h with
    | none => rfl
    | some h => rfl
  rw [hs]

/-- C19 as stated fails when the service remembers: in the store of the
remembering service, `Retract(7)` returns nil when it is the first call and
the rejection error when `Finish(7)` was called before it on the same client,
although `Finish` returned nil and left the four fields of the client as they
were and `Retract` hands the same request to the transport both times. -/
theorem later_outcome_depends_on_earlier_call :
    (Stateful.perform rememberingLib background (.finish 7) rememberingStore).2.outcome
      = .returned (.unit, none) ∧
    (Stateful.perform rememberingLib background (.retract 7) rememberingStore).2.outcome
      = .returned (.unit, none) ∧
    (Stateful.perform rememberingLib background (.retract 7)
        (Stateful.perform rememberingLib background (.finish 7) rememberingStore).1).2.outcome
      = .returned (.unit, some (errorsNew "error retracting report")) ∧
    (Stateful.perform rememberingLib background (.retract 7)
        (Stateful.perform rememberingLib background (.finish 7) rememberingStore).1).2.calls
      = (Stateful.perform rememberingLib background (.retract 7) rememberingStore).2.calls ∧
    (Stateful.perform rememberingLib background (.finish 7) rememberingStore).1.client.username
      = "user" ∧
    (Stateful.perform rememberingLib background (.finish 7) rememberingStore).1.client.password
      = "secret" ∧
    (Stateful.perform rememberingLib background (.finish 7) rememberingStore).1.client.environment
      = Testing := by
  decide

/-- C19, amended: no operation keeps local state.  After every call of
`Submit`, `Upload`, `FileInfo`, `Finish` or `Retract`, however it ends, and
after every series of earlier calls, the user name, the password, the
environment and the HTTP client of the client are what they were.  A later
call therefore hands the transport the same requests whichever calls were made
earlier, and when the transport gives the request of the later call the same
answer after the earlier calls as before them, the later call ends in the same
way. -/
theorem operations_keep_no_local_state {σ : Type} (lib : Lib) (ctx : Option Context)
    (s : Stateful.Store σ) (earlier : List Call) (later : Call) :
    (Stateful.perform lib ctx later s).1.client = s.client ∧
    ((Stateful.after lib ctx earlier s).client.username = s.client.username ∧
      (Stateful.after lib ctx earlier s).client.password = s.client.password ∧
      (Stateful.after lib ctx earlier s).client.environment = s.client.environment ∧
      (Stateful.after lib ctx earlier s).client.httpClient = s.client.httpClient) ∧
    (Stateful.perform lib ctx later (Stateful.after lib ctx earlier s)).2.calls
      = (Stateful.perform lib ctx later s).2.calls ∧
    ((∀ h cx contentType body, s.client.httpClient = some h → ctx = some cx →
        later.payload lib = .ok (contentType, body) →
        (h.Do (s.client.request cx later.path contentType body)
            (Stateful.after lib ctx earlier s).world).1
          = (h.Do (s.client.request cx later.path contentType body) s.world).1) →
      (Stateful.perform lib ctx later (Stateful.after lib ctx earlier s)).2
        = (Stateful.perform lib ctx later s).2) := by
  have hk := after_keeps_client lib ctx earlier s
  refine ⟨perform_keeps_client lib ctx later s, ?_, ?_, ?_⟩
  · rw [hk]
    exact ⟨rfl, rfl, rfl, rfl⟩
  · exact perform_calls_of_same_client lib ctx later _ _ hk
  · intro ha
    rw [perform_run_snapshot, perform_run_snapshot]
    apply perform_of_same_answer
    · simp only [Stateful.Store.snapshot, hk]
    · simp only [Stateful.Store.snapshot, hk]
    · simp only [Stateful.Store.snapshot, hk]
    · cases hh : s.client.httpClient with
      | none =>
        left
        simp [Stateful.Store.snapshot, hk, hh]
      | some h =>
        right
        refine ⟨{ Do := fun req => (h.Do req (Stateful.after lib ctx earlier s).world).1 },
          { Do := fun req => (h.Do req s.world).1 },
          by simp only [Stateful.Store.snapshot, hk, hh, Option.map_some'],
          by simp only [Stateful.Store.snapshot, hh, Option.map_some'], ?_⟩
        intro cx contentType body hcx hp
        have h1 := ha h cx contentType body hh hcx hp
        simp only [Stateful.Client.request] at h1
        simp only [Client.request, Stateful.Store.snapshot, hk]
        exact h1

/-- C19, amended, in the store of the remembering service: after an earlier
`Retract(7)`, which the service does not remember, the client is as it was
and `Finish(7)` runs as it would have run as the first call. -/
theorem operations_keep_no_local_state_witness :
    (Stateful.perform rememberingLib background (.finish 7) rememberingStore).1.client
      = rememberingStore.client ∧
    (Stateful.after rememberingLib background [.retract 7] rememberingStore).client.username
      = "user" ∧
    (Stateful.perform rememberingLib background (.finish 7)
        (Stateful.after rememberingLib background [.retract 7] rememberingStore)).2
      = (Stateful.perform rememberingLib background (.finish 7) rememberingStore).2 :=
  have h := operations_keep_no_local_state rememberingLib background rememberingStore
    [.retract 7] (.finish 7)
  ⟨h.1, h.2.1.1, h.2.2.2 (fun _ _ _ _ _ _ _ => rfl)⟩

end Cybertipline
